import Mathlib

/-!
# Grid engine of spot_grid_bot

A shallow embedding of `pkg/grid/calculator.go`, `pkg/types/order.go` and
`pkg/bot/grid_bot.go`, and theorems about it.

Conventions of the embedding:

* The program computes on `float64`. Every definition that computes on prices is
  written once, over a number type `α` with the operations the source uses, and
  is read at two instances: `ℚ` (exact rational arithmetic) and `F64` (IEEE 754
  binary64, round to nearest, ties to even: the arithmetic Go performs). Every
  operation rounds on its own, as on amd64; Go may fuse `x*y + z` on other
  architectures, and the float64 inputs used below give the same values fused.
* Go `int` is `Int`. The only products and differences the program forms on it are
  `gridNum - 1` (formed after validation, so `gridNum ≥ 2`) and `GridNum * 2` on an
  engine that holds a slice of `GridNum` prices, at most `maxSliceLen` of them;
  neither can leave the range of a 64-bit `int`, so no wrap-around is written.
* A Go `error` is `Option String` (`none` is `nil`) carrying the message; a result
  pair `(v, err)` is `Except String _`.
* A nil slice is `none`, a non-nil slice `some l`.
* A call that may not return has a result in `Run`: `ret v` when it returns `v`,
  `crash` when it panics or the runtime stops the program. The one such call is
  `make([]float64, gridNum)` in `CalculateGridLevels`, which panics when `gridNum`
  elements are more than `maxAlloc` bytes and cannot return more elements than the
  heap has room for; that room is the parameter `room` of `CalculateGridLevels` and
  of `NewGridBot`, which calls it.
* The `Exchange` interface is a record of state transformers over an exchange
  state `σ`; the calls the engine makes are logged as a list of `Call`.
* `map[string]types.Order` is an association list with distinct keys; the order
  in which `range` visits it, which Go leaves unspecified, is an input.
* The `context.Context` argument is only handed on to the exchange methods, never
  read by the engine: what it does to a call is part of the state `σ` the exchange
  methods read.
* The mutex is not modelled: the operations are read sequentially.
-/

/-- IEEE 754 binary64, the values of a Go `float64`. `fin neg m e` is the finite value
`(-1)^neg * m * 2^(e - 1074)`, kept canonical: `m < 2^53`, `e ≤ 2045`, and
`2^52 ≤ m` unless `e = 0` (zeros and subnormals). -/
inductive F64 where
  | nan : F64
  | inf (neg : Bool) : F64
  | fin (neg : Bool) (m : Nat) (e : Nat) : F64
deriving DecidableEq

namespace F64

/-- Floor of the base 2 logarithm of `n` (`0` at `0`); `fuel` bounds the halvings. -/
def log2Fuel : Nat → Nat → Nat
  | 0, _ => 0
  | fuel + 1, n => if n < 2 then 0 else log2Fuel fuel (n / 2) + 1

/-- Round the magnitude `num / den` (`0 < den`) to the nearest binary64, ties to even,
with sign `neg`; magnitudes past the largest finite value round to infinity. -/
def round (neg : Bool) (num den : Nat) : F64 :=
  let x := num * 2 ^ 1022 / den
  let q := log2Fuel x x
  let n := num * 2 ^ 1074
  let d := den * 2 ^ q
  let m0 := n / d
  let r := n % d
  let m := if d < 2 * r ∨ (2 * r = d ∧ m0 % 2 = 1) then m0 + 1 else m0
  if m = 2 ^ 53 then (if 2045 ≤ q then inf neg else fin neg (2 ^ 52) (q + 1))
  else if 2046 ≤ q then inf neg else fin neg m q

/-- Unary minus. -/
def neg : F64 → F64
  | nan => nan
  | inf s => inf (!s)
  | fin s m e => fin (!s) m e

/-- Addition `x + y`. -/
def add : F64 → F64 → F64
  | nan, _ => nan
  | _, nan => nan
  | inf s, inf t => if s = t then inf s else nan
  | inf s, fin _ _ _ => inf s
  | fin _ _ _, inf t => inf t
  | fin s m e, fin t n f =>
    let a := m * 2 ^ e
    let b := n * 2 ^ f
    if s = t then round s (a + b) (2 ^ 1074)
    else if a = b then fin false 0 0
    else if b < a then round s (a - b) (2 ^ 1074)
    else round t (b - a) (2 ^ 1074)

/-- Subtraction `x - y`. -/
def sub (a b : F64) : F64 := add a (neg b)

/-- Multiplication `x * y`. -/
def mul : F64 → F64 → F64
  | nan, _ => nan
  | _, nan => nan
  | inf s, inf t => inf (xor s t)
  | inf s, fin t n _ => if n = 0 then nan else inf (xor s t)
  | fin s m _, inf t => if m = 0 then nan else inf (xor s t)
  | fin s m e, fin t n f => round (xor s t) (m * n * 2 ^ (e + f)) (2 ^ 2148)

/-- Division `x / y`. -/
def div : F64 → F64 → F64
  | nan, _ => nan
  | _, nan => nan
  | inf _, inf _ => nan
  | inf s, fin t _ _ => inf (xor s t)
  | fin s _ _, inf t => fin (xor s t) 0 0
  | fin s m e, fin t n f =>
    if n = 0 then (if m = 0 then nan else inf (xor s t))
    else round (xor s t) (m * 2 ^ e) (n * 2 ^ f)

/-- Conversion `float64(i)` of an integer. -/
def ofInt (i : Int) : F64 := round (decide (i < 0)) i.natAbs 1

/-- The binary64 nearest to the rational `n / d` (`0 < d`): the value of a decimal
literal. -/
def ofRatio (n : Int) (d : Nat) : F64 := round (decide (n < 0)) n.natAbs d

/-- Comparison `x < y`; false when either side is NaN. -/
def lt : F64 → F64 → Bool
  | nan, _ => false
  | _, nan => false
  | inf s, inf t => s && !t
  | inf s, fin _ _ _ => s
  | fin _ _ _, inf t => !t
  | fin s m e, fin t n f =>
    let a := m * 2 ^ e
    let b := n * 2 ^ f
    match s, t with
    | false, false => decide (a < b)
    | true, true => decide (b < a)
    | true, false => decide (0 < a ∨ 0 < b)
    | false, true => false

/-- Comparison `x == y`: NaN equals nothing, the two zeros are equal. -/
def eq : F64 → F64 → Bool
  | nan, _ => false
  | _, nan => false
  | inf s, inf t => s == t
  | inf _, fin _ _ _ => false
  | fin _ _ _, inf _ => false
  | fin s m e, fin t n f => (m == 0 && n == 0) || (s == t && m * 2 ^ e == n * 2 ^ f)

/-- Comparison `x <= y`. -/
def le (a b : F64) : Bool := lt a b || eq a b

instance : Zero F64 := ⟨fin false 0 0⟩
instance : Add F64 := ⟨add⟩
instance : Sub F64 := ⟨sub⟩
instance : Mul F64 := ⟨mul⟩
instance : Div F64 := ⟨div⟩
instance : IntCast F64 := ⟨ofInt⟩
instance : LT F64 := ⟨fun a b => lt a b = true⟩
instance : LE F64 := ⟨fun a b => le a b = true⟩
instance : BEq F64 := ⟨eq⟩
instance : DecidableRel (fun a b : F64 => a < b) := fun a b => inferInstanceAs (Decidable (lt a b = true))
instance : DecidableRel (fun a b : F64 => a ≤ b) := fun a b => inferInstanceAs (Decidable (le a b = true))

end F64

/-- A float64 that is a finite number in canonical form, as every finite value of a Go
`float64` is. -/
def F64.Finite : F64 → Prop
  | .fin _ m e => m < 2 ^ 53 ∧ e ≤ 2045 ∧ (e = 0 ∨ 2 ^ 52 ≤ m)
  | _ => False

instance F64.decFinite : (x : F64) → Decidable x.Finite
  | .nan => isFalse (fun h => h)
  | .inf _ => isFalse (fun h => h)
  | .fin _ m e => inferInstanceAs (Decidable (m < 2 ^ 53 ∧ e ≤ 2045 ∧ (e = 0 ∨ 2 ^ 52 ≤ m)))

/-- A float64 whose sign bit is clear, or NaN. -/
inductive F64.SignClear : F64 → Prop
  | nan : F64.SignClear F64.nan
  | inf : F64.SignClear (F64.inf false)
  | fin (m e : Nat) : F64.SignClear (F64.fin false m e)

namespace SpotGridBot

/-! ## pkg/grid/calculator.go -/

/-- ValidateGridParams validates the input parameters for grid calculation: the
error it returns, `none` for `nil`. -/
def ValidateGridParams {α : Type} [Zero α] [LE α] [DecidableRel (fun a b : α => a ≤ b)]
    (lowerPrice upperPrice : α) (gridNum : Int) : Option String :=
  if lowerPrice ≤ 0 ∨ upperPrice ≤ 0 then some "prices must be positive"
  else if lowerPrice ≥ upperPrice then some "upper price must be greater than lower price"
  else if gridNum < 2 then some "grid number must be at least 2"
  else none

/-- The result of a call that may not return: `ret v` when it returns `v`, `crash`
when it panics or the runtime stops the program. -/
inductive Run (β : Type) where
  | ret (value : β) : Run β
  | crash : Run β
deriving DecidableEq

/-- The value a call returned, `d` when it did not return. -/
def Run.getD {β : Type} (r : Run β) (d : β) : β :=
  match r with
  | .ret v => v
  | .crash => d

/-- The largest `n` for which `make([]float64, n)` does not panic with "makeslice: len
out of range" on a 64-bit Go runtime: `maxAlloc`, 2^48 bytes, over the 8 bytes of an
element. -/
def maxSliceLen : Nat := 2 ^ 45

/-- CalculateGridLevels calculates the price levels of the grid: `none` (a nil
slice) when validation fails, else `levels[i] = lowerPrice + float64(i) * interval`
for `i` from `0` to `gridNum - 1`. The slice is made by `make([]float64, gridNum)`,
which returns only when `gridNum` is at most `maxSliceLen` and at most `room`, the
number of elements the heap has room for. -/
def CalculateGridLevels {α : Type} [Zero α] [LE α] [DecidableRel (fun a b : α => a ≤ b)]
    [Add α] [Sub α] [Mul α] [Div α] [IntCast α]
    (room : Nat) (lowerPrice upperPrice : α) (gridNum : Int) : Run (Option (List α)) :=
  match ValidateGridParams lowerPrice upperPrice gridNum with
  | some _ => .ret none
  | none =>
    if gridNum ≤ ((min room maxSliceLen : Nat) : Int) then
      let interval := (upperPrice - lowerPrice) / ((gridNum - 1 : Int) : α)
      .ret (some ((List.range gridNum.toNat).map fun (i : Nat) =>
        lowerPrice + ((i : Int) : α) * interval))
    else .crash

/-! ## pkg/types/order.go -/

/-- Order represents a trading order (`OrderType` is the field `Type`). -/
structure Order (α : Type) where
  Symbol : String
  Side : String
  OrderType : String
  Quantity : α
  Price : α
  TimeInForce : String
deriving DecidableEq

/-! ## pkg/bot/grid_bot.go -/

/-- GridBotConfig holds the configuration for the grid trading bot. -/
structure GridBotConfig (α : Type) where
  Symbol : String
  LowerPrice : α
  UpperPrice : α
  GridNum : Int
  Investment : α
deriving DecidableEq

/-- Exchange defines the interface for interacting with the exchange. Each method
reads and updates the state `σ` of the exchange and of the context it is called in. -/
structure Exchange (α σ : Type) where
  GetSymbolPrice : σ → String → Except String α × σ
  PlaceOrder : σ → Order α → Except String String × σ
  CancelOrder : σ → String → String → Option String × σ
  GetBalance : σ → String → Except String α × σ

/-- One call of a method of `Exchange`, with its arguments. -/
inductive Call (α : Type) where
  | GetSymbolPrice (symbol : String) : Call α
  | PlaceOrder (order : Order α) : Call α
  | CancelOrder (symbol orderID : String) : Call α
  | GetBalance (asset : String) : Call α
deriving DecidableEq

/-- The map `orders`: entries `(orderID, order)` with distinct keys. -/
abbrev OrderMap (α : Type) := List (String × Order α)

/-- The map assignment `m[k] = v`. -/
def OrderMap.set {α : Type} (m : OrderMap α) (k : String) (v : Order α) : OrderMap α :=
  if m.any (fun e => e.1 == k) then m.map (fun e => if e.1 = k then (k, v) else e)
  else m ++ [(k, v)]

/-- GridBot implements a grid trading strategy (the mutex `mu` is left out). -/
structure GridBot (α σ : Type) where
  exchange : Exchange α σ
  config : GridBotConfig α
  levels : List α
  orders : OrderMap α
  running : Bool

/-- What a method of the engine leaves behind: the error it returns, the engine, the
state of the exchange, and the exchange calls it made, in order. -/
structure Outcome (α σ : Type) where
  err : Option String
  bot : GridBot α σ
  state : σ
  calls : List (Call α)

/-- validateConfig validates the bot configuration. -/
def validateConfig {α : Type} [Zero α] [LE α] [DecidableRel (fun a b : α => a ≤ b)]
    (config : GridBotConfig α) : Option String :=
  if config.Symbol = "" then some "symbol is required"
  else if config.Investment ≤ 0 then some "investment must be positive"
  else
    match ValidateGridParams config.LowerPrice config.UpperPrice config.GridNum with
    | some err => some ("invalid grid parameters: " ++ err)
    | none => none

/-- NewGridBot creates a new grid trading bot: `.error` stands for `(nil, err)`. It
does not return when its call of `CalculateGridLevels` does not. -/
def NewGridBot {α σ : Type} [Zero α] [LE α] [DecidableRel (fun a b : α => a ≤ b)]
    [Add α] [Sub α] [Mul α] [Div α] [IntCast α]
    (room : Nat) (exchange : Exchange α σ) (config : GridBotConfig α) :
    Run (Except String (GridBot α σ)) :=
  match validateConfig config with
  | some err => .ret (.error err)
  | none =>
    match CalculateGridLevels room config.LowerPrice config.UpperPrice config.GridNum with
    | .crash => .crash
    | .ret none => .ret (.error "failed to calculate grid levels")
    | .ret (some levels) =>
      .ret (.ok { exchange := exchange, config := config, levels := levels, orders := [],
                  running := false })

/-- The state of the placement loop of `Start`: the order map, the exchange state and
the calls made so far. -/
structure LoopState (α σ : Type) where
  orders : OrderMap α
  state : σ
  calls : List (Call α)

/-- One iteration of the loop `for _, level := range b.levels` of `Start`. -/
def placeLevel {α σ : Type} [BEq α] [LT α] [DecidableRel (fun a b : α => a < b)] [Div α]
    (exchange : Exchange α σ) (symbol : String) (currentPrice quantityPerGrid : α)
    (st : LoopState α σ) (level : α) : LoopState α σ :=
  if level == currentPrice then st
  else
    let order : Order α :=
      if level < currentPrice then
        { Symbol := symbol, Side := "BUY", OrderType := "LIMIT",
          Quantity := quantityPerGrid / level, Price := level, TimeInForce := "GTC" }
      else
        { Symbol := symbol, Side := "SELL", OrderType := "LIMIT",
          Quantity := quantityPerGrid / level, Price := level, TimeInForce := "GTC" }
    match exchange.PlaceOrder st.state order with
    | (.error _, s) => { st with state := s, calls := st.calls ++ [Call.PlaceOrder order] }
    | (.ok orderID, s) =>
      { orders := st.orders.set orderID order, state := s,
        calls := st.calls ++ [Call.PlaceOrder order] }

/-- Start initializes the grid and starts the trading bot. -/
def Start {α σ : Type} [BEq α] [LT α] [DecidableRel (fun a b : α => a < b)] [Div α]
    [IntCast α] (b : GridBot α σ) (s : σ) : Outcome α σ :=
  if b.running then
    { err := some "bot is already running", bot := b, state := s, calls := [] }
  else
    let b1 := { b with running := true }
    match b.exchange.GetSymbolPrice s b.config.Symbol with
    | (.error e, s1) =>
      { err := some ("failed to get current price: " ++ e), bot := b1, state := s1,
        calls := [Call.GetSymbolPrice b.config.Symbol] }
    | (.ok currentPrice, s1) =>
      let quantityPerGrid := b.config.Investment / ((b.config.GridNum * 2 : Int) : α)
      let st := b1.levels.foldl
        (placeLevel b.exchange b.config.Symbol currentPrice quantityPerGrid)
        { orders := b1.orders, state := s1, calls := [Call.GetSymbolPrice b.config.Symbol] }
      { err := none, bot := { b1 with orders := st.orders }, state := st.state, calls := st.calls }

/-- The state of the cancellation sweep of `Stop`: `lastError`, the exchange state and
the calls made so far. -/
structure SweepState (α σ : Type) where
  lastError : Option String
  state : σ
  calls : List (Call α)

/-- One iteration of the loop `for orderID, order := range b.orders` of `Stop`. -/
def cancelEntry {α σ : Type} (exchange : Exchange α σ) (st : SweepState α σ)
    (entry : String × Order α) : SweepState α σ :=
  match exchange.CancelOrder st.state entry.2.Symbol entry.1 with
  | (some err, s) =>
    { lastError := some err, state := s,
      calls := st.calls ++ [Call.CancelOrder entry.2.Symbol entry.1] }
  | (none, s) =>
    { st with state := s, calls := st.calls ++ [Call.CancelOrder entry.2.Symbol entry.1] }

/-- An order in which `range` may visit the map `m`: every entry exactly once. -/
def RangeOrder {α : Type} (m visit : OrderMap α) : Prop := List.Perm visit m

/-- Stop cancels all open orders and stops the bot. `visit` is the order in which
`range b.orders` yields the entries of the map. -/
def Stop {α σ : Type} (b : GridBot α σ) (s : σ) (visit : OrderMap α) : Outcome α σ :=
  if !b.running then
    { err := some "bot is not running", bot := b, state := s, calls := [] }
  else
    let b1 := { b with running := false }
    let st := visit.foldl (cancelEntry b.exchange) { lastError := none, state := s, calls := [] }
    { err := st.lastError, bot := b1, state := st.state, calls := st.calls }

/-- The map returned by `GetStatus`, one field for each key. -/
structure Status (α : Type) where
  running : Bool
  symbol : String
  lowerPrice : α
  upperPrice : α
  gridNum : Int
  investment : α
  openOrders : Nat
deriving DecidableEq

/-- GetStatus returns the current status of the grid bot. -/
def GetStatus {α σ : Type} (b : GridBot α σ) : Status α :=
  { running := b.running, symbol := b.config.Symbol, lowerPrice := b.config.LowerPrice,
    upperPrice := b.config.UpperPrice, gridNum := b.config.GridNum,
    investment := b.config.Investment, openOrders := b.orders.length }

/-- GetStatus as a method call, in the form of `Start` and `Stop`: the snapshot it
returns together with the engine, the exchange state and the exchange calls it leaves
behind. The body of the method only reads fields of the engine. -/
def GetStatusCall {α σ : Type} (b : GridBot α σ) (s : σ) :
    Status α × GridBot α σ × σ × List (Call α) :=
  (GetStatus b, b, s, [])

/-! ## Descriptions used by the statements -/

/-- The laws of `<` and `==` that the statements about sides rely on; they hold over
`ℚ` and over float64 (NaN included). -/
structure CompareLaws (α : Type) [BEq α] [LT α] : Prop where
  lt_asymm : ∀ a b : α, a < b → ¬ b < a
  lt_ne : ∀ a b : α, a < b → (a == b) = false ∧ (b == a) = false

/-- The orders handed to `PlaceOrder` among `calls`, in call order. -/
def submitted {α : Type} : List (Call α) → List (Order α)
  | [] => []
  | Call.PlaceOrder order :: rest => order :: submitted rest
  | Call.GetSymbolPrice _ :: rest => submitted rest
  | Call.CancelOrder _ _ :: rest => submitted rest
  | Call.GetBalance _ :: rest => submitted rest

/-- The order the loop of `Start` builds for `level`. -/
def gridOrder {α : Type} [LT α] [DecidableRel (fun a b : α => a < b)] [Div α]
    (symbol : String) (currentPrice quantityPerGrid level : α) : Order α :=
  { Symbol := symbol, Side := if level < currentPrice then "BUY" else "SELL",
    OrderType := "LIMIT", Quantity := quantityPerGrid / level, Price := level,
    TimeInForce := "GTC" }

/-- The orders the loop of `Start` builds for `levels`: one for each level that is not
`==` to the current price, in the order of the levels. -/
def gridOrders {α : Type} [BEq α] [LT α] [DecidableRel (fun a b : α => a < b)] [Div α]
    (symbol : String) (currentPrice quantityPerGrid : α) (levels : List α) : List (Order α) :=
  (levels.filter (fun level => !(level == currentPrice))).map
    (gridOrder symbol currentPrice quantityPerGrid)

/-- The entries `(orderID, order)` of the placements the exchange acknowledges when
`orders` are submitted one after another from the state `s`. -/
def acknowledged {α σ : Type} (exchange : Exchange α σ) : σ → List (Order α) → OrderMap α
  | _, [] => []
  | s, order :: rest =>
    match exchange.PlaceOrder s order with
    | (.ok orderID, s1) => (orderID, order) :: acknowledged exchange s1 rest
    | (.error _, s1) => acknowledged exchange s1 rest

/-- The errors (`none` for `nil`) the `CancelOrder` calls return when the entries of
`visit` are cancelled one after another from the state `s`. -/
def cancelResults {α σ : Type} (exchange : Exchange α σ) : σ → OrderMap α → List (Option String)
  | _, [] => []
  | s, entry :: rest =>
    (exchange.CancelOrder s entry.2.Symbol entry.1).1 ::
      cancelResults exchange (exchange.CancelOrder s entry.2.Symbol entry.1).2 rest

end SpotGridBot

namespace SpotGridBot

/-! ## Test inputs -/

/-- The configuration of `TestGridBotInitialOrders`. -/
def testConfig : GridBotConfig ℚ :=
  { Symbol := "BTCUSDT", LowerPrice := 25000, UpperPrice := 35000, GridNum := 5,
    Investment := 1000 }

/-- The configuration of the test with 2^62 grid levels, a number the flag `-grids`
accepts. -/
def longConfig : GridBotConfig ℚ :=
  { Symbol := "BTCUSDT", LowerPrice := 25000, UpperPrice := 35000, GridNum := 2 ^ 62,
    Investment := 1000 }

/-- The engine `NewGridBot` builds from `testConfig`. -/
def testBot {σ : Type} (exchange : Exchange ℚ σ) : GridBot ℚ σ :=
  { exchange := exchange, config := testConfig,
    levels := [25000, 27500, 30000, 32500, 35000], orders := [], running := false }

/-- The recorded order of the exchange double of `grid_bot_test.go`. -/
structure mockOrder where
  symbol : String
  side : String
  price : ℚ
  quantity : ℚ
  orderID : String
deriving DecidableEq

/-- The exchange double of `grid_bot_test.go`: its fields are the exchange state. -/
structure mockExchange where
  currentPrice : ℚ
  orders : List (String × mockOrder)
  orderCounter : Nat
deriving DecidableEq

/-- The map assignment `m.orders[orderID] = order` of the double. -/
def mockExchange.record (m : List (String × mockOrder)) (k : String) (v : mockOrder) :
    List (String × mockOrder) :=
  if m.any (fun e => e.1 == k) then m.map (fun e => if e.1 = k then (k, v) else e)
  else m ++ [(k, v)]

/-- The methods of the exchange double of `grid_bot_test.go`. -/
def mockExchange.methods : Exchange ℚ mockExchange where
  GetSymbolPrice := fun m _ => (.ok m.currentPrice, m)
  PlaceOrder := fun m order =>
    let counter := m.orderCounter + 1
    let r := counter + 48
    let orderID := "test_order_" ++
      String.singleton (if Nat.isValidChar r then Char.ofNat r else Char.ofNat 65533)
    (.ok orderID,
      { m with
        orderCounter := counter
        orders := mockExchange.record m.orders orderID
          { symbol := order.Symbol, side := order.Side, price := order.Price,
            quantity := order.Quantity, orderID := orderID } })
  CancelOrder := fun m _ orderID =>
    (none, { m with orders := m.orders.filter (fun e => e.1 != orderID) })
  GetBalance := fun m _ => (.ok 1000, m)

/-- The exchange double as `TestGridBotInitialOrders` sets it up. -/
def mockStart : mockExchange := { currentPrice := 30000, orders := [], orderCounter := 0 }

/-- An exchange that cannot be reached: every call fails. -/
def unreachableExchange : Exchange ℚ Unit where
  GetSymbolPrice := fun s _ => (.error "exchange unavailable", s)
  PlaceOrder := fun s _ => (.error "exchange unavailable", s)
  CancelOrder := fun s _ _ => (some "exchange unavailable", s)
  GetBalance := fun s _ => (.error "exchange unavailable", s)

/-- An exchange that rejects the cancellation of order "2" and accepts every other. -/
def rejectingExchange : Exchange ℚ Unit where
  GetSymbolPrice := fun s _ => (.ok 30000, s)
  PlaceOrder := fun s _ => (.error "not accepting orders", s)
  CancelOrder := fun s _ orderID =>
    (if orderID = "2" then some "cancel rejected" else none, s)
  GetBalance := fun s _ => (.ok 0, s)

/-- A running engine with three recorded orders. -/
def sweepBot : GridBot ℚ Unit :=
  { exchange := rejectingExchange, config := testConfig,
    levels := [25000, 27500, 30000, 32500, 35000],
    orders :=
      [("1", { Symbol := "BTCUSDT", Side := "BUY", OrderType := "LIMIT", Quantity := 1 / 250,
               Price := 25000, TimeInForce := "GTC" }),
       ("2", { Symbol := "BTCUSDT", Side := "BUY", OrderType := "LIMIT", Quantity := 2 / 550,
               Price := 27500, TimeInForce := "GTC" }),
       ("3", { Symbol := "BTCUSDT", Side := "SELL", OrderType := "LIMIT", Quantity := 1 / 350,
               Price := 35000, TimeInForce := "GTC" })],
    running := true }

/-- The engine of the test after `Start` against the exchange double. -/
def testStarted : Outcome ℚ mockExchange := Start (testBot mockExchange.methods) mockStart

/-- The engine of the test after `Start` and then `Stop`, the sweep visiting the
entries in the order they were recorded. -/
def testStopped : Outcome ℚ mockExchange :=
  Stop testStarted.bot testStarted.state testStarted.bot.orders

/-- An exchange that quotes `price` and, reached through a context that is cancelled
once `limit` orders have been placed or cancelled, fails every later `PlaceOrder` and
`CancelOrder` with the error of the context. The state counts those calls. -/
def cancelledContextExchange {α : Type} (price : α) (limit : Nat) : Exchange α Nat where
  GetSymbolPrice := fun n _ => (.ok price, n)
  PlaceOrder := fun n _ =>
    if n < limit then (.ok ("order_" ++ String.singleton (Char.ofNat (n + 49))), n + 1)
    else (.error "context canceled", n + 1)
  CancelOrder := fun n _ _ =>
    if n < limit then (none, n + 1) else (some "context canceled", n + 1)
  GetBalance := fun n _ => (.ok price, n)

/-- An exchange that quotes 30000 and rejects every second order, starting with the
second. The state counts the orders received. -/
def alternatingExchange : Exchange ℚ Nat where
  GetSymbolPrice := fun n _ => (.ok 30000, n)
  PlaceOrder := fun n _ =>
    if n % 2 = 0 then (.ok ("order_" ++ String.singleton (Char.ofNat (n + 49))), n + 1)
    else (.error "order rejected", n + 1)
  CancelOrder := fun n _ _ => (none, n)
  GetBalance := fun n _ => (.ok 0, n)

/-- An exchange that quotes `price` and acknowledges every order with a fresh
identifier. The state counts the orders received. -/
def acceptingExchange {α : Type} (price : α) : Exchange α Nat where
  GetSymbolPrice := fun n _ => (.ok price, n)
  PlaceOrder := fun n _ => (.ok ("order_" ++ String.singleton (Char.ofNat (n + 49))), n + 1)
  CancelOrder := fun n _ _ => (none, n)
  GetBalance := fun n _ => (.ok price, n)

/-- The running engine `sweepBot` on an exchange reached through a context that is
cancelled after the first cancellation. -/
def contextSweepBot : GridBot ℚ Nat :=
  { exchange := cancelledContextExchange 30000 1, config := sweepBot.config,
    levels := sweepBot.levels, orders := sweepBot.orders, running := true }

/-- A float64 configuration: twelve levels from 1 to 16. -/
def floatConfig : GridBotConfig F64 :=
  { Symbol := "BTCUSDT", LowerPrice := F64.ofInt 1, UpperPrice := F64.ofInt 16, GridNum := 12,
    Investment := F64.ofInt 1000 }

/-- The float64 price 15.999999999999998, the largest below 16. -/
def floatPrice : F64 := F64.ofRatio 15999999999999998 1000000000000000

/-- The engine `NewGridBot` builds from `floatConfig`. -/
def floatBot {σ : Type} (exchange : Exchange F64 σ) : GridBot F64 σ :=
  { exchange := exchange, config := floatConfig,
    levels := ((CalculateGridLevels maxSliceLen floatConfig.LowerPrice
      floatConfig.UpperPrice floatConfig.GridNum).getD none).getD [],
    orders := [], running := false }

/-- A float64 configuration whose prices are neighbouring float64 values: three levels
from 2^53 to 2^53 + 2. -/
def denseConfig : GridBotConfig F64 :=
  { Symbol := "BTCUSDT", LowerPrice := F64.ofInt 9007199254740992,
    UpperPrice := F64.ofInt 9007199254740994, GridNum := 3, Investment := F64.ofInt 1000 }

/-- The engine `NewGridBot` builds from `denseConfig`. -/
def denseBot {σ : Type} (exchange : Exchange F64 σ) : GridBot F64 σ :=
  { exchange := exchange, config := denseConfig,
    levels := ((CalculateGridLevels maxSliceLen denseConfig.LowerPrice
      denseConfig.UpperPrice denseConfig.GridNum).getD none).getD [],
    orders := [], running := false }

/-- A float64 configuration with the smallest positive investment, 5e-324: eight
levels from 1 to 30. -/
def dustConfig : GridBotConfig F64 :=
  { Symbol := "BTCUSDT", LowerPrice := F64.ofInt 1, UpperPrice := F64.ofInt 30, GridNum := 8,
    Investment := F64.fin false 1 0 }

/-- The engine `NewGridBot` builds from `dustConfig`. -/
def dustBot {σ : Type} (exchange : Exchange F64 σ) : GridBot F64 σ :=
  { exchange := exchange, config := dustConfig,
    levels := ((CalculateGridLevels maxSliceLen dustConfig.LowerPrice
      dustConfig.UpperPrice dustConfig.GridNum).getD none).getD [],
    orders := [], running := false }

/-! ## Checks of the binary64 model -/

set_option maxRecDepth 10000 in
/-- Known values of IEEE binary64 arithmetic: 0.1 + 0.2 is 0.30000000000000004 and not
0.3, 1/3 is 0x3FD5555555555555, 2^53 + 1 rounds to 2^53, the largest finite value
doubled overflows, half the smallest subnormal rounds to zero and three halves of it to
twice it, and the special cases of zero, infinity and NaN. -/
theorem float64_known_values :
    F64.ofRatio 1 10 + F64.ofRatio 2 10 = F64.ofRatio 30000000000000004 100000000000000000 ∧
    (F64.ofRatio 1 10 + F64.ofRatio 2 10 == F64.ofRatio 3 10) = false ∧
    F64.ofInt 1 / F64.ofInt 3 = F64.fin false 6004799503160661 1020 ∧
    F64.ofInt 9007199254740992 + F64.ofInt 1 = F64.ofInt 9007199254740992 ∧
    F64.ofInt 9007199254740993 = F64.ofInt 9007199254740992 ∧
    F64.fin false 9007199254740991 2045 + F64.fin false 9007199254740991 2045 =
      F64.inf false ∧
    F64.fin false 1 0 / F64.ofInt 2 = F64.fin false 0 0 ∧
    F64.fin false 3 0 / F64.ofInt 2 = F64.fin false 2 0 ∧
    F64.ofInt 1 / (0 : F64) = F64.inf false ∧
    (0 : F64) / (0 : F64) = F64.nan ∧
    (0 : F64) * F64.inf false = F64.nan ∧
    F64.ofInt 1 - F64.ofInt 1 = (0 : F64) ∧
    ¬ (F64.nan ≤ (0 : F64)) ∧ ¬ ((0 : F64) ≤ F64.nan) ∧ (F64.nan == F64.nan) = false ∧
    (F64.fin true 0 0 == (0 : F64)) = true := by
  decide!

set_option maxRecDepth 10000 in
/-- The two cases of `TestCalculateGridLevels` hold in float64 arithmetic as well. -/
theorem CalculateGridLevels_float64_examples :
    CalculateGridLevels maxSliceLen (F64.ofInt 100) (F64.ofInt 200) 5 =
      .ret (some [F64.ofInt 100, F64.ofInt 125, F64.ofInt 150, F64.ofInt 175,
        F64.ofInt 200]) ∧
    CalculateGridLevels maxSliceLen (F64.ofInt 1000) (F64.ofInt 1300) 3 =
      .ret (some [F64.ofInt 1000, F64.ofInt 1150, F64.ofInt 1300]) := by
  decide!

/-! ## Rounding to float64 -/

/-- log2Fuel computes the floor of the base 2 logarithm when the fuel suffices. -/
theorem log2Fuel_spec : ∀ (fuel n : Nat), 1 ≤ n → n ≤ fuel →
    2 ^ F64.log2Fuel fuel n ≤ n ∧ n < 2 ^ (F64.log2Fuel fuel n + 1)
  | 0, n, h1, h2 => by omega
  | fuel + 1, n, h1, h2 => by
    by_cases hn : n < 2
    · have h : F64.log2Fuel (fuel + 1) n = 0 := by simp [F64.log2Fuel, hn]
      rw [h]
      constructor <;> simp <;> omega
    · have h : F64.log2Fuel (fuel + 1) n = F64.log2Fuel fuel (n / 2) + 1 := by
        simp [F64.log2Fuel, hn]
      rw [h]
      obtain ⟨a, b⟩ := log2Fuel_spec fuel (n / 2) (by omega) (by omega)
      constructor
      · rw [pow_succ]; omega
      · rw [pow_succ]; omega

/-- log2Fuel is zero at zero. -/
theorem log2Fuel_zero : F64.log2Fuel 0 0 = 0 := rfl

/-- The parts of a rounding: the exponent, the truncated and the rounded mantissa. -/
theorem round_cases (neg : Bool) (num den : Nat) :
    ∃ q m0 r m : Nat,
      q = F64.log2Fuel (num * 2 ^ 1022 / den) (num * 2 ^ 1022 / den) ∧
      m0 = num * 2 ^ 1074 / (den * 2 ^ q) ∧ r = num * 2 ^ 1074 % (den * 2 ^ q) ∧
      m = (if den * 2 ^ q < 2 * r ∨ (2 * r = den * 2 ^ q ∧ m0 % 2 = 1) then m0 + 1 else m0) ∧
      F64.round neg num den =
        (if m = 2 ^ 53 then (if 2045 ≤ q then F64.inf neg else F64.fin neg (2 ^ 52) (q + 1))
         else if 2046 ≤ q then F64.inf neg else F64.fin neg m q) :=
  ⟨_, _, _, _, rfl, rfl, rfl, rfl, rfl⟩


/-- Arithmetic facts about the parts of a rounding with a positive denominator. -/
theorem round_facts (num den q m0 r m : Nat) (hden : 0 < den)
    (hq : q = F64.log2Fuel (num * 2 ^ 1022 / den) (num * 2 ^ 1022 / den))
    (hm0 : m0 = num * 2 ^ 1074 / (den * 2 ^ q)) (hr : r = num * 2 ^ 1074 % (den * 2 ^ q))
    (hm : m = (if den * 2 ^ q < 2 * r ∨ (2 * r = den * 2 ^ q ∧ m0 % 2 = 1) then m0 + 1
      else m0)) :
    num * 2 ^ 1074 = m0 * (den * 2 ^ q) + r ∧ r < den * 2 ^ q ∧ m0 ≤ m ∧ m ≤ m0 + 1 ∧
    (m = m0 + 1 → 0 < r) ∧ m0 < 2 ^ 53 ∧
    (num * 2 ^ 1022 < den → q = 0) ∧
    (den ≤ num * 2 ^ 1022 → 2 ^ q * den ≤ num * 2 ^ 1022 ∧ 2 ^ 52 ≤ m0) := by
  have hd : 0 < den * 2 ^ q := Nat.mul_pos hden (pow_pos (by norm_num) _)
  have hB : (2 : Nat) ^ 1074 = 2 ^ 1022 * 2 ^ 52 := by rw [← pow_add]
  have h53 : (2 : Nat) ^ 53 = 2 * 2 ^ 52 := by rw [pow_succ]; ring
  have hC : 0 < (2 : Nat) ^ 52 := pow_pos (by norm_num) 52
  have hdecomp : num * 2 ^ 1074 = m0 * (den * 2 ^ q) + r := by
    rw [hm0, hr, Nat.mul_comm (num * 2 ^ 1074 / (den * 2 ^ q))]
    exact (Nat.div_add_mod _ _).symm
  have hrlt : r < den * 2 ^ q := by rw [hr]; exact Nat.mod_lt _ hd
  have hmle : m0 ≤ m ∧ m ≤ m0 + 1 ∧ (m = m0 + 1 → 0 < r) := by
    rw [hm]
    split
    · rename_i hc
      refine ⟨Nat.le_succ _, le_refl _, fun _ => ?_⟩
      rcases hc with hc | ⟨hc, -⟩ <;> omega
    · exact ⟨le_refl _, Nat.le_succ _, fun h => absurd h (by omega)⟩
  -- the exponent
  have hxq : den ≤ num * 2 ^ 1022 →
      2 ^ q * den ≤ num * 2 ^ 1022 ∧ num * 2 ^ 1022 < 2 ^ (q + 1) * den := by
    intro hx
    have hx1 : 1 ≤ num * 2 ^ 1022 / den := (Nat.le_div_iff_mul_le hden).mpr (by omega)
    obtain ⟨a, b⟩ := log2Fuel_spec _ _ hx1 (le_refl _)
    rw [← hq] at a b
    exact ⟨(Nat.le_div_iff_mul_le hden).mp a, (Nat.div_lt_iff_lt_mul hden).mp b⟩
  have hq0 : num * 2 ^ 1022 < den → q = 0 := by
    intro hx
    rw [hq, Nat.div_eq_of_lt hx]
    rfl
  have hm0lt : m0 < 2 ^ 53 := by
    rw [hm0]
    apply Nat.div_lt_of_lt_mul
    by_cases hx : den ≤ num * 2 ^ 1022
    · obtain ⟨-, b⟩ := hxq hx
      have h1 := Nat.mul_lt_mul_of_pos_right b hC
      calc num * 2 ^ 1074 = num * 2 ^ 1022 * 2 ^ 52 := by rw [hB]; ring
        _ < 2 ^ (q + 1) * den * 2 ^ 52 := h1
        _ = den * 2 ^ q * 2 ^ 53 := by rw [h53, pow_succ]; ring
    · have hx2 : num * 2 ^ 1022 < den := by omega
      have hq00 := hq0 hx2
      have h1 := Nat.mul_lt_mul_of_pos_right hx2 hC
      calc num * 2 ^ 1074 = num * 2 ^ 1022 * 2 ^ 52 := by rw [hB]; ring
        _ < den * 2 ^ 52 := h1
        _ ≤ den * 2 ^ q * 2 ^ 53 := by
          rw [hq00, h53]
          simp only [pow_zero, Nat.mul_one]
          exact Nat.mul_le_mul_left _ (by omega)
  refine ⟨hdecomp, hrlt, hmle.1, hmle.2.1, hmle.2.2, hm0lt, hq0, fun hx => ?_⟩
  obtain ⟨a, -⟩ := hxq hx
  refine ⟨a, ?_⟩
  rw [hm0]
  apply (Nat.le_div_iff_mul_le hd).mpr
  have h1 := Nat.mul_le_mul_right (2 ^ 52) a
  calc 2 ^ 52 * (den * 2 ^ q) = 2 ^ q * den * 2 ^ 52 := by ring
    _ ≤ num * 2 ^ 1022 * 2 ^ 52 := h1
    _ = num * 2 ^ 1074 := by rw [hB]; ring


/-- Rounding zero gives the zero of the sign. -/
theorem round_zero (neg : Bool) (den : Nat) : F64.round neg 0 den = F64.fin neg 0 0 := by
  obtain ⟨q, m0, r, mr, hq, hm0, hr, hmr, hround⟩ := round_cases neg 0 den
  have hq0 : q = 0 := by
    rw [hq, Nat.zero_mul, Nat.zero_div]
    rfl
  have hm0v : m0 = 0 := by rw [hm0, Nat.zero_mul, Nat.zero_div]
  have hrv : r = 0 := by rw [hr, Nat.zero_mul, Nat.zero_mod]
  have hmrv : mr = 0 := by
    rw [hmr, hrv, hm0v]
    have hne : ¬ (den * 2 ^ q < 2 * 0 ∨ (2 * 0 = den * 2 ^ q ∧ 0 % 2 = 1)) := by
      rintro (h | ⟨-, h⟩) <;> omega
    rw [if_neg hne]
  rw [hround, hmrv, hq0]
  rw [if_neg (by norm_num), if_neg (by norm_num)]

/-- Rounding never goes below a float64 magnitude that the exact value reaches. -/
theorem round_ge (neg : Bool) (num den m e : Nat) (hden : 0 < den) (hm : m < 2 ^ 53)
    (h : m * 2 ^ e * den ≤ num * 2 ^ 1074) :
    F64.round neg num den = F64.inf neg ∨
    ∃ m1 q1, F64.round neg num den = F64.fin neg m1 q1 ∧ m * 2 ^ e ≤ m1 * 2 ^ q1 := by
  obtain ⟨q, m0, r, mr, hq, hm0, hr, hmr, hround⟩ := round_cases neg num den
  obtain ⟨-, -, hle, -, -, -, hq0, hx⟩ := round_facts num den q m0 r mr hden hq hm0 hr hmr
  have hd : 0 < den * 2 ^ q := Nat.mul_pos hden (pow_pos (by norm_num) _)
  have h53 : (2 : Nat) ^ 53 = 2 * 2 ^ 52 := by rw [pow_succ]; ring
  have hkey : m * 2 ^ e ≤ m0 * 2 ^ q := by
    by_cases hqe : q ≤ e
    · obtain ⟨t, rfl⟩ := Nat.exists_eq_add_of_le hqe
      have h1 : m * 2 ^ t ≤ m0 := by
        rw [hm0]
        apply (Nat.le_div_iff_mul_le hd).mpr
        calc m * 2 ^ t * (den * 2 ^ q) = m * 2 ^ (q + t) * den := by rw [pow_add]; ring
          _ ≤ num * 2 ^ 1074 := h
      calc m * 2 ^ (q + t) = m * 2 ^ t * 2 ^ q := by rw [pow_add]; ring
        _ ≤ m0 * 2 ^ q := Nat.mul_le_mul_right _ h1
    · have hqpos : q ≠ 0 := by omega
      have hx1 : den ≤ num * 2 ^ 1022 := by
        by_contra hc
        exact hqpos (hq0 (by omega))
      obtain ⟨-, h52⟩ := hx hx1
      have hpow : 2 ^ (e + 1) ≤ 2 ^ q := Nat.pow_le_pow_right (by norm_num) (by omega)
      calc m * 2 ^ e ≤ 2 ^ 53 * 2 ^ e := Nat.mul_le_mul_right _ (le_of_lt hm)
        _ = 2 ^ 52 * 2 ^ (e + 1) := by rw [h53, pow_succ]; ring
        _ ≤ m0 * 2 ^ q := Nat.mul_le_mul h52 hpow
  rw [hround]
  by_cases h1 : mr = 2 ^ 53
  · rw [if_pos h1]
    by_cases h2 : 2045 ≤ q
    · rw [if_pos h2]
      exact Or.inl rfl
    · rw [if_neg h2]
      refine Or.inr ⟨_, _, rfl, ?_⟩
      calc m * 2 ^ e ≤ m0 * 2 ^ q := hkey
        _ ≤ mr * 2 ^ q := Nat.mul_le_mul_right _ hle
        _ = 2 ^ 52 * 2 ^ (q + 1) := by rw [h1, h53, pow_succ]; ring
  · rw [if_neg h1]
    by_cases h2 : 2046 ≤ q
    · rw [if_pos h2]
      exact Or.inl rfl
    · rw [if_neg h2]
      exact Or.inr ⟨_, _, rfl, le_trans hkey (Nat.mul_le_mul_right _ hle)⟩

/-- The result of a rounding is an infinity or a finite value of the given sign, and a
finite result is in float64 range. -/
theorem round_shape (neg : Bool) (num den : Nat) (hden : 0 < den) :
    F64.round neg num den = F64.inf neg ∨
    ∃ m1 q1, F64.round neg num den = F64.fin neg m1 q1 ∧ m1 < 2 ^ 53 ∧ q1 ≤ 2045 := by
  obtain ⟨q, m0, r, mr, hq, hm0, hr, hmr, hround⟩ := round_cases neg num den
  obtain ⟨-, -, hle, hle1, -, hlt, -, -⟩ := round_facts num den q m0 r mr hden hq hm0 hr hmr
  rw [hround]
  by_cases h1 : mr = 2 ^ 53
  · rw [if_pos h1]
    by_cases h2 : 2045 ≤ q
    · rw [if_pos h2]
      exact Or.inl rfl
    · rw [if_neg h2]
      exact Or.inr ⟨_, _, rfl, by norm_num, by omega⟩
  · rw [if_neg h1]
    by_cases h2 : 2046 ≤ q
    · rw [if_pos h2]
      exact Or.inl rfl
    · rw [if_neg h2]
      exact Or.inr ⟨_, _, rfl, by omega, by omega⟩

/-- A magnitude up to the largest finite float64 rounds to a finite value. -/
theorem round_fin (neg : Bool) (num den : Nat) (hden : 0 < den)
    (h : num * 2 ^ 1074 ≤ den * ((2 ^ 53 - 1) * 2 ^ 2045)) :
    ∃ m1 q1, F64.round neg num den = F64.fin neg m1 q1 ∧ m1 < 2 ^ 53 ∧ q1 ≤ 2045 := by
  obtain ⟨q, m0, r, mr, hq, hm0, hr, hmr, hround⟩ := round_cases neg num den
  obtain ⟨hdec, -, hle, hle1, hup, hlt, hq0, hx⟩ :=
    round_facts num den q m0 r mr hden hq hm0 hr hmr
  have hB : (2 : Nat) ^ 1074 = 2 ^ 1022 * 2 ^ 52 := by rw [← pow_add]
  have h53 : (2 : Nat) ^ 53 = 2 * 2 ^ 52 := by rw [pow_succ]; ring
  have hC : 0 < (2 : Nat) ^ 52 := pow_pos (by norm_num) 52
  have hqle : q < 2046 := by
    by_cases hx1 : den ≤ num * 2 ^ 1022
    · obtain ⟨a, -⟩ := hx hx1
      have h1 : den * (2 ^ q * 2 ^ 52) ≤ den * ((2 ^ 53 - 1) * 2 ^ 2045) := by
        calc den * (2 ^ q * 2 ^ 52) = 2 ^ q * den * 2 ^ 52 := by ring
          _ ≤ num * 2 ^ 1022 * 2 ^ 52 := Nat.mul_le_mul_right _ a
          _ = num * 2 ^ 1074 := by rw [hB]; ring
          _ ≤ den * ((2 ^ 53 - 1) * 2 ^ 2045) := h
      have h2 : 2 ^ q * 2 ^ 52 ≤ (2 ^ 53 - 1) * 2 ^ 2045 := Nat.le_of_mul_le_mul_left h1 hden
      have h3 : (2 ^ 53 - 1) * 2 ^ 2045 < 2 ^ 2046 * 2 ^ 52 := by
        have : (2 : Nat) ^ 2046 * 2 ^ 52 = 2 ^ 53 * 2 ^ 2045 := by
          rw [← pow_add, ← pow_add]
        rw [this]
        exact Nat.mul_lt_mul_of_pos_right (show 2 ^ 53 - 1 < 2 ^ 53 by norm_num)
          (pow_pos (by norm_num) 2045)
      have h4 : 2 ^ q * 2 ^ 52 < 2 ^ 2046 * 2 ^ 52 := lt_of_le_of_lt h2 h3
      have h5 : 2 ^ q < 2 ^ 2046 := lt_of_mul_lt_mul_right h4 (Nat.zero_le _)
      exact (pow_lt_pow_iff_right₀ (n := q) (m := 2046) (by norm_num : (1 : Nat) < 2)).mp h5
    · rw [hq0 (by omega)]
      norm_num
  rw [hround]
  by_cases h1 : mr = 2 ^ 53
  · rw [if_pos h1]
    by_cases h2 : 2045 ≤ q
    · exfalso
      have hq2045 : q = 2045 := by omega
      have hm0eq : mr = m0 + 1 := by omega
      have hrpos := hup hm0eq
      have hm0v : m0 = 2 ^ 53 - 1 := by omega
      rw [hq2045, hm0v] at hdec
      have hcomm : den * ((2 ^ 53 - 1) * 2 ^ 2045) = (2 ^ 53 - 1) * (den * 2 ^ 2045) := by
        ring
      rw [hcomm, hdec] at h
      exact absurd h (Nat.not_le.mpr (Nat.lt_add_of_pos_right hrpos))
    · rw [if_neg h2]
      exact ⟨_, _, rfl, by norm_num, by omega⟩
  · rw [if_neg h1]
    have h2 : ¬ 2046 ≤ q := by omega
    rw [if_neg h2]
    exact ⟨_, _, rfl, by omega, by omega⟩

/-- A float64 value rounds to itself. -/
theorem round_exact (neg : Bool) (m e : Nat) (hm : m < 2 ^ 53) (he : e ≤ 2045)
    (hnorm : e = 0 ∨ 2 ^ 52 ≤ m) :
    F64.round neg (m * 2 ^ e) (2 ^ 1074) = F64.fin neg m e := by
  have hden : 0 < (2 : Nat) ^ 1074 := pow_pos (by norm_num) 1074
  obtain ⟨q, m0, r, mr, hq, hm0, hr, hmr, hround⟩ := round_cases neg (m * 2 ^ e) (2 ^ 1074)
  obtain ⟨-, -, -, -, -, -, hq0, hx⟩ :=
    round_facts (m * 2 ^ e) (2 ^ 1074) q m0 r mr hden hq hm0 hr hmr
  have hB : (2 : Nat) ^ 1074 = 2 ^ 1022 * 2 ^ 52 := by rw [← pow_add]
  have h53 : (2 : Nat) ^ 53 = 2 * 2 ^ 52 := by rw [pow_succ]; ring
  have hA : 0 < (2 : Nat) ^ 1022 := pow_pos (by norm_num) 1022
  have hqe : q = e := by
    by_cases h52 : 2 ^ 52 ≤ m
    · have hx1 : 2 ^ 1074 ≤ m * 2 ^ e * 2 ^ 1022 := by
        calc (2 : Nat) ^ 1074 = 2 ^ 52 * 1 * 2 ^ 1022 := by rw [hB]; ring
          _ ≤ m * 2 ^ e * 2 ^ 1022 :=
            Nat.mul_le_mul_right _ (Nat.mul_le_mul h52 Nat.one_le_two_pow)
      have hx1' : 1 ≤ m * 2 ^ e * 2 ^ 1022 / 2 ^ 1074 :=
        (Nat.le_div_iff_mul_le hden).mpr (by omega)
      obtain ⟨a, b⟩ := log2Fuel_spec _ _ hx1' (le_refl _)
      rw [← hq] at a b
      have a1 := (Nat.le_div_iff_mul_le hden).mp a
      have b1 := (Nat.div_lt_iff_lt_mul hden).mp b
      -- 2^q * 2^1074 ≤ m * 2^e * 2^1022 < 2^(q+1) * 2^1074
      have hlow : 2 ^ q < 2 ^ (e + 1) := by
        have h1 : 2 ^ q * 2 ^ 52 * 2 ^ 1022 < 2 ^ (e + 1) * 2 ^ 52 * 2 ^ 1022 := by
          calc 2 ^ q * 2 ^ 52 * 2 ^ 1022 = 2 ^ q * 2 ^ 1074 := by rw [hB]; ring
            _ ≤ m * 2 ^ e * 2 ^ 1022 := a1
            _ < 2 ^ 53 * 2 ^ e * 2 ^ 1022 :=
              Nat.mul_lt_mul_of_pos_right
                (Nat.mul_lt_mul_of_pos_right hm (pow_pos (by norm_num) _)) hA
            _ = 2 ^ (e + 1) * 2 ^ 52 * 2 ^ 1022 := by rw [h53, pow_succ]; ring
        exact lt_of_mul_lt_mul_right (lt_of_mul_lt_mul_right h1 (Nat.zero_le _)) (Nat.zero_le _)
      have hhigh : 2 ^ e < 2 ^ (q + 1) := by
        have h1 : 2 ^ e * 2 ^ 52 * 2 ^ 1022 < 2 ^ (q + 1) * 2 ^ 52 * 2 ^ 1022 := by
          calc 2 ^ e * 2 ^ 52 * 2 ^ 1022 ≤ m * 2 ^ e * 2 ^ 1022 := by
                rw [Nat.mul_comm (2 ^ e)]
                exact Nat.mul_le_mul_right _ (Nat.mul_le_mul_right _ h52)
            _ < 2 ^ (q + 1) * 2 ^ 1074 := b1
            _ = 2 ^ (q + 1) * 2 ^ 52 * 2 ^ 1022 := by rw [hB]; ring
        exact lt_of_mul_lt_mul_right (lt_of_mul_lt_mul_right h1 (Nat.zero_le _)) (Nat.zero_le _)
      have i1 := (pow_lt_pow_iff_right₀ (by norm_num : (1 : Nat) < 2)).mp hlow
      have i2 := (pow_lt_pow_iff_right₀ (by norm_num : (1 : Nat) < 2)).mp hhigh
      omega
    · have he0 : e = 0 := by
        rcases hnorm with h | h
        · exact h
        · exact absurd h h52
      rw [he0]
      apply hq0
      rw [he0, hB]
      have : m < 2 ^ 52 := by omega
      calc m * 2 ^ 0 * 2 ^ 1022 = m * 2 ^ 1022 := by ring
        _ < 2 ^ 52 * 2 ^ 1022 := Nat.mul_lt_mul_of_pos_right this hA
        _ = 2 ^ 1022 * 2 ^ 52 := by ring
  have hd : 0 < 2 ^ 1074 * 2 ^ q := Nat.mul_pos hden (pow_pos (by norm_num) _)
  have hm0v : m0 = m := by
    rw [hm0, hqe]
    have : m * 2 ^ e * 2 ^ 1074 = m * (2 ^ 1074 * 2 ^ e) := by ring
    rw [this]
    exact Nat.mul_div_cancel _ (by rw [← hqe]; exact hd)
  have hrv : r = 0 := by
    rw [hr, hqe]
    have : m * 2 ^ e * 2 ^ 1074 = m * (2 ^ 1074 * 2 ^ e) := by ring
    rw [this]
    exact Nat.mul_mod_left _ _
  have hmrv : mr = m := by
    rw [hmr, hrv, hm0v]
    have hne : ¬ (2 ^ 1074 * 2 ^ q < 2 * 0 ∨ (2 * 0 = 2 ^ 1074 * 2 ^ q ∧ m % 2 = 1)) := by
      rintro (h | ⟨h, -⟩) <;> omega
    simp only [hne, if_false]
  rw [hround, hmrv, hqe]
  have h1 : ¬ m = 2 ^ 53 := by omega
  have h2 : ¬ 2046 ≤ e := by omega
  rw [if_neg h1, if_neg h2]


/-! ## Float64 levels -/

/-- The result of a rounding has the sign it was given. -/
theorem round_sign (neg : Bool) (num den : Nat) :
    F64.round neg num den = F64.inf neg ∨ ∃ m q, F64.round neg num den = F64.fin neg m q := by
  obtain ⟨q, m0, r, mr, -, -, -, -, hround⟩ := round_cases neg num den
  rw [hround]
  by_cases h1 : mr = 2 ^ 53
  · rw [if_pos h1]
    by_cases h2 : 2045 ≤ q
    · rw [if_pos h2]; exact Or.inl rfl
    · rw [if_neg h2]; exact Or.inr ⟨_, _, rfl⟩
  · rw [if_neg h1]
    by_cases h2 : 2046 ≤ q
    · rw [if_pos h2]; exact Or.inl rfl
    · rw [if_neg h2]; exact Or.inr ⟨_, _, rfl⟩

/-- Multiplication of finite values. -/
theorem mul_fin (s t : Bool) (m e n f : Nat) :
    F64.mul (F64.fin s m e) (F64.fin t n f) =
      F64.round (xor s t) (m * n * 2 ^ (e + f)) (2 ^ 2148) := rfl

/-- Division of finite values. -/
theorem div_fin (s t : Bool) (m e n f : Nat) :
    F64.div (F64.fin s m e) (F64.fin t n f) =
      if n = 0 then (if m = 0 then F64.nan else F64.inf (xor s t))
      else F64.round (xor s t) (m * 2 ^ e) (n * 2 ^ f) := rfl

/-- Addition of finite values. -/
theorem add_fin (s t : Bool) (m e n f : Nat) :
    F64.add (F64.fin s m e) (F64.fin t n f) =
      if s = t then F64.round s (m * 2 ^ e + n * 2 ^ f) (2 ^ 1074)
      else if m * 2 ^ e = n * 2 ^ f then F64.fin false 0 0
      else if n * 2 ^ f < m * 2 ^ e then F64.round s (m * 2 ^ e - n * 2 ^ f) (2 ^ 1074)
      else F64.round t (n * 2 ^ f - m * 2 ^ e) (2 ^ 1074) := rfl

/-- A rounding with sign bit clear has its sign bit clear. -/
theorem signClear_round (num den : Nat) : F64.SignClear (F64.round false num den) := by
  rcases round_sign false num den with h | ⟨m, q, h⟩
  · rw [h]; exact F64.SignClear.inf
  · rw [h]; exact F64.SignClear.fin m q

/-- The conversion of a non-negative integer has its sign bit clear. -/
theorem signClear_ofInt (i : Int) (hi : 0 ≤ i) : F64.SignClear (F64.ofInt i) := by
  have h : decide (i < 0) = false := decide_eq_false (by omega)
  show F64.SignClear (F64.round (decide (i < 0)) i.natAbs 1)
  rw [h]
  exact signClear_round _ _

/-- Products of values with clear sign bits have a clear sign bit. -/
theorem signClear_mul (a b : F64) (ha : F64.SignClear a) (hb : F64.SignClear b) :
    F64.SignClear (F64.mul a b) := by
  cases ha with
  | nan => cases b <;> exact F64.SignClear.nan
  | inf =>
    cases hb with
    | nan => exact F64.SignClear.nan
    | inf => exact F64.SignClear.inf
    | fin n f =>
      show F64.SignClear (if n = 0 then F64.nan else F64.inf false)
      split
      · exact F64.SignClear.nan
      · exact F64.SignClear.inf
  | fin m e =>
    cases hb with
    | nan => exact F64.SignClear.nan
    | inf =>
      show F64.SignClear (if m = 0 then F64.nan else F64.inf false)
      split
      · exact F64.SignClear.nan
      · exact F64.SignClear.inf
    | fin n f =>
      rw [mul_fin]
      exact signClear_round (m * n * 2 ^ (e + f)) (2 ^ 2148)

/-- Quotients of values with clear sign bits have a clear sign bit. -/
theorem signClear_div (a b : F64) (ha : F64.SignClear a) (hb : F64.SignClear b) :
    F64.SignClear (F64.div a b) := by
  cases ha with
  | nan => cases b <;> exact F64.SignClear.nan
  | inf =>
    cases hb with
    | nan => exact F64.SignClear.nan
    | inf => exact F64.SignClear.nan
    | fin n f => exact F64.SignClear.inf
  | fin m e =>
    cases hb with
    | nan => exact F64.SignClear.nan
    | inf => exact F64.SignClear.fin 0 0
    | fin n f =>
      rw [div_fin]
      split
      · split
        · exact F64.SignClear.nan
        · exact F64.SignClear.inf
      · exact signClear_round (m * 2 ^ e) (n * 2 ^ f)


/-- What passing validation says of the three parameters, in any number type. -/
theorem ValidateGridParams_none_parts {α : Type} [Zero α] [LE α]
    [DecidableRel (fun a b : α => a ≤ b)] (lowerPrice upperPrice : α) (gridNum : Int)
    (h : ValidateGridParams lowerPrice upperPrice gridNum = none) :
    ¬ lowerPrice ≤ 0 ∧ ¬ upperPrice ≤ 0 ∧ ¬ upperPrice ≤ lowerPrice ∧ 2 ≤ gridNum := by
  unfold ValidateGridParams at h
  split_ifs at h with h1 h2 h3
  exact ⟨fun c => h1 (Or.inl c), fun c => h1 (Or.inr c), h2, by omega⟩

/-- A float64 that is not `<= 0` is NaN, +Inf or a positive finite number. -/
theorem float64_not_le_zero (x : F64) (h : ¬ x ≤ 0) :
    x = F64.nan ∨ x = F64.inf false ∨ ∃ m e, 0 < m ∧ x = F64.fin false m e := by
  change ¬ (F64.le x (F64.fin false 0 0) = true) at h
  cases x with
  | nan => exact Or.inl rfl
  | inf s =>
    cases s with
    | false => exact Or.inr (Or.inl rfl)
    | true => exact absurd rfl h
  | fin s m e =>
    rcases Nat.eq_zero_or_pos m with hm | hm
    · subst hm
      exact absurd (by simp [F64.le, F64.lt, F64.eq]) h
    · cases s with
      | false => exact Or.inr (Or.inr ⟨m, e, hm, rfl⟩)
      | true =>
        have hpos : 0 < m * 2 ^ e := Nat.mul_pos hm (pow_pos (by norm_num) e)
        exact absurd (by simp [F64.le, F64.lt, hpos]) h

/-- The difference `upper - lower` of validated prices has a clear sign bit. -/
theorem signClear_sub (lower upper : F64) (hl : ¬ lower ≤ 0) (hu : ¬ upper ≤ 0)
    (hlu : ¬ upper ≤ lower) : F64.SignClear (F64.sub upper lower) := by
  change ¬ (F64.le upper lower = true) at hlu
  rcases float64_not_le_zero upper hu with rfl | rfl | ⟨n, f, hn, rfl⟩
  · cases lower <;> exact F64.SignClear.nan
  · rcases float64_not_le_zero lower hl with rfl | rfl | ⟨m, e, hm, rfl⟩
    · exact F64.SignClear.nan
    · exact absurd rfl hlu
    · exact F64.SignClear.inf
  · rcases float64_not_le_zero lower hl with rfl | rfl | ⟨m, e, hm, rfl⟩
    · exact F64.SignClear.nan
    · exact absurd rfl hlu
    · have hlt : m * 2 ^ e < n * 2 ^ f := by
        by_contra hc
        apply hlu
        rcases Nat.lt_or_eq_of_le (Nat.not_lt.mp hc) with h1 | h1
        · simp [F64.le, F64.lt, h1]
        · simp [F64.le, F64.eq, h1]
      show F64.SignClear (F64.add (F64.fin false n f) (F64.fin true m e))
      rw [add_fin, if_neg (by decide), if_neg (Nat.ne_of_gt hlt), if_pos hlt]
      exact signClear_round _ _

/-- Adding a value with clear sign bit to a validated lower price never gives zero. -/
theorem float64_add_ne_zero (lower x : F64) (hl : ¬ lower ≤ 0) (hx : F64.SignClear x) :
    F64.eq (F64.add lower x) (F64.fin false 0 0) = false := by
  rcases float64_not_le_zero lower hl with rfl | rfl | ⟨m, e, hm, rfl⟩
  · cases x <;> rfl
  · cases hx <;> rfl
  · cases hx with
    | nan => rfl
    | inf => rfl
    | fin n f =>
      rw [add_fin, if_pos rfl]
      have hge : 1 * 2 ^ 0 * 2 ^ 1074 ≤ (m * 2 ^ e + n * 2 ^ f) * 2 ^ 1074 := by
        have h1 : 1 ≤ m * 2 ^ e := Nat.mul_pos hm (pow_pos (by norm_num) e)
        have h2 : 1 ≤ m * 2 ^ e + n * 2 ^ f := Nat.le_trans h1 (Nat.le_add_right _ _)
        calc 1 * 2 ^ 0 * 2 ^ 1074 = 1 * 2 ^ 1074 := by ring
          _ ≤ (m * 2 ^ e + n * 2 ^ f) * 2 ^ 1074 := Nat.mul_le_mul_right _ h2
      have h53 : 1 < 2 ^ 53 := Nat.one_lt_two_pow (by norm_num)
      have hden : 0 < 2 ^ 1074 := pow_pos (by norm_num) 1074
      rcases round_ge false _ _ 1 0 hden h53 hge with
        h | ⟨m1, q1, h, hle⟩
      · rw [h]; rfl
      · rw [h]
        have hm1 : m1 ≠ 0 := by
          rintro rfl
          simp at hle
        simp [F64.eq, hm1]

/-- The float64 level at index `i`, as the code computes it. -/
theorem float64_level_eq (lower upper : F64) (gridNum : Int) (i : Nat) :
    lower + ((i : Int) : F64) * ((upper - lower) / ((gridNum - 1 : Int) : F64)) =
      F64.add lower (F64.mul (F64.ofInt i)
        (F64.div (F64.sub upper lower) (F64.ofInt (gridNum - 1)))) := rfl

/-- No float64 level of a validated input is `== 0`, whatever the prices. -/
theorem float64_level_ne_zero (lower upper : F64) (gridNum : Int) (i : Nat)
    (hv : ValidateGridParams lower upper gridNum = none) :
    ((lower + ((i : Int) : F64) * ((upper - lower) / ((gridNum - 1 : Int) : F64))) == 0)
      = false := by
  obtain ⟨hl, hu, hlu, hn⟩ := ValidateGridParams_none_parts lower upper gridNum hv
  rw [float64_level_eq]
  exact float64_add_ne_zero lower _ hl
    (signClear_mul _ _ (signClear_ofInt _ (Int.natCast_nonneg i))
      (signClear_div _ _ (signClear_sub lower upper hl hu hlu)
        (signClear_ofInt _ (by omega))))


/-- The largest finite float64, in units of 2^-1074, dominates every canonical one. -/
theorem fin_le_max (m e : Nat) (hm : m < 2 ^ 53) (he : e ≤ 2045) :
    m * 2 ^ e ≤ (2 ^ 53 - 1) * 2 ^ 2045 :=
  Nat.mul_le_mul (Nat.le_sub_one_of_lt hm) (pow_le_pow_right₀ (by norm_num) he)

/-- The conversion of a Go `int` that is not negative is finite. -/
theorem ofInt_fin (i : Int) (h0 : 0 ≤ i) (hi : i < 2 ^ 63) :
    ∃ a b, F64.ofInt i = F64.fin false a b ∧ a < 2 ^ 53 ∧ b ≤ 2045 := by
  have h : decide (i < 0) = false := decide_eq_false (by omega)
  show ∃ a b, F64.round (decide (i < 0)) i.natAbs 1 = F64.fin false a b ∧ a < 2 ^ 53 ∧ b ≤ 2045
  rw [h]
  have hn : i.natAbs ≤ 2 ^ 63 := by omega
  have h1 : (2 : Nat) ^ 63 * 2 ^ 1074 ≤ 1 * 2 ^ 2045 := by
    rw [← pow_add, one_mul]
    exact pow_le_pow_right₀ (by norm_num) (by norm_num)
  have h2 : 1 * 2 ^ 2045 ≤ (2 ^ 53 - 1) * 2 ^ 2045 :=
    Nat.mul_le_mul_right _ (by norm_num)
  have h3 : i.natAbs * 2 ^ 1074 ≤ 1 * ((2 ^ 53 - 1) * 2 ^ 2045) := by
    rw [one_mul]
    exact Nat.le_trans (Nat.mul_le_mul_right _ hn) (Nat.le_trans h1 h2)
  exact round_fin false i.natAbs 1 Nat.one_pos h3

/-- The conversion of a positive integer is +Inf or at least one. -/
theorem ofInt_ge_one (k : Int) (hk : 1 ≤ k) :
    F64.ofInt k = F64.inf false ∨
    ∃ a b, F64.ofInt k = F64.fin false a b ∧ 2 ^ 1074 ≤ a * 2 ^ b := by
  have h : decide (k < 0) = false := decide_eq_false (by omega)
  show F64.round (decide (k < 0)) k.natAbs 1 = F64.inf false ∨
    ∃ a b, F64.round (decide (k < 0)) k.natAbs 1 = F64.fin false a b ∧ 2 ^ 1074 ≤ a * 2 ^ b
  rw [h]
  have hn : 1 ≤ k.natAbs := by omega
  have h52 : 2 ^ 52 < 2 ^ 53 := by norm_num
  have hB : 2 ^ 52 * 2 ^ 1022 = 2 ^ 1074 := by rw [← pow_add]
  have hge : 2 ^ 52 * 2 ^ 1022 * 1 ≤ k.natAbs * 2 ^ 1074 := by
    rw [mul_one, hB]
    exact Nat.le_mul_of_pos_left _ hn
  rcases round_ge false _ _ (2 ^ 52) 1022 Nat.one_pos h52 hge with h | ⟨a, b, h, hle⟩
  · exact Or.inl h
  · exact Or.inr ⟨a, b, h, by rw [← hB]; exact hle⟩

/-- A finite validated price is a positive canonical number. -/
theorem float64_finite_price (x : F64) (hx : x.Finite) (hpos : ¬ x ≤ 0) :
    ∃ m e, x = F64.fin false m e ∧ 0 < m ∧ m < 2 ^ 53 ∧ e ≤ 2045 ∧ (e = 0 ∨ 2 ^ 52 ≤ m) := by
  rcases float64_not_le_zero x hpos with rfl | rfl | ⟨m, e, hm, rfl⟩
  · exact False.elim hx
  · exact False.elim hx
  · obtain ⟨h1, h2, h3⟩ := hx
    exact ⟨m, e, rfl, hm, h1, h2, h3⟩

/-- For finite validated prices the interval is a finite number that is not negative. -/
theorem float64_interval_fin (lower upper : F64) (gridNum : Int)
    (hl : lower.Finite) (hu : upper.Finite)
    (hv : ValidateGridParams lower upper gridNum = none) :
    ∃ p q, F64.div (F64.sub upper lower) (F64.ofInt (gridNum - 1)) = F64.fin false p q := by
  obtain ⟨hl0, hu0, hlu, hn⟩ := ValidateGridParams_none_parts lower upper gridNum hv
  obtain ⟨m, e, rfl, hm, hm53, he, -⟩ := float64_finite_price lower hl hl0
  obtain ⟨n, f, rfl, hn0, hn53, hf, -⟩ := float64_finite_price upper hu hu0
  change ¬ (F64.le (F64.fin false n f) (F64.fin false m e) = true) at hlu
  have hlt : m * 2 ^ e < n * 2 ^ f := by
    by_contra hc
    apply hlu
    rcases Nat.lt_or_eq_of_le (Nat.not_lt.mp hc) with h1 | h1
    · simp [F64.le, F64.lt, h1]
    · simp [F64.le, F64.eq, h1]
  have hden : 0 < 2 ^ 1074 := pow_pos (by norm_num) 1074
  have hsub : ∃ c d, F64.sub (F64.fin false n f) (F64.fin false m e) = F64.fin false c d ∧
      c < 2 ^ 53 ∧ d ≤ 2045 := by
    show ∃ c d, F64.add (F64.fin false n f) (F64.fin true m e) = F64.fin false c d ∧
      c < 2 ^ 53 ∧ d ≤ 2045
    rw [add_fin, if_neg (by decide), if_neg (Nat.ne_of_gt hlt), if_pos hlt]
    apply round_fin false _ _ hden
    rw [Nat.mul_comm]
    exact Nat.mul_le_mul_left _
      (Nat.le_trans (Nat.sub_le _ _) (fin_le_max n f hn53 hf))
  obtain ⟨c, d, hcd, hc53, hd⟩ := hsub
  rw [hcd]
  rcases ofInt_ge_one (gridNum - 1) (by omega) with h | ⟨a, b, h, hab⟩
  · rw [h]; exact ⟨0, 0, rfl⟩
  · rw [h, div_fin]
    have ha : a ≠ 0 := by
      rintro rfl
      rw [Nat.zero_mul] at hab
      exact absurd hab (Nat.not_le.mpr hden)
    rw [if_neg ha]
    have hpos : 0 < a * 2 ^ b := Nat.lt_of_lt_of_le hden hab
    obtain ⟨p, q, hpq, -, -⟩ := round_fin false (c * 2 ^ d) (a * 2 ^ b) hpos (by
      calc c * 2 ^ d * 2 ^ 1074 ≤ c * 2 ^ d * (a * 2 ^ b) := Nat.mul_le_mul_left _ hab
        _ = a * 2 ^ b * (c * 2 ^ d) := Nat.mul_comm _ _
        _ ≤ a * 2 ^ b * ((2 ^ 53 - 1) * 2 ^ 2045) :=
            Nat.mul_le_mul_left _ (fin_le_max c d hc53 hd))
    exact ⟨p, q, hpq⟩

/-- In float64 the first level is exactly the lower price, for finite prices. -/
theorem float64_level_zero (lower upper : F64) (gridNum : Int)
    (hl : lower.Finite) (hu : upper.Finite)
    (hv : ValidateGridParams lower upper gridNum = none) :
    lower + (((0 : Nat) : Int) : F64) * ((upper - lower) / ((gridNum - 1 : Int) : F64))
      = lower := by
  obtain ⟨p, q, hpq⟩ := float64_interval_fin lower upper gridNum hl hu hv
  obtain ⟨hl0, -, -, -⟩ := ValidateGridParams_none_parts lower upper gridNum hv
  obtain ⟨m, e, rfl, hm, hm53, he, hnorm⟩ := float64_finite_price lower hl hl0
  rw [float64_level_eq, hpq]
  have h0 : F64.ofInt ((0 : Nat) : Int) = F64.fin false 0 0 := round_zero false 1
  rw [h0, mul_fin]
  have hz : 0 * p * 2 ^ (0 + q) = 0 := by rw [Nat.zero_mul, Nat.zero_mul]
  rw [hz]
  have hr : F64.round (xor false false) 0 (2 ^ 2148) = F64.fin false 0 0 :=
    round_zero false (2 ^ 2148)
  rw [hr, add_fin, if_pos rfl]
  have hs : m * 2 ^ e + 0 * 2 ^ 0 = m * 2 ^ e := by rw [Nat.zero_mul, Nat.add_zero]
  rw [hs]
  exact round_exact false m e hm53 he hnorm

/-- In float64 every level is at least the lower price and strictly positive, for
finite prices and an index that is a Go `int`. -/
theorem float64_level_ge (lower upper : F64) (gridNum : Int) (i : Nat)
    (hl : lower.Finite) (hu : upper.Finite)
    (hv : ValidateGridParams lower upper gridNum = none) (hi : (i : Int) < 2 ^ 63) :
    lower ≤ lower + ((i : Int) : F64) * ((upper - lower) / ((gridNum - 1 : Int) : F64)) ∧
    0 < lower + ((i : Int) : F64) * ((upper - lower) / ((gridNum - 1 : Int) : F64)) := by
  obtain ⟨p, q, hpq⟩ := float64_interval_fin lower upper gridNum hl hu hv
  obtain ⟨hl0, -, -, -⟩ := ValidateGridParams_none_parts lower upper gridNum hv
  obtain ⟨m, e, rfl, hm, hm53, he, hnorm⟩ := float64_finite_price lower hl hl0
  obtain ⟨a, b, hab, -, -⟩ := ofInt_fin (i : Int) (Int.natCast_nonneg i) hi
  rw [float64_level_eq, hpq, hab, mul_fin]
  have hpos : 0 < m * 2 ^ e := Nat.mul_pos hm (pow_pos (by norm_num) e)
  have key : ∀ y : F64, (y = F64.inf false ∨ ∃ n f, y = F64.fin false n f) →
      F64.le (F64.fin false m e) (F64.add (F64.fin false m e) y) = true ∧
      F64.lt (F64.fin false 0 0) (F64.add (F64.fin false m e) y) = true := by
    rintro y (rfl | ⟨n, f, rfl⟩)
    · exact ⟨rfl, rfl⟩
    · rw [add_fin, if_pos rfl]
      have hden : 0 < 2 ^ 1074 := pow_pos (by norm_num) 1074
      have hge : m * 2 ^ e * 2 ^ 1074 ≤ (m * 2 ^ e + n * 2 ^ f) * 2 ^ 1074 :=
        Nat.mul_le_mul_right _ (Nat.le_add_right _ _)
      rcases round_ge false _ _ m e hden hm53 hge with h | ⟨m1, q1, h, hle⟩
      · rw [h]; exact ⟨rfl, rfl⟩
      · rw [h]
        have h1 : 0 < m1 * 2 ^ q1 := Nat.lt_of_lt_of_le hpos hle
        constructor
        · rcases Nat.lt_or_eq_of_le hle with h2 | h2
          · simp [F64.le, F64.lt, h2]
          · simp [F64.le, F64.eq, h2]
        · simp [F64.lt, h1]
  exact key _ (round_sign false _ _)

/-! ## Grid calculator -/

/-- Over the rationals, validation succeeds exactly on `0 < lower < upper`, `0 < upper`
and `2 ≤ gridNum`. -/
theorem ValidateGridParams_none_iff (lower upper : ℚ) (gridNum : Int) :
    ValidateGridParams lower upper gridNum = none ↔
      0 < lower ∧ 0 < upper ∧ lower < upper ∧ 2 ≤ gridNum := by
  unfold ValidateGridParams
  by_cases h1 : lower ≤ 0 ∨ upper ≤ 0
  · simp only [h1, if_true]
    constructor
    · intro h; cases h
    · rintro ⟨a, b, -, -⟩
      rcases h1 with h | h <;> linarith
  · by_cases h2 : lower ≥ upper
    · simp only [h1, h2, if_true, if_false]
      constructor
      · intro h; cases h
      · rintro ⟨-, -, c, -⟩
        exact absurd h2 (not_le.mpr c)
    · by_cases h3 : gridNum < 2
      · simp only [h1, h2, h3, if_true, if_false]
        constructor
        · intro h; cases h
        · rintro ⟨-, -, -, d⟩
          omega
      · simp only [h1, h2, h3, if_false, true_iff]
        push_neg at h1 h2 h3
        exact ⟨h1.1, h1.2, h2, h3⟩

/-- A length above `maxSliceLen` is more than `make` can return, whatever room the heap
has. -/
theorem not_fits_of_gt (room : Nat) (gridNum : Int) (h : (maxSliceLen : Int) < gridNum) :
    ¬ gridNum ≤ ((min room maxSliceLen : Nat) : Int) := by
  have h1 : min room maxSliceLen ≤ maxSliceLen := Nat.min_le_right _ _
  omega

/-- Each level is computed from an index below `gridNum`, in any number type. -/
theorem levels_list_mem {α : Type} [Add α] [Sub α] [Mul α] [Div α] [IntCast α]
    (lower upper : α) (gridNum : Int) (level : α)
    (h : level ∈ (List.range gridNum.toNat).map fun (i : Nat) =>
      lower + ((i : Int) : α) * ((upper - lower) / ((gridNum - 1 : Int) : α))) :
    ∃ i : Nat, (i : Int) < gridNum ∧
      level = lower + ((i : Int) : α) * ((upper - lower) / ((gridNum - 1 : Int) : α)) := by
  rw [List.mem_map] at h
  obtain ⟨i, hi, rfl⟩ := h
  rw [List.mem_range] at hi
  exact ⟨i, by omega, rfl⟩

/-- A length `make` can allocate is a 64-bit `int`. -/
theorem fits_lt (room : Nat) (gridNum : Int)
    (hfit : gridNum ≤ ((min room maxSliceLen : Nat) : Int)) : gridNum < 2 ^ 63 := by
  have h1 : min room maxSliceLen ≤ maxSliceLen := Nat.min_le_right _ _
  have h3 : maxSliceLen = 2 ^ 45 := rfl
  omega

/-- When validation succeeds and `make` returns, the result is the list of the
`gridNum` values the loop writes. -/
theorem CalculateGridLevels_of_valid {α : Type} [Zero α] [LE α]
    [DecidableRel (fun a b : α => a ≤ b)] [Add α] [Sub α] [Mul α] [Div α] [IntCast α]
    (room : Nat) (lower upper : α) (gridNum : Int)
    (h : ValidateGridParams lower upper gridNum = none)
    (hfit : gridNum ≤ ((min room maxSliceLen : Nat) : Int)) :
    CalculateGridLevels room lower upper gridNum =
      .ret (some ((List.range gridNum.toNat).map fun (i : Nat) =>
        lower + ((i : Int) : α) * ((upper - lower) / ((gridNum - 1 : Int) : α)))) := by
  unfold CalculateGridLevels
  rw [h]
  exact if_pos hfit

/-- When validation fails the result is nil. -/
theorem CalculateGridLevels_of_invalid {α : Type} [Zero α] [LE α]
    [DecidableRel (fun a b : α => a ≤ b)] [Add α] [Sub α] [Mul α] [Div α] [IntCast α]
    (room : Nat) (lower upper : α) (gridNum : Int) (e : String)
    (h : ValidateGridParams lower upper gridNum = some e) :
    CalculateGridLevels room lower upper gridNum = .ret none := by
  unfold CalculateGridLevels
  rw [h]

/-- When validation succeeds and `make` does not return, neither does
CalculateGridLevels. -/
theorem CalculateGridLevels_of_unfit {α : Type} [Zero α] [LE α]
    [DecidableRel (fun a b : α => a ≤ b)] [Add α] [Sub α] [Mul α] [Div α] [IntCast α]
    (room : Nat) (lower upper : α) (gridNum : Int)
    (h : ValidateGridParams lower upper gridNum = none)
    (hfit : ¬ gridNum ≤ ((min room maxSliceLen : Nat) : Int)) :
    CalculateGridLevels room lower upper gridNum = .crash := by
  unfold CalculateGridLevels
  rw [h]
  exact if_neg hfit

/-- What a returned sequence says of the call that returned it: the input passed
validation, `make` could allocate the levels, and the sequence is the one the loop
writes. -/
theorem CalculateGridLevels_inv {α : Type} [Zero α] [LE α]
    [DecidableRel (fun a b : α => a ≤ b)] [Add α] [Sub α] [Mul α] [Div α] [IntCast α]
    (room : Nat) (lower upper : α) (gridNum : Int) (levels : List α)
    (h : CalculateGridLevels room lower upper gridNum = .ret (some levels)) :
    ValidateGridParams lower upper gridNum = none ∧
    gridNum ≤ ((min room maxSliceLen : Nat) : Int) ∧
    levels = (List.range gridNum.toNat).map fun (i : Nat) =>
      lower + ((i : Int) : α) * ((upper - lower) / ((gridNum - 1 : Int) : α)) := by
  cases hv : ValidateGridParams lower upper gridNum with
  | some e =>
    rw [CalculateGridLevels_of_invalid room lower upper gridNum e hv] at h
    cases h
  | none =>
    by_cases hfit : gridNum ≤ ((min room maxSliceLen : Nat) : Int)
    · rw [CalculateGridLevels_of_valid room lower upper gridNum hv hfit] at h
      cases h
      exact ⟨rfl, hfit, rfl⟩
    · rw [CalculateGridLevels_of_unfit room lower upper gridNum hv hfit] at h
      cases h

/-- The i-th level over the rationals, for a valid input that `make` can allocate. -/
theorem CalculateGridLevels_getElem (room : Nat) (lower upper : ℚ) (gridNum : Int)
    (h : ValidateGridParams lower upper gridNum = none)
    (hfit : gridNum ≤ ((min room maxSliceLen : Nat) : Int)) :
    ∃ levels, CalculateGridLevels room lower upper gridNum = .ret (some levels) ∧
      (levels.length : Int) = gridNum ∧
      ∀ i : Nat, (i : Int) < gridNum →
        levels[i]? = some (lower + (i : ℚ) * (upper - lower) / ((gridNum : ℚ) - 1)) := by
  have hv := (ValidateGridParams_none_iff lower upper gridNum).mp h
  refine ⟨_, CalculateGridLevels_of_valid room lower upper gridNum h hfit, ?_, ?_⟩
  · rw [List.length_map, List.length_range]
    omega
  · intro i hi
    have hi2 : i < gridNum.toNat := by omega
    rw [List.getElem?_map, List.getElem?_range hi2]
    simp only [Option.map_some']
    congr 1
    push_cast
    ring

/-- The levels of a valid input that `make` can allocate, in any number type: there
are `gridNum` of them and each is computed from its index. -/
theorem CalculateGridLevels_levels {α : Type} [Zero α] [LE α]
    [DecidableRel (fun a b : α => a ≤ b)] [Add α] [Sub α] [Mul α] [Div α] [IntCast α]
    (room : Nat) (lower upper : α) (gridNum : Int)
    (h : ValidateGridParams lower upper gridNum = none)
    (hfit : gridNum ≤ ((min room maxSliceLen : Nat) : Int)) :
    ∃ levels, CalculateGridLevels room lower upper gridNum = .ret (some levels) ∧
      (levels.length : Int) = gridNum ∧
      (∀ i : Nat, (i : Int) < gridNum → levels[i]? =
        some (lower + ((i : Int) : α) * ((upper - lower) / ((gridNum - 1 : Int) : α)))) ∧
      ∀ level ∈ levels, ∃ i : Nat, (i : Int) < gridNum ∧
        level = lower + ((i : Int) : α) * ((upper - lower) / ((gridNum - 1 : Int) : α)) := by
  obtain ⟨-, -, -, h2⟩ := ValidateGridParams_none_parts lower upper gridNum h
  refine ⟨_, CalculateGridLevels_of_valid room lower upper gridNum h hfit, ?_, ?_, ?_⟩
  · rw [List.length_map, List.length_range]
    omega
  · intro i hi
    have hi2 : i < gridNum.toNat := by omega
    rw [List.getElem?_map, List.getElem?_range hi2]
    rfl
  · intro level hl
    exact levels_list_mem lower upper gridNum level hl

/-- C1 (amended). For every input accepted by ValidateGridParams whose gridNum is no
more than make can allocate (at most maxSliceLen elements, and no more than the heap has
room for), CalculateGridLevels returns exactly gridNum values whose i-th element is
lower + i * (upper - lower) / (gridNum - 1), in exact rational arithmetic;
(100, 200, 5) gives [100, 125, 150, 175, 200] and (1000, 1300, 3) gives
[1000, 1150, 1300]. -/
theorem CalculateGridLevels_formula :
    (∀ (room : Nat) (lower upper : ℚ) (gridNum : Int),
      ValidateGridParams lower upper gridNum = none →
      gridNum ≤ ((min room maxSliceLen : Nat) : Int) →
      ∃ levels, CalculateGridLevels room lower upper gridNum = .ret (some levels) ∧
        (levels.length : Int) = gridNum ∧
        ∀ i : Nat, (i : Int) < gridNum →
          levels[i]? = some (lower + (i : ℚ) * (upper - lower) / ((gridNum : ℚ) - 1))) ∧
    (∀ room : Nat, 5 ≤ room →
      CalculateGridLevels room (100 : ℚ) 200 5 = .ret (some [100, 125, 150, 175, 200])) ∧
    (∀ room : Nat, 3 ≤ room →
      CalculateGridLevels room (1000 : ℚ) 1300 3 = .ret (some [1000, 1150, 1300])) := by
  have hmax : maxSliceLen = 2 ^ 45 := rfl
  refine ⟨CalculateGridLevels_getElem, fun room hroom => ?_, fun room hroom => ?_⟩
  · rw [CalculateGridLevels_of_valid _ _ _ _
      ((ValidateGridParams_none_iff _ _ _).mpr ⟨by norm_num, by norm_num, by norm_num, by norm_num⟩)
      (by rw [hmax]; omega)]
    simp [List.range, List.range.loop]
    norm_num
  · rw [CalculateGridLevels_of_valid _ _ _ _
      ((ValidateGridParams_none_iff _ _ _).mpr ⟨by norm_num, by norm_num, by norm_num, by norm_num⟩)
      (by rw [hmax]; omega)]
    simp [List.range, List.range.loop]
    norm_num

/-- Witness of C1 (amended): the input (100, 200, 5) is accepted, can be allocated, and
has its five levels. -/
theorem CalculateGridLevels_formula_witness :
    ValidateGridParams (100 : ℚ) 200 5 = none ∧
    (5 : Int) ≤ ((min maxSliceLen maxSliceLen : Nat) : Int) ∧
    ∃ levels, CalculateGridLevels maxSliceLen (100 : ℚ) 200 5 = .ret (some levels) ∧
      (levels.length : Int) = 5 ∧
      ∀ i : Nat, (i : Int) < 5 →
        levels[i]? = some ((100 : ℚ) + (i : ℚ) * (200 - 100) / (((5 : Int) : ℚ) - 1)) :=
  ⟨(ValidateGridParams_none_iff _ _ _).mpr ⟨by norm_num, by norm_num, by norm_num, by norm_num⟩,
   by decide,
   CalculateGridLevels_formula.1 maxSliceLen 100 200 5
    ((ValidateGridParams_none_iff _ _ _).mpr ⟨by norm_num, by norm_num, by norm_num, by norm_num⟩)
    (by decide)⟩

/-- C1 fails as stated: the input (100, 200, 2^62) is accepted by ValidateGridParams,
but make([]float64, 2^62) panics whatever room the heap has, so CalculateGridLevels
returns no sequence. -/
theorem CalculateGridLevels_long_grid_no_result :
    ValidateGridParams (100 : ℚ) 200 (2 ^ 62) = none ∧
    (∀ room : Nat, CalculateGridLevels room (100 : ℚ) 200 (2 ^ 62) = Run.crash) ∧
    ∀ room : Nat, ¬ ∃ levels : List ℚ,
      CalculateGridLevels room (100 : ℚ) 200 (2 ^ 62) = .ret (some levels) := by
  have hv : ValidateGridParams (100 : ℚ) 200 (2 ^ 62) = none :=
    (ValidateGridParams_none_iff _ _ _).mpr ⟨by norm_num, by norm_num, by norm_num, by norm_num⟩
  have hc : ∀ room : Nat, CalculateGridLevels room (100 : ℚ) 200 (2 ^ 62) = Run.crash :=
    fun room => CalculateGridLevels_of_unfit room _ _ _ hv
      (not_fits_of_gt room _ (by decide))
  refine ⟨hv, hc, fun room => ?_⟩
  rintro ⟨levels, hl⟩
  rw [hc room] at hl
  cases hl

/-- C2 (amended). In exact rational arithmetic, for 0 < lower < upper and
gridNum ≥ 2, every sequence CalculateGridLevels returns has gridNum levels and is
strictly increasing: levels[i] < levels[i+1] for every 0 ≤ i < gridNum - 1; and it
returns a sequence whenever gridNum is no more than make can allocate. -/
theorem CalculateGridLevels_strictly_increasing (room : Nat) (lower upper : ℚ)
    (gridNum : Int) (h0 : 0 < lower) (h1 : lower < upper) (h2 : 2 ≤ gridNum) :
    (∀ levels, CalculateGridLevels room lower upper gridNum = .ret (some levels) →
      (levels.length : Int) = gridNum ∧
      ∀ i : Nat, (i : Int) + 1 < gridNum →
        ∃ x y, levels[i]? = some x ∧ levels[i + 1]? = some y ∧ x < y) ∧
    (gridNum ≤ ((min room maxSliceLen : Nat) : Int) →
      ∃ levels, CalculateGridLevels room lower upper gridNum = .ret (some levels) ∧
        (levels.length : Int) = gridNum ∧
        ∀ i : Nat, (i : Int) + 1 < gridNum →
          ∃ x y, levels[i]? = some x ∧ levels[i + 1]? = some y ∧ x < y) := by
  have hv : ValidateGridParams lower upper gridNum = none :=
    (ValidateGridParams_none_iff lower upper gridNum).mpr ⟨h0, by linarith, h1, h2⟩
  have hn : (0 : ℚ) < (gridNum : ℚ) - 1 := by
    have : (2 : ℚ) ≤ (gridNum : ℚ) := by exact_mod_cast h2
    linarith
  have hd : 0 < (upper - lower) / ((gridNum : ℚ) - 1) := div_pos (by linarith) hn
  have e1 : ∀ k : ℚ, k * (upper - lower) / ((gridNum : ℚ) - 1) =
      k * ((upper - lower) / ((gridNum : ℚ) - 1)) := fun k => by ring
  have key : ∀ levels, CalculateGridLevels room lower upper gridNum = .ret (some levels) →
      (levels.length : Int) = gridNum ∧
      ∀ i : Nat, (i : Int) + 1 < gridNum →
        ∃ x y, levels[i]? = some x ∧ levels[i + 1]? = some y ∧ x < y := by
    intro levels hret
    obtain ⟨-, hfit, -⟩ := CalculateGridLevels_inv room lower upper gridNum levels hret
    obtain ⟨levels2, hl, hlen, hget⟩ :=
      CalculateGridLevels_getElem room lower upper gridNum hv hfit
    rw [hret] at hl
    cases hl
    refine ⟨hlen, ?_⟩
    intro i hi
    refine ⟨_, _, hget i (by omega), hget (i + 1) (by push_cast; omega), ?_⟩
    rw [e1, e1]
    push_cast
    nlinarith
  refine ⟨key, fun hfit => ?_⟩
  obtain ⟨levels, hl, -, -⟩ := CalculateGridLevels_getElem room lower upper gridNum hv hfit
  exact ⟨levels, hl, key levels hl⟩

/-- Witness of C2 (amended): the grid (100, 200, 5). -/
theorem CalculateGridLevels_strictly_increasing_witness :
    (0 : ℚ) < 100 ∧ (100 : ℚ) < 200 ∧ (2 : Int) ≤ 5 ∧
    (5 : Int) ≤ ((min maxSliceLen maxSliceLen : Nat) : Int) ∧
    ∃ levels, CalculateGridLevels maxSliceLen (100 : ℚ) 200 5 = .ret (some levels) ∧
      (levels.length : Int) = 5 ∧
      ∀ i : Nat, (i : Int) + 1 < 5 →
        ∃ x y, levels[i]? = some x ∧ levels[i + 1]? = some y ∧ x < y :=
  ⟨by norm_num, by norm_num, by norm_num, by decide,
   (CalculateGridLevels_strictly_increasing maxSliceLen 100 200 5 (by norm_num) (by norm_num)
    (by norm_num)).2 (by decide)⟩

set_option maxRecDepth 10000 in
/-- C2 fails in float64 arithmetic: for lower = 2^53, upper = 2^53 + 2 and gridNum = 3
(a valid input) the levels are [2^53, 2^53, 2^53 + 2], so levels[0] < levels[1] is
false. -/
theorem CalculateGridLevels_float64_not_increasing :
    (0 : F64) < F64.ofInt 9007199254740992 ∧
    F64.ofInt 9007199254740992 < F64.ofInt 9007199254740994 ∧
    ValidateGridParams (F64.ofInt 9007199254740992) (F64.ofInt 9007199254740994) 3 = none ∧
    CalculateGridLevels maxSliceLen (F64.ofInt 9007199254740992)
        (F64.ofInt 9007199254740994) 3 =
      .ret (some [F64.ofInt 9007199254740992, F64.ofInt 9007199254740992,
        F64.ofInt 9007199254740994]) ∧
    ¬ (F64.ofInt 9007199254740992 < F64.ofInt 9007199254740992) := by
  decide!

/-- C3 (amended). For every valid input whose gridNum make can allocate: in float64
arithmetic with finite prices the first level is exactly lower; in exact rational
arithmetic (0 < lower < upper, gridNum ≥ 2) the first level is exactly lower and the
last level (index gridNum - 1) is exactly upper. -/
theorem CalculateGridLevels_endpoints (room : Nat) (gridNum : Int)
    (hfit : gridNum ≤ ((min room maxSliceLen : Nat) : Int)) :
    (∀ lower upper : F64, lower.Finite → upper.Finite →
      ValidateGridParams lower upper gridNum = none →
      ∃ levels, CalculateGridLevels room lower upper gridNum = .ret (some levels) ∧
        (levels.length : Int) = gridNum ∧ levels[0]? = some lower) ∧
    (∀ lower upper : ℚ, 0 < lower → lower < upper → 2 ≤ gridNum →
      ∃ levels, CalculateGridLevels room lower upper gridNum = .ret (some levels) ∧
        (levels.length : Int) = gridNum ∧
        levels[0]? = some lower ∧ levels[(gridNum - 1).toNat]? = some upper) := by
  constructor
  · intro lower upper hl hu hv
    obtain ⟨-, -, -, h2⟩ := ValidateGridParams_none_parts lower upper gridNum hv
    obtain ⟨levels, hlev, hlen, hget, -⟩ :=
      CalculateGridLevels_levels room lower upper gridNum hv hfit
    refine ⟨levels, hlev, hlen, ?_⟩
    rw [hget 0 (by push_cast; omega)]
    exact congrArg some (float64_level_zero lower upper gridNum hl hu hv)
  · intro lower upper h0 h1 h2
    have hv : ValidateGridParams lower upper gridNum = none :=
      (ValidateGridParams_none_iff lower upper gridNum).mpr ⟨h0, by linarith, h1, h2⟩
    obtain ⟨levels, hl, hlen, hget⟩ :=
      CalculateGridLevels_getElem room lower upper gridNum hv hfit
    refine ⟨levels, hl, hlen, ?_, ?_⟩
    · rw [hget 0 (by push_cast; omega)]
      simp
    · rw [hget (gridNum - 1).toNat (by omega)]
      have hc : (((gridNum - 1).toNat : Nat) : ℚ) = (gridNum : ℚ) - 1 := by
        have : (((gridNum - 1).toNat : Nat) : Int) = gridNum - 1 := by omega
        have h3 : ((((gridNum - 1).toNat : Nat) : Int) : ℚ) = ((gridNum - 1 : Int) : ℚ) := by
          rw [this]
        push_cast at h3
        exact h3
      have hn : (gridNum : ℚ) - 1 ≠ 0 := by
        have : (2 : ℚ) ≤ (gridNum : ℚ) := by exact_mod_cast h2
        intro h; linarith
      rw [hc]
      congr 1
      field_simp

set_option maxRecDepth 10000 in
/-- Witness of C3 (amended): the grid (1, 30, 8), in float64 and over the rationals. -/
theorem CalculateGridLevels_endpoints_witness :
    (8 : Int) ≤ ((min maxSliceLen maxSliceLen : Nat) : Int) ∧
    (F64.ofInt 1).Finite ∧ (F64.ofInt 30).Finite ∧
    ValidateGridParams (F64.ofInt 1) (F64.ofInt 30) 8 = none ∧
    (∃ levels, CalculateGridLevels maxSliceLen (F64.ofInt 1) (F64.ofInt 30) 8 =
        .ret (some levels) ∧
      (levels.length : Int) = 8 ∧ levels[0]? = some (F64.ofInt 1)) ∧
    (0 : ℚ) < 1 ∧ (1 : ℚ) < 30 ∧ (2 : Int) ≤ 8 ∧
    ∃ levels, CalculateGridLevels maxSliceLen (1 : ℚ) 30 8 = .ret (some levels) ∧
      (levels.length : Int) = 8 ∧
      levels[0]? = some 1 ∧ levels[((8 : Int) - 1).toNat]? = some 30 :=
  ⟨by decide, by decide!, by decide!, by decide!,
   (CalculateGridLevels_endpoints maxSliceLen 8 (by decide)).1 (F64.ofInt 1) (F64.ofInt 30)
    (by decide!) (by decide!) (by decide!),
   by norm_num, by norm_num, by norm_num,
   (CalculateGridLevels_endpoints maxSliceLen 8 (by decide)).2 1 30
    (by norm_num) (by norm_num) (by norm_num)⟩

set_option maxRecDepth 10000 in
/-- C3 fails in float64 arithmetic: for lower = 1, upper = 30 and gridNum = 8 (a valid
input) the last level, index 7, is 30.000000000000004 and not upper = 30; and for
lower = 1, upper = +Inf and gridNum = 2 (a valid input as well) the first level is NaN
and not lower = 1. -/
theorem CalculateGridLevels_float64_last_not_upper :
    (0 : F64) < F64.ofInt 1 ∧ F64.ofInt 1 < F64.ofInt 30 ∧
    ValidateGridParams (F64.ofInt 1) (F64.ofInt 30) 8 = none ∧
    (∃ levels, CalculateGridLevels maxSliceLen (F64.ofInt 1) (F64.ofInt 30) 8 =
        .ret (some levels) ∧
      levels.length = 8 ∧
      levels[7]? = some (F64.ofRatio 30000000000000004 1000000000000000)) ∧
    (F64.ofRatio 30000000000000004 1000000000000000 == F64.ofInt 30) = false ∧
    F64.ofInt 30 < F64.ofRatio 30000000000000004 1000000000000000 ∧
    F64.ofInt 1 < F64.inf false ∧
    ValidateGridParams (F64.ofInt 1) (F64.inf false) 2 = none ∧
    CalculateGridLevels maxSliceLen (F64.ofInt 1) (F64.inf false) 2 =
      .ret (some [F64.nan, F64.inf false]) ∧
    (F64.nan == F64.ofInt 1) = false := by
  refine ⟨by decide!, by decide!, by decide!,
    ⟨_, CalculateGridLevels_of_valid _ _ _ _ (by decide!) (by decide), by decide!, by decide!⟩,
    by decide!, by decide!, by decide!, by decide!, by decide!, by decide!⟩

/-- The inputs ValidateGridParams rejects, whatever the number type. -/
theorem ValidateGridParams_ne_none_iff {α : Type} [Zero α] [LE α]
    [DecidableRel (fun a b : α => a ≤ b)] (lower upper : α) (gridNum : Int) :
    ValidateGridParams lower upper gridNum ≠ none ↔
      (lower ≤ 0 ∨ upper ≤ 0 ∨ lower ≥ upper ∨ gridNum < 2) := by
  unfold ValidateGridParams
  by_cases h1 : lower ≤ 0 <;> by_cases h2 : upper ≤ 0 <;> by_cases h3 : lower ≥ upper <;>
    by_cases h4 : gridNum < 2 <;> simp [h1, h2, h3, h4]

/-- C4. ValidateGridParams returns an error if and only if lower ≤ 0 or upper ≤ 0 or
lower ≥ upper or gridNum < 2; for every other input it returns no error. -/
theorem ValidateGridParams_error_iff {α : Type} [Zero α] [LE α]
    [DecidableRel (fun a b : α => a ≤ b)] (lower upper : α) (gridNum : Int) :
    (ValidateGridParams lower upper gridNum ≠ none ↔
      (lower ≤ 0 ∨ upper ≤ 0 ∨ lower ≥ upper ∨ gridNum < 2)) ∧
    (¬ (lower ≤ 0 ∨ upper ≤ 0 ∨ lower ≥ upper ∨ gridNum < 2) →
      ValidateGridParams lower upper gridNum = none) := by
  refine ⟨ValidateGridParams_ne_none_iff lower upper gridNum, fun h => ?_⟩
  by_contra hc
  exact h ((ValidateGridParams_ne_none_iff lower upper gridNum).mp hc)

/-- C5 (amended). CalculateGridLevels returns nil if and only if ValidateGridParams
returns an error; whenever validation succeeds and gridNum is no more than make can
allocate, the result is a non-nil sequence; whenever validation succeeds and gridNum is
more than that, CalculateGridLevels does not return. -/
theorem CalculateGridLevels_nil_iff {α : Type} [Zero α] [LE α]
    [DecidableRel (fun a b : α => a ≤ b)] [Add α] [Sub α] [Mul α] [Div α] [IntCast α]
    (room : Nat) (lower upper : α) (gridNum : Int) :
    (CalculateGridLevels room lower upper gridNum = .ret none ↔
      ValidateGridParams lower upper gridNum ≠ none) ∧
    (ValidateGridParams lower upper gridNum = none →
      gridNum ≤ ((min room maxSliceLen : Nat) : Int) →
      ∃ levels, CalculateGridLevels room lower upper gridNum = .ret (some levels)) ∧
    (ValidateGridParams lower upper gridNum = none →
      ¬ gridNum ≤ ((min room maxSliceLen : Nat) : Int) →
      CalculateGridLevels room lower upper gridNum = .crash) := by
  cases h : ValidateGridParams lower upper gridNum with
  | none =>
    refine ⟨?_, fun _ hfit => ⟨_, CalculateGridLevels_of_valid room lower upper gridNum h hfit⟩,
      fun _ hfit => CalculateGridLevels_of_unfit room lower upper gridNum h hfit⟩
    by_cases hfit : gridNum ≤ ((min room maxSliceLen : Nat) : Int)
    · rw [CalculateGridLevels_of_valid room lower upper gridNum h hfit]
      simp
    · rw [CalculateGridLevels_of_unfit room lower upper gridNum h hfit]
      simp
  | some e =>
    rw [CalculateGridLevels_of_invalid room lower upper gridNum e h]
    simp

set_option maxRecDepth 10000 in
/-- Witness of C5 (amended): in float64 the grid (25000, 35000, 5) is valid, can be
allocated and has a non-nil result. -/
theorem CalculateGridLevels_nil_iff_witness :
    ValidateGridParams (F64.ofInt 25000) (F64.ofInt 35000) 5 = none ∧
    (5 : Int) ≤ ((min maxSliceLen maxSliceLen : Nat) : Int) ∧
    ∃ levels, CalculateGridLevels maxSliceLen (F64.ofInt 25000) (F64.ofInt 35000) 5 =
      .ret (some levels) :=
  ⟨by decide!, by decide,
   (CalculateGridLevels_nil_iff maxSliceLen (F64.ofInt 25000) (F64.ofInt 35000) 5).2.1
    (by decide!) (by decide)⟩

set_option maxRecDepth 10000 in
/-- C5 fails as stated: in float64 the input (25000, 35000, 2^62) passes validation,
but make([]float64, 2^62) panics whatever room the heap has, so the result is neither
nil nor a non-nil sequence. -/
theorem CalculateGridLevels_valid_without_result :
    ValidateGridParams (F64.ofInt 25000) (F64.ofInt 35000) (2 ^ 62) = none ∧
    ∀ room : Nat,
      CalculateGridLevels room (F64.ofInt 25000) (F64.ofInt 35000) (2 ^ 62) = Run.crash ∧
      ¬ ∃ levels : List F64,
        CalculateGridLevels room (F64.ofInt 25000) (F64.ofInt 35000) (2 ^ 62) =
          .ret (some levels) := by
  have hv : ValidateGridParams (F64.ofInt 25000) (F64.ofInt 35000) (2 ^ 62) = none := by
    decide!
  have hc : ∀ room : Nat,
      CalculateGridLevels room (F64.ofInt 25000) (F64.ofInt 35000) (2 ^ 62) = Run.crash :=
    fun room => CalculateGridLevels_of_unfit room _ _ _ hv
      (not_fits_of_gt room _ (by decide))
  refine ⟨hv, fun room => ⟨hc room, ?_⟩⟩
  rintro ⟨levels, hl⟩
  rw [hc room] at hl
  cases hl

/-! ## Engine construction -/

/-- A valid grid has at least two levels, whatever the number type. -/
theorem ValidateGridParams_none_gridNum {α : Type} [Zero α] [LE α]
    [DecidableRel (fun a b : α => a ≤ b)] (lower upper : α) (gridNum : Int)
    (h : ValidateGridParams lower upper gridNum = none) : 2 ≤ gridNum := by
  have h4 := ValidateGridParams_ne_none_iff lower upper gridNum
  by_contra hc
  exact h4.mpr (Or.inr (Or.inr (Or.inr (by omega)))) h

/-- The error validateConfig returns, case by case. -/
theorem validateConfig_none_iff {α : Type} [Zero α] [LE α]
    [DecidableRel (fun a b : α => a ≤ b)] (config : GridBotConfig α) :
    validateConfig config = none ↔
      ¬ (config.Symbol = "" ∨ config.Investment ≤ 0 ∨
        ValidateGridParams config.LowerPrice config.UpperPrice config.GridNum ≠ none) := by
  unfold validateConfig
  by_cases h1 : config.Symbol = ""
  · simp [h1]
  · by_cases h2 : config.Investment ≤ 0
    · simp [h1, h2]
    · cases h3 : ValidateGridParams config.LowerPrice config.UpperPrice config.GridNum <;>
        simp [h1, h2]

/-- A configuration that passes validateConfig has valid grid parameters. -/
theorem validateConfig_none_grid {α : Type} [Zero α] [LE α]
    [DecidableRel (fun a b : α => a ≤ b)] (config : GridBotConfig α)
    (h : validateConfig config = none) :
    ValidateGridParams config.LowerPrice config.UpperPrice config.GridNum = none := by
  have := (validateConfig_none_iff config).mp h
  by_contra hc
  exact this (Or.inr (Or.inr hc))

/-- The result of NewGridBot on a configuration that passes validateConfig and whose
levels `make` can allocate. -/
theorem NewGridBot_of_valid {α σ : Type} [Zero α] [LE α]
    [DecidableRel (fun a b : α => a ≤ b)] [Add α] [Sub α] [Mul α] [Div α] [IntCast α]
    (room : Nat) (exchange : Exchange α σ) (config : GridBotConfig α)
    (h : validateConfig config = none)
    (hfit : config.GridNum ≤ ((min room maxSliceLen : Nat) : Int)) :
    ∃ levels,
      CalculateGridLevels room config.LowerPrice config.UpperPrice config.GridNum =
        .ret (some levels) ∧
      NewGridBot room exchange config =
        .ret (.ok { exchange := exchange, config := config, levels := levels, orders := [],
                    running := false }) := by
  have hv := validateConfig_none_grid config h
  refine ⟨_, CalculateGridLevels_of_valid room _ _ _ hv hfit, ?_⟩
  unfold NewGridBot
  rw [h, CalculateGridLevels_of_valid room _ _ _ hv hfit]

/-- NewGridBot does not return on a configuration that passes validateConfig and whose
levels `make` cannot allocate. -/
theorem NewGridBot_of_unfit {α σ : Type} [Zero α] [LE α]
    [DecidableRel (fun a b : α => a ≤ b)] [Add α] [Sub α] [Mul α] [Div α] [IntCast α]
    (room : Nat) (exchange : Exchange α σ) (config : GridBotConfig α)
    (h : validateConfig config = none)
    (hfit : ¬ config.GridNum ≤ ((min room maxSliceLen : Nat) : Int)) :
    NewGridBot room exchange config = .crash := by
  have hv := validateConfig_none_grid config h
  unfold NewGridBot
  rw [h, CalculateGridLevels_of_unfit room _ _ _ hv hfit]

/-- NewGridBot returns the error of validateConfig when there is one. -/
theorem NewGridBot_of_invalid {α σ : Type} [Zero α] [LE α]
    [DecidableRel (fun a b : α => a ≤ b)] [Add α] [Sub α] [Mul α] [Div α] [IntCast α]
    (room : Nat) (exchange : Exchange α σ) (config : GridBotConfig α) (e : String)
    (h : validateConfig config = some e) :
    NewGridBot room exchange config = .ret (.error e) := by
  unfold NewGridBot
  rw [h]

/-- What a returned engine says of the call that returned it: the configuration passed
validation, `make` could allocate the levels, and the engine is the one the code
builds. -/
theorem NewGridBot_inv {α σ : Type} [Zero α] [LE α]
    [DecidableRel (fun a b : α => a ≤ b)] [Add α] [Sub α] [Mul α] [Div α] [IntCast α]
    (room : Nat) (exchange : Exchange α σ) (config : GridBotConfig α) (b : GridBot α σ)
    (h : NewGridBot room exchange config = .ret (.ok b)) :
    validateConfig config = none ∧
    ValidateGridParams config.LowerPrice config.UpperPrice config.GridNum = none ∧
    config.GridNum ≤ ((min room maxSliceLen : Nat) : Int) ∧
    b = { exchange := exchange, config := config,
          levels := (List.range config.GridNum.toNat).map fun (i : Nat) =>
            config.LowerPrice + ((i : Int) : α) *
              ((config.UpperPrice - config.LowerPrice) / ((config.GridNum - 1 : Int) : α)),
          orders := [], running := false } := by
  cases hv : validateConfig config with
  | some e =>
    rw [NewGridBot_of_invalid room exchange config e hv] at h
    cases h
  | none =>
    have hg := validateConfig_none_grid config hv
    by_cases hfit : config.GridNum ≤ ((min room maxSliceLen : Nat) : Int)
    · obtain ⟨levels, hl, hb⟩ := NewGridBot_of_valid room exchange config hv hfit
      rw [hb] at h
      rw [CalculateGridLevels_of_valid room _ _ _ hg hfit] at hl
      cases hl
      cases h
      exact ⟨rfl, hg, hfit, rfl⟩
    · rw [NewGridBot_of_unfit room exchange config hv hfit] at h
      cases h

/-- C6 (amended). NewGridBot returns an error and no engine if and only if
config.Symbol is empty, or config.Investment ≤ 0, or ValidateGridParams fails on the grid
parameters; for every other config whose GridNum is no more than make can allocate it
returns an engine and no error, and for every other config whose GridNum is more than
that it does not return. -/
theorem NewGridBot_error_iff {α σ : Type} [Zero α] [LE α]
    [DecidableRel (fun a b : α => a ≤ b)] [Add α] [Sub α] [Mul α] [Div α] [IntCast α]
    (room : Nat) (exchange : Exchange α σ) (config : GridBotConfig α) :
    ((∃ err, NewGridBot room exchange config = .ret (.error err)) ↔
      (config.Symbol = "" ∨ config.Investment ≤ 0 ∨
        ValidateGridParams config.LowerPrice config.UpperPrice config.GridNum ≠ none)) ∧
    (¬ (config.Symbol = "" ∨ config.Investment ≤ 0 ∨
        ValidateGridParams config.LowerPrice config.UpperPrice config.GridNum ≠ none) →
      config.GridNum ≤ ((min room maxSliceLen : Nat) : Int) →
      ∃ b, NewGridBot room exchange config = .ret (.ok b)) ∧
    (¬ (config.Symbol = "" ∨ config.Investment ≤ 0 ∨
        ValidateGridParams config.LowerPrice config.UpperPrice config.GridNum ≠ none) →
      ¬ config.GridNum ≤ ((min room maxSliceLen : Nat) : Int) →
      NewGridBot room exchange config = .crash) := by
  cases h : validateConfig config with
  | none =>
    have hn := (validateConfig_none_iff config).mp h
    refine ⟨⟨?_, fun hc => absurd hc hn⟩, fun _ hfit => ?_,
      fun _ hfit => NewGridBot_of_unfit room exchange config h hfit⟩
    · rintro ⟨err, he⟩
      by_cases hfit : config.GridNum ≤ ((min room maxSliceLen : Nat) : Int)
      · obtain ⟨levels, -, hb⟩ := NewGridBot_of_valid room exchange config h hfit
        rw [hb] at he
        cases he
      · rw [NewGridBot_of_unfit room exchange config h hfit] at he
        cases he
    · obtain ⟨levels, -, hb⟩ := NewGridBot_of_valid room exchange config h hfit
      exact ⟨_, hb⟩
  | some e =>
    have hn : ¬ ¬ (config.Symbol = "" ∨ config.Investment ≤ 0 ∨
        ValidateGridParams config.LowerPrice config.UpperPrice config.GridNum ≠ none) := by
      intro hc
      rw [(validateConfig_none_iff config).mpr hc] at h
      cases h
    have hb := NewGridBot_of_invalid room exchange config e h
    rw [hb]
    exact ⟨⟨fun _ => not_not.mp hn, fun _ => ⟨e, rfl⟩⟩, fun hc => absurd hc hn,
      fun hc => absurd hc hn⟩

/-- C7. For every config on which NewGridBot succeeds, the returned engine is Idle,
has an empty order book, stores the config (and the exchange) unchanged, and its levels
are CalculateGridLevels of the grid parameters, so their number is config.GridNum. -/
theorem NewGridBot_ok {α σ : Type} [Zero α] [LE α]
    [DecidableRel (fun a b : α => a ≤ b)] [Add α] [Sub α] [Mul α] [Div α] [IntCast α]
    (room : Nat) (exchange : Exchange α σ) (config : GridBotConfig α) (b : GridBot α σ)
    (h : NewGridBot room exchange config = .ret (.ok b)) :
    b.running = false ∧ b.orders = [] ∧ b.config = config ∧ b.exchange = exchange ∧
    CalculateGridLevels room config.LowerPrice config.UpperPrice config.GridNum =
      .ret (some b.levels) ∧
    (b.levels.length : Int) = config.GridNum := by
  obtain ⟨-, hg, hfit, rfl⟩ := NewGridBot_inv room exchange config b h
  have h2 := ValidateGridParams_none_gridNum _ _ _ hg
  refine ⟨rfl, rfl, rfl, rfl, CalculateGridLevels_of_valid room _ _ _ hg hfit, ?_⟩
  show (((List.range config.GridNum.toNat).map _).length : Int) = config.GridNum
  rw [List.length_map, List.length_range]
  omega

/-- The engine of the test configuration. -/
theorem NewGridBot_testConfig {σ : Type} (exchange : Exchange ℚ σ) :
    NewGridBot maxSliceLen exchange testConfig = .ret (.ok (testBot exchange)) := by
  have hv : validateConfig testConfig = none := by
    rw [validateConfig_none_iff]
    simp only [testConfig, ne_eq, not_or, not_not]
    refine ⟨by decide, by norm_num, ?_⟩
    exact (ValidateGridParams_none_iff _ _ _).mpr ⟨by norm_num, by norm_num, by norm_num, by norm_num⟩
  obtain ⟨levels, hl, hb⟩ := NewGridBot_of_valid maxSliceLen exchange testConfig hv (by decide)
  rw [hb]
  have hg := validateConfig_none_grid testConfig hv
  rw [CalculateGridLevels_of_valid maxSliceLen _ _ _ hg (by decide)] at hl
  cases hl
  simp only [testBot, testConfig]
  congr 3
  simp [List.range, List.range.loop]
  norm_num

/-- Witness of C6 (amended): the test configuration passes every check, its five levels
can be allocated, and an engine is returned. -/
theorem NewGridBot_error_iff_witness :
    ¬ (testConfig.Symbol = "" ∨ testConfig.Investment ≤ 0 ∨
      ValidateGridParams testConfig.LowerPrice testConfig.UpperPrice testConfig.GridNum
        ≠ none) ∧
    testConfig.GridNum ≤ ((min maxSliceLen maxSliceLen : Nat) : Int) ∧
    ∃ b, NewGridBot maxSliceLen mockExchange.methods testConfig = .ret (.ok b) :=
  ⟨(validateConfig_none_iff testConfig).mp (NewGridBot_inv maxSliceLen mockExchange.methods
      testConfig _ (NewGridBot_testConfig _)).1,
   by decide,
   (NewGridBot_error_iff maxSliceLen mockExchange.methods testConfig).2.1
    ((validateConfig_none_iff testConfig).mp (NewGridBot_inv maxSliceLen mockExchange.methods
      testConfig _ (NewGridBot_testConfig _)).1)
    (by decide)⟩

/-- C6 fails as stated: the configuration of the test with GridNum = 2^62 has a symbol, a
positive investment and grid parameters that ValidateGridParams accepts, but
make([]float64, 2^62) panics whatever room the heap has, so NewGridBot returns neither
an engine nor an error. -/
theorem NewGridBot_long_grid_no_result :
    longConfig.Symbol ≠ "" ∧
    ¬ longConfig.Investment ≤ 0 ∧
    ValidateGridParams longConfig.LowerPrice longConfig.UpperPrice longConfig.GridNum = none ∧
    ∀ room : Nat,
      NewGridBot room mockExchange.methods longConfig = Run.crash ∧
      (¬ ∃ b, NewGridBot room mockExchange.methods longConfig =
        .ret (.ok b)) ∧
      ¬ ∃ err, NewGridBot room mockExchange.methods longConfig =
        .ret (.error err) := by
  have hg : ValidateGridParams longConfig.LowerPrice longConfig.UpperPrice longConfig.GridNum = none :=
    (ValidateGridParams_none_iff _ _ _).mpr
      ⟨by norm_num [longConfig], by norm_num [longConfig], by norm_num [longConfig],
       by norm_num [longConfig]⟩
  have hv : validateConfig longConfig = none := by
    rw [validateConfig_none_iff]
    simp only [ne_eq, not_or, not_not]
    exact ⟨by decide, by norm_num [longConfig], hg⟩
  have hc : ∀ room : Nat,
      NewGridBot room mockExchange.methods longConfig = Run.crash :=
    fun room => NewGridBot_of_unfit room _ _ hv (not_fits_of_gt room _ (by decide))
  refine ⟨by decide, by norm_num [longConfig], hg, fun room => ⟨hc room, ?_, ?_⟩⟩
  · rintro ⟨b, hb⟩
    rw [hc room] at hb
    cases hb
  · rintro ⟨err, he⟩
    rw [hc room] at he
    cases he

/-- Witness of C7: the engine of `TestGridBotInitialOrders`. -/
theorem NewGridBot_ok_witness :
    NewGridBot maxSliceLen mockExchange.methods testConfig =
      .ret (.ok (testBot mockExchange.methods)) ∧
    ((testBot mockExchange.methods).running = false ∧
     (testBot mockExchange.methods).orders = [] ∧
     (testBot mockExchange.methods).config = testConfig ∧
     (testBot mockExchange.methods).exchange = mockExchange.methods ∧
     CalculateGridLevels maxSliceLen testConfig.LowerPrice testConfig.UpperPrice
       testConfig.GridNum = .ret (some (testBot mockExchange.methods).levels) ∧
     ((testBot mockExchange.methods).levels.length : Int) = testConfig.GridNum) :=
  ⟨NewGridBot_testConfig _,
   NewGridBot_ok maxSliceLen mockExchange.methods testConfig (testBot mockExchange.methods)
    (NewGridBot_testConfig _)⟩

/-! ## Start -/

/-- What Start does on an Idle engine when the price fetch fails: it returns the
wrapped error after the one call, with the running flag already set. -/
theorem Start_price_error {α σ : Type} [BEq α] [LT α] [DecidableRel (fun a b : α => a < b)]
    [Div α] [IntCast α] (b : GridBot α σ) (s s1 : σ) (e : String)
    (hidle : b.running = false)
    (hprice : b.exchange.GetSymbolPrice s b.config.Symbol = (.error e, s1)) :
    Start b s =
      { err := some ("failed to get current price: " ++ e),
        bot := { b with running := true }, state := s1,
        calls := [Call.GetSymbolPrice b.config.Symbol] } := by
  unfold Start
  simp only [hidle, hprice]
  rfl

/-- C8 (the code at the failing input). The engine of the test configuration, Idle,
started against an exchange whose GetSymbolPrice fails: Start returns the error and
places no order, but the engine is left with running = true, and a second Start is
rejected as already running. -/
theorem Start_price_failure_leaves_running :
    NewGridBot maxSliceLen unreachableExchange testConfig =
      .ret (.ok (testBot unreachableExchange)) ∧
    (testBot unreachableExchange).running = false ∧
    (Start (testBot unreachableExchange) ()).err =
      some "failed to get current price: exchange unavailable" ∧
    (Start (testBot unreachableExchange) ()).calls = [Call.GetSymbolPrice "BTCUSDT"] ∧
    (Start (testBot unreachableExchange) ()).bot.orders = [] ∧
    (Start (testBot unreachableExchange) ()).bot.running = true ∧
    (Start (Start (testBot unreachableExchange) ()).bot
      (Start (testBot unreachableExchange) ()).state).err = some "bot is already running" :=
  ⟨NewGridBot_testConfig _, rfl, rfl, rfl, rfl, rfl, rfl⟩

/-! ## Stop -/

/-- The sweep logs one CancelOrder call for each entry it visits, in order, whatever
the calls return. -/
theorem foldl_cancelEntry_calls {α σ : Type} (exchange : Exchange α σ)
    (visit : OrderMap α) (st : SweepState α σ) :
    (visit.foldl (cancelEntry exchange) st).calls =
      st.calls ++ visit.map (fun e => Call.CancelOrder e.2.Symbol e.1) := by
  induction visit generalizing st with
  | nil => simp
  | cons entry rest ih =>
    rw [List.foldl_cons, ih]
    have hstep : (cancelEntry exchange st entry).calls =
        st.calls ++ [Call.CancelOrder entry.2.Symbol entry.1] := by
      unfold cancelEntry
      split <;> rfl
    rw [hstep]
    simp

/-- Stop never writes the order map. -/
theorem Stop_orders {α σ : Type} (b : GridBot α σ) (s : σ) (visit : OrderMap α) :
    (Stop b s visit).bot.orders = b.orders := by
  unfold Stop
  split <;> rfl

set_option maxRecDepth 10000 in
/-- C9 (the code at the failing input). The engine of the test, started against the
exchange double (price 30000) and then stopped: Start returns ok and records four
orders, Stop returns ok, cancels the four on the exchange and leaves the engine Idle,
but the order book of the engine still holds the four entries. -/
theorem Stop_leaves_order_book :
    NewGridBot maxSliceLen mockExchange.methods testConfig =
      .ret (.ok (testBot mockExchange.methods)) ∧
    testStarted.err = none ∧
    testStarted.bot.orders =
      [("test_order_1", { Symbol := "BTCUSDT", Side := "BUY", OrderType := "LIMIT",
                          Quantity := 1 / 250, Price := 25000, TimeInForce := "GTC" }),
       ("test_order_2", { Symbol := "BTCUSDT", Side := "BUY", OrderType := "LIMIT",
                          Quantity := 1 / 275, Price := 27500, TimeInForce := "GTC" }),
       ("test_order_3", { Symbol := "BTCUSDT", Side := "SELL", OrderType := "LIMIT",
                          Quantity := 1 / 325, Price := 32500, TimeInForce := "GTC" }),
       ("test_order_4", { Symbol := "BTCUSDT", Side := "SELL", OrderType := "LIMIT",
                          Quantity := 1 / 350, Price := 35000, TimeInForce := "GTC" })] ∧
    testStopped.err = none ∧
    testStopped.state.orders = [] ∧
    testStopped.bot.running = false ∧
    testStopped.bot.orders = testStarted.bot.orders ∧
    testStopped.bot.orders.length = 4 ∧
    (GetStatus testStopped.bot).openOrders = 4 :=
  ⟨NewGridBot_testConfig _, by decide, by decide!, by decide, by decide, by decide, rfl,
   by decide, by decide⟩

/-- C10. For every Running engine, Stop calls Exchange.CancelOrder exactly once for
each entry (orderID, order) of the order book, with arguments (order.Symbol, orderID),
whatever the cancellations return, and makes no other exchange call: the calls of Stop
are the CancelOrder calls of the entries in the order the sweep visits them, a
rearrangement of those of the order book. -/
theorem Stop_cancels_every_entry {α σ : Type} (b : GridBot α σ) (s : σ)
    (visit : OrderMap α) (hrun : b.running = true) (hvisit : RangeOrder b.orders visit) :
    (Stop b s visit).calls = visit.map (fun e => Call.CancelOrder e.2.Symbol e.1) ∧
    List.Perm (Stop b s visit).calls
      (b.orders.map (fun e => Call.CancelOrder e.2.Symbol e.1)) := by
  have hcalls : (Stop b s visit).calls =
      visit.map (fun e => Call.CancelOrder e.2.Symbol e.1) := by
    unfold Stop
    simp only [hrun, Bool.not_true, Bool.false_eq_true, if_false]
    rw [foldl_cancelEntry_calls]
    simp
  refine ⟨hcalls, ?_⟩
  rw [hcalls]
  exact List.Perm.map _ hvisit

/-- Witness of C10: a running engine with three orders whose second cancellation is
rejected; the sweep visits the entries in the order 3, 1, 2. -/
theorem Stop_cancels_every_entry_witness :
    sweepBot.running = true ∧
    RangeOrder sweepBot.orders (sweepBot.orders.rotate 2) ∧
    (Stop sweepBot () (sweepBot.orders.rotate 2)).err = some "cancel rejected" ∧
    (Stop sweepBot () (sweepBot.orders.rotate 2)).calls =
      (sweepBot.orders.rotate 2).map (fun e => Call.CancelOrder e.2.Symbol e.1) ∧
    List.Perm (Stop sweepBot () (sweepBot.orders.rotate 2)).calls
      (sweepBot.orders.map (fun e => Call.CancelOrder e.2.Symbol e.1)) :=
  ⟨rfl, List.rotate_perm _ _, by decide,
   Stop_cancels_every_entry sweepBot () (sweepBot.orders.rotate 2) rfl (List.rotate_perm _ _)⟩

/-! ## The placement loop of Start -/

/-- The comparison laws hold over the rationals. -/
theorem CompareLaws_rat : CompareLaws ℚ where
  lt_asymm := fun _ _ h => lt_asymm h
  lt_ne := fun a b h => by
    constructor
    · exact beq_eq_false_iff_ne.mpr (ne_of_lt h)
    · exact beq_eq_false_iff_ne.mpr (ne_of_gt h)

/-- The orders submitted by two runs of calls, one after the other. -/
theorem submitted_append {α : Type} (xs ys : List (Call α)) :
    submitted (xs ++ ys) = submitted xs ++ submitted ys := by
  induction xs with
  | nil => rfl
  | cons c rest ih => cases c <;> simp [submitted, ih]

/-- The orders submitted by a run of PlaceOrder calls. -/
theorem submitted_map_PlaceOrder {α : Type} (orders : List (Order α)) :
    submitted (orders.map Call.PlaceOrder) = orders := by
  induction orders with
  | nil => rfl
  | cons o rest ih => simp [submitted, ih]

/-- A level equal to the current price is skipped. -/
theorem placeLevel_skip {α σ : Type} [BEq α] [LT α] [DecidableRel (fun a b : α => a < b)]
    [Div α] (exchange : Exchange α σ) (symbol : String) (p q : α) (st : LoopState α σ)
    (level : α) (h : (level == p) = true) :
    placeLevel exchange symbol p q st level = st := by
  unfold placeLevel
  simp [h]

/-- A level not equal to the current price: its order is submitted, and recorded when
the exchange acknowledges it. -/
theorem placeLevel_place {α σ : Type} [BEq α] [LT α] [DecidableRel (fun a b : α => a < b)]
    [Div α] (exchange : Exchange α σ) (symbol : String) (p q : α) (st : LoopState α σ)
    (level : α) (h : (level == p) = false) :
    placeLevel exchange symbol p q st level =
      match exchange.PlaceOrder st.state (gridOrder symbol p q level) with
      | (.error _, s) =>
        { st with state := s, calls := st.calls ++ [Call.PlaceOrder (gridOrder symbol p q level)] }
      | (.ok orderID, s) =>
        { orders := st.orders.set orderID (gridOrder symbol p q level), state := s,
          calls := st.calls ++ [Call.PlaceOrder (gridOrder symbol p q level)] } := by
  have ho : (if level < p then
        ({ Symbol := symbol, Side := "BUY", OrderType := "LIMIT", Quantity := q / level,
           Price := level, TimeInForce := "GTC" } : Order α)
      else
        { Symbol := symbol, Side := "SELL", OrderType := "LIMIT", Quantity := q / level,
          Price := level, TimeInForce := "GTC" }) = gridOrder symbol p q level := by
    unfold gridOrder
    split <;> rfl
  unfold placeLevel
  simp only [h, Bool.false_eq_true, if_false]
  rw [ho]

/-- The whole loop: it submits the orders of `gridOrders`, in order, and records the
acknowledged ones by map assignment. -/
theorem foldl_placeLevel {α σ : Type} [BEq α] [LT α] [DecidableRel (fun a b : α => a < b)]
    [Div α] (exchange : Exchange α σ) (symbol : String) (p q : α) (levels : List α)
    (st : LoopState α σ) :
    (levels.foldl (placeLevel exchange symbol p q) st).calls =
      st.calls ++ (gridOrders symbol p q levels).map Call.PlaceOrder ∧
    (levels.foldl (placeLevel exchange symbol p q) st).orders =
      (acknowledged exchange st.state (gridOrders symbol p q levels)).foldl
        (fun m e => m.set e.1 e.2) st.orders := by
  induction levels generalizing st with
  | nil => simp [gridOrders, acknowledged]
  | cons level rest ih =>
    rw [List.foldl_cons]
    cases h : (level == p) with
    | true =>
      rw [placeLevel_skip exchange symbol p q st level h]
      have hg : gridOrders symbol p q (level :: rest) = gridOrders symbol p q rest := by
        simp [gridOrders, h]
      rw [hg]
      exact ih st
    | false =>
      have hg : gridOrders symbol p q (level :: rest) =
          gridOrder symbol p q level :: gridOrders symbol p q rest := by
        simp [gridOrders, h]
      rw [hg, placeLevel_place exchange symbol p q st level h]
      rcases hp : exchange.PlaceOrder st.state (gridOrder symbol p q level) with ⟨r, s1⟩
      cases r with
      | error e =>
        obtain ⟨h1, h2⟩ := ih
          { orders := st.orders, state := s1,
            calls := st.calls ++ [Call.PlaceOrder (gridOrder symbol p q level)] }
        simp only [acknowledged, hp]
        exact ⟨by rw [h1]; simp, h2⟩
      | ok orderID =>
        obtain ⟨h1, h2⟩ := ih
          { orders := st.orders.set orderID (gridOrder symbol p q level), state := s1,
            calls := st.calls ++ [Call.PlaceOrder (gridOrder symbol p q level)] }
        simp only [acknowledged, hp]
        exact ⟨by rw [h1]; simp, by rw [h2]; simp⟩

/-- Entries with fresh, distinct keys are recorded one after the other. -/
theorem foldl_set_distinct {α : Type} (entries m : OrderMap α)
    (h : ((m ++ entries).map Prod.fst).Nodup) :
    entries.foldl (fun m e => OrderMap.set m e.1 e.2) m = m ++ entries := by
  induction entries generalizing m with
  | nil => simp
  | cons e rest ih =>
    rw [List.foldl_cons]
    have hfresh : m.any (fun x => x.1 == e.1) = false := by
      rw [List.any_eq_false]
      intro x hx hxe
      have hxe2 : x.1 = e.1 := by simpa using hxe
      rw [List.map_append, List.nodup_append] at h
      exact h.2.2 (List.mem_map_of_mem Prod.fst hx)
        (by rw [hxe2]; exact List.mem_map_of_mem Prod.fst (List.mem_cons_self _ _))
    have hset : OrderMap.set m e.1 e.2 = m ++ [e] := by
      unfold OrderMap.set
      simp [hfresh]
    rw [hset, ih (m ++ [e]) (by simpa using h)]
    simp

/-- Start on an Idle engine whose price fetch succeeds with price `p`. -/
theorem Start_price_ok {α σ : Type} [BEq α] [LT α] [DecidableRel (fun a b : α => a < b)]
    [Div α] [IntCast α] (b : GridBot α σ) (s s1 : σ) (p : α)
    (hidle : b.running = false)
    (hprice : b.exchange.GetSymbolPrice s b.config.Symbol = (.ok p, s1)) :
    (Start b s).err = none ∧
    (Start b s).bot.running = true ∧
    (Start b s).bot.config = b.config ∧
    (Start b s).bot.levels = b.levels ∧
    (Start b s).calls = Call.GetSymbolPrice b.config.Symbol ::
      (gridOrders b.config.Symbol p
        (b.config.Investment / ((b.config.GridNum * 2 : Int) : α)) b.levels).map
        Call.PlaceOrder ∧
    (Start b s).bot.orders =
      (acknowledged b.exchange s1 (gridOrders b.config.Symbol p
        (b.config.Investment / ((b.config.GridNum * 2 : Int) : α)) b.levels)).foldl
        (fun m e => m.set e.1 e.2) b.orders := by
  obtain ⟨h1, h2⟩ := foldl_placeLevel b.exchange b.config.Symbol p
    (b.config.Investment / ((b.config.GridNum * 2 : Int) : α)) b.levels
    { orders := b.orders, state := s1, calls := [Call.GetSymbolPrice b.config.Symbol] }
  have hs : Start b s =
      { err := none,
        bot := { b with
          running := true
          orders := (b.levels.foldl (placeLevel b.exchange b.config.Symbol p
            (b.config.Investment / ((b.config.GridNum * 2 : Int) : α)))
            { orders := b.orders, state := s1,
              calls := [Call.GetSymbolPrice b.config.Symbol] }).orders },
        state := (b.levels.foldl (placeLevel b.exchange b.config.Symbol p
            (b.config.Investment / ((b.config.GridNum * 2 : Int) : α)))
            { orders := b.orders, state := s1,
              calls := [Call.GetSymbolPrice b.config.Symbol] }).state,
        calls := (b.levels.foldl (placeLevel b.exchange b.config.Symbol p
            (b.config.Investment / ((b.config.GridNum * 2 : Int) : α)))
            { orders := b.orders, state := s1,
              calls := [Call.GetSymbolPrice b.config.Symbol] }).calls } := by
    unfold Start
    simp only [hidle, hprice]
    rfl
  rw [hs]
  exact ⟨rfl, rfl, rfl, rfl, by rw [h1]; rfl, h2⟩

/-- The float64 comparison `<` is asymmetric. -/
theorem float64_lt_asymm (a b : F64) (h : F64.lt a b = true) : F64.lt b a = false := by
  cases a with
  | nan => simp [F64.lt] at h
  | inf s =>
    cases b with
    | nan => simp [F64.lt] at h
    | inf t => cases s <;> cases t <;> simp [F64.lt] at h ⊢
    | fin t n f => cases s <;> simp [F64.lt] at h ⊢
  | fin s m e =>
    cases b with
    | nan => simp [F64.lt] at h
    | inf t => cases t <;> simp [F64.lt] at h ⊢
    | fin t n f =>
      cases s <;> cases t <;> simp [F64.lt] at h ⊢ <;> omega

/-- Float64 values related by `<` are not `==`. -/
theorem float64_lt_ne (a b : F64) (h : F64.lt a b = true) :
    F64.eq a b = false ∧ F64.eq b a = false := by
  cases a with
  | nan => simp [F64.lt] at h
  | inf s =>
    cases b with
    | nan => simp [F64.lt] at h
    | inf t => cases s <;> cases t <;> simp [F64.lt, F64.eq] at h ⊢
    | fin t n f => simp [F64.eq]
  | fin s m e =>
    cases b with
    | nan => simp [F64.lt] at h
    | inf t => simp [F64.eq]
    | fin t n f =>
      cases s <;> cases t <;> simp [F64.lt, F64.eq] at h ⊢
      · refine ⟨⟨fun hm hn => ?_, fun hc => ?_⟩, ⟨fun hn hm => ?_, fun hc => ?_⟩⟩
        · subst hm; subst hn; simp at h
        · omega
        · subst hm; subst hn; simp at h
        · omega
      · refine ⟨fun hm hn => ?_, fun hn hm => ?_⟩ <;> omega
      · refine ⟨⟨fun hm hn => ?_, fun hc => ?_⟩, ⟨fun hn hm => ?_, fun hc => ?_⟩⟩
        · subst hm; subst hn; simp at h
        · omega
        · subst hm; subst hn; simp at h
        · omega

/-- The comparison laws hold over float64. -/
theorem CompareLaws_float64 : CompareLaws F64 where
  lt_asymm := fun a b h h2 => by
    have h3 := float64_lt_asymm a b h
    have h4 : F64.lt b a = true := h2
    rw [h3] at h4
    cases h4
  lt_ne := fun a b h => float64_lt_ne a b h

/-- The orders Start submits on an Idle engine whose price fetch succeeds. -/
theorem submitted_Start {α σ : Type} [BEq α] [LT α] [DecidableRel (fun a b : α => a < b)]
    [Div α] [IntCast α] (b : GridBot α σ) (s s1 : σ) (p : α)
    (hidle : b.running = false)
    (hprice : b.exchange.GetSymbolPrice s b.config.Symbol = (.ok p, s1)) :
    submitted (Start b s).calls =
      gridOrders b.config.Symbol p
        (b.config.Investment / ((b.config.GridNum * 2 : Int) : α)) b.levels := by
  rw [(Start_price_ok b s s1 p hidle hprice).2.2.2.2.1]
  simp [submitted, submitted_map_PlaceOrder]

/-- Every order of `gridOrders` is the order of a level that is not `==` to the price. -/
theorem mem_gridOrders {α : Type} [BEq α] [LT α] [DecidableRel (fun a b : α => a < b)]
    [Div α] (symbol : String) (p q : α) (levels : List α) (o : Order α)
    (h : o ∈ gridOrders symbol p q levels) :
    ∃ level ∈ levels, (level == p) = false ∧ o = gridOrder symbol p q level := by
  unfold gridOrders at h
  rw [List.mem_map] at h
  obtain ⟨level, hl, ho⟩ := h
  rw [List.mem_filter] at hl
  exact ⟨level, hl.1, by simpa using hl.2, ho.symm⟩

/-- The order of a level that is not `==` to the price is in `gridOrders`. -/
theorem gridOrder_mem {α : Type} [BEq α] [LT α] [DecidableRel (fun a b : α => a < b)]
    [Div α] (symbol : String) (p q : α) (levels : List α) (level : α)
    (hl : level ∈ levels) (hne : (level == p) = false) :
    gridOrder symbol p q level ∈ gridOrders symbol p q levels := by
  unfold gridOrders
  rw [List.mem_map]
  exact ⟨level, List.mem_filter.mpr ⟨hl, by simp [hne]⟩, rfl⟩

/-- C11. For every Idle engine whose GetSymbolPrice call succeeds with price p, Start
calls the exchange for the price and then submits, in the order of the levels, exactly
one order for each level L with L != p and none for a level equal to p; each submitted
order has the configured symbol, type LIMIT, time-in-force GTC, price L, quantity
(investment / (gridNum * 2)) / L, and side BUY when L < p and SELL when L > p. -/
theorem Start_submits_grid_orders {α σ : Type} [BEq α] [LT α]
    [DecidableRel (fun a b : α => a < b)] [Div α] [IntCast α] (hlaws : CompareLaws α)
    (b : GridBot α σ) (s s1 : σ) (p : α) (hidle : b.running = false)
    (hprice : b.exchange.GetSymbolPrice s b.config.Symbol = (.ok p, s1)) :
    (Start b s).calls = Call.GetSymbolPrice b.config.Symbol ::
      (submitted (Start b s).calls).map Call.PlaceOrder ∧
    (submitted (Start b s).calls).map (fun o => o.Price) =
      b.levels.filter (fun level => !(level == p)) ∧
    ∀ o ∈ submitted (Start b s).calls,
      o.Symbol = b.config.Symbol ∧ o.OrderType = "LIMIT" ∧ o.TimeInForce = "GTC" ∧
      o.Quantity = (b.config.Investment / ((b.config.GridNum * 2 : Int) : α)) / o.Price ∧
      (o.Price < p → o.Side = "BUY") ∧ (p < o.Price → o.Side = "SELL") := by
  rw [submitted_Start b s s1 p hidle hprice]
  refine ⟨(Start_price_ok b s s1 p hidle hprice).2.2.2.2.1, ?_, ?_⟩
  · unfold gridOrders
    rw [List.map_map]
    exact List.map_id'' (fun _ => rfl) _
  · intro o ho
    obtain ⟨level, -, -, rfl⟩ := mem_gridOrders _ _ _ _ o ho
    refine ⟨rfl, rfl, rfl, rfl, fun hlt => ?_, fun hgt => ?_⟩
    · have hlt2 : level < p := hlt
      simp [gridOrder, hlt2]
    · have hnlt : ¬ level < p := hlaws.lt_asymm _ _ hgt
      simp [gridOrder, hnlt]

/-- Witness of C11: the engine of the test against the exchange double, price 30000. -/
theorem Start_submits_grid_orders_witness :
    CompareLaws ℚ ∧
    (testBot mockExchange.methods).running = false ∧
    (testBot mockExchange.methods).exchange.GetSymbolPrice mockStart
      (testBot mockExchange.methods).config.Symbol = (.ok 30000, mockStart) ∧
    ((Start (testBot mockExchange.methods) mockStart).calls =
      Call.GetSymbolPrice (testBot mockExchange.methods).config.Symbol ::
        (submitted (Start (testBot mockExchange.methods) mockStart).calls).map
          Call.PlaceOrder ∧
    (submitted (Start (testBot mockExchange.methods) mockStart).calls).map (fun o => o.Price) =
      (testBot mockExchange.methods).levels.filter (fun level => !(level == (30000 : ℚ))) ∧
    ∀ o ∈ submitted (Start (testBot mockExchange.methods) mockStart).calls,
      o.Symbol = (testBot mockExchange.methods).config.Symbol ∧ o.OrderType = "LIMIT" ∧
      o.TimeInForce = "GTC" ∧
      o.Quantity = ((testBot mockExchange.methods).config.Investment /
        (((testBot mockExchange.methods).config.GridNum * 2 : Int) : ℚ)) / o.Price ∧
      (o.Price < 30000 → o.Side = "BUY") ∧ ((30000 : ℚ) < o.Price → o.Side = "SELL")) :=
  ⟨CompareLaws_rat, rfl, rfl,
   Start_submits_grid_orders CompareLaws_rat (testBot mockExchange.methods) mockStart
    mockStart 30000 rfl rfl⟩

/-- An engine returned by NewGridBot is Idle. -/
theorem NewGridBot_idle {α σ : Type} [Zero α] [LE α]
    [DecidableRel (fun a b : α => a ≤ b)] [Add α] [Sub α] [Mul α] [Div α] [IntCast α]
    (room : Nat) (exchange : Exchange α σ) (config : GridBotConfig α) (b : GridBot α σ)
    (h : NewGridBot room exchange config = .ret (.ok b)) : b.running = false := by
  obtain ⟨-, -, -, rfl⟩ := NewGridBot_inv room exchange config b h
  rfl

/-- The engine of the float64 configuration. -/
theorem NewGridBot_floatConfig {σ : Type} (exchange : Exchange F64 σ) :
    NewGridBot maxSliceLen exchange floatConfig = .ret (.ok (floatBot exchange)) := by
  have hv : validateConfig floatConfig = none := by decide!
  obtain ⟨levels, hl, hb⟩ :=
    NewGridBot_of_valid maxSliceLen exchange floatConfig hv (by decide)
  rw [hb]
  unfold floatBot
  rw [hl]
  rfl

/-- C12 (amended). For every successfully constructed engine and every current price p
strictly between the lowest and the highest computed level (some level is below p and
some level is above p), Start submits at least one BUY order and at least one SELL
order, and submits no order whose price equals p. -/
theorem Start_buys_below_sells_above {α σ : Type} [Zero α] [LE α]
    [DecidableRel (fun a b : α => a ≤ b)] [Add α] [Sub α] [Mul α] [Div α] [IntCast α]
    [BEq α] [LT α] [DecidableRel (fun a b : α => a < b)] (hlaws : CompareLaws α)
    (room : Nat) (exchange : Exchange α σ) (config : GridBotConfig α) (b : GridBot α σ)
    (s s1 : σ) (p : α) (hnew : NewGridBot room exchange config = .ret (.ok b))
    (hprice : b.exchange.GetSymbolPrice s b.config.Symbol = (.ok p, s1))
    (hlow : ∃ level ∈ b.levels, level < p) (hhigh : ∃ level ∈ b.levels, p < level) :
    (∃ o ∈ submitted (Start b s).calls, o.Side = "BUY") ∧
    (∃ o ∈ submitted (Start b s).calls, o.Side = "SELL") ∧
    ∀ o ∈ submitted (Start b s).calls, (o.Price == p) = false := by
  rw [submitted_Start b s s1 p (NewGridBot_idle room exchange config b hnew) hprice]
  obtain ⟨lo, hlo, hlop⟩ := hlow
  obtain ⟨hi, hhi, hhip⟩ := hhigh
  refine ⟨⟨gridOrder _ p _ lo, gridOrder_mem _ _ _ _ lo hlo (hlaws.lt_ne _ _ hlop).1, ?_⟩,
    ⟨gridOrder _ p _ hi, gridOrder_mem _ _ _ _ hi hhi (hlaws.lt_ne _ _ hhip).2, ?_⟩, ?_⟩
  · simp [gridOrder, hlop]
  · have hn : ¬ hi < p := hlaws.lt_asymm _ _ hhip
    simp [gridOrder, hn]
  · intro o ho
    obtain ⟨level, -, hne, rfl⟩ := mem_gridOrders _ _ _ _ o ho
    exact hne

set_option maxRecDepth 10000 in
/-- Witness of C12 (amended): the float64 engine with twelve levels from 1 to 16 and
the price 8, between the levels 1 and 15.999999999999998. -/
theorem Start_buys_below_sells_above_witness :
    CompareLaws F64 ∧
    NewGridBot maxSliceLen (acceptingExchange (F64.ofInt 8)) floatConfig =
      .ret (.ok (floatBot (acceptingExchange (F64.ofInt 8)))) ∧
    (floatBot (acceptingExchange (F64.ofInt 8))).exchange.GetSymbolPrice 0
      (floatBot (acceptingExchange (F64.ofInt 8))).config.Symbol = (.ok (F64.ofInt 8), 0) ∧
    (∃ level ∈ (floatBot (acceptingExchange (F64.ofInt 8))).levels, level < F64.ofInt 8) ∧
    (∃ level ∈ (floatBot (acceptingExchange (F64.ofInt 8))).levels, F64.ofInt 8 < level) ∧
    ((∃ o ∈ submitted (Start (floatBot (acceptingExchange (F64.ofInt 8))) 0).calls,
        o.Side = "BUY") ∧
     (∃ o ∈ submitted (Start (floatBot (acceptingExchange (F64.ofInt 8))) 0).calls,
        o.Side = "SELL") ∧
     ∀ o ∈ submitted (Start (floatBot (acceptingExchange (F64.ofInt 8))) 0).calls,
        (o.Price == F64.ofInt 8) = false) :=
  ⟨CompareLaws_float64, NewGridBot_floatConfig _, rfl,
   ⟨F64.ofInt 1, @List.getElem?_mem _ _ 0 _ (by decide!), by decide!⟩, ⟨floatPrice, List.mem_of_getLast?_eq_some (by decide!), by decide!⟩,
   Start_buys_below_sells_above CompareLaws_float64 maxSliceLen
    (acceptingExchange (F64.ofInt 8)) floatConfig (floatBot (acceptingExchange (F64.ofInt 8))) 0 0 (F64.ofInt 8)
    (NewGridBot_floatConfig _) rfl
    ⟨F64.ofInt 1, @List.getElem?_mem _ _ 0 _ (by decide!), by decide!⟩ ⟨floatPrice, List.mem_of_getLast?_eq_some (by decide!), by decide!⟩⟩

set_option maxRecDepth 10000 in
/-- C12 fails in float64 arithmetic: the engine constructed for lower = 1, upper = 16
and gridNum = 12 has 15.999999999999998 as its highest level; at that current price,
strictly between lower and upper, Start submits eleven BUY orders and no SELL order. -/
theorem Start_float64_no_sell :
    NewGridBot maxSliceLen (acceptingExchange floatPrice) floatConfig =
      .ret (.ok (floatBot (acceptingExchange floatPrice))) ∧
    floatConfig.LowerPrice < floatPrice ∧ floatPrice < floatConfig.UpperPrice ∧
    (floatBot (acceptingExchange floatPrice)).levels.getLast? = some floatPrice ∧
    (Start (floatBot (acceptingExchange floatPrice)) 0).err = none ∧
    (submitted (Start (floatBot (acceptingExchange floatPrice)) 0).calls).map
      (fun o => o.Side) = List.replicate 11 "BUY" :=
  ⟨NewGridBot_floatConfig _, by decide!, by decide!, by decide!, by decide!, by decide!⟩

/-- C13. For every Idle engine with an empty order book whose price fetch succeeds,
Start returns ok whatever the PlaceOrder calls return, and afterwards the order book
holds exactly the entries (orderID, order) of the submitted orders the exchange
acknowledged, none for a placement that failed, provided the exchange returned
distinct order identifiers. -/
theorem Start_records_acknowledged {α σ : Type} [BEq α] [LT α]
    [DecidableRel (fun a b : α => a < b)] [Div α] [IntCast α]
    (b : GridBot α σ) (s s1 : σ) (p : α) (hidle : b.running = false)
    (hempty : b.orders = [])
    (hprice : b.exchange.GetSymbolPrice s b.config.Symbol = (.ok p, s1))
    (hdistinct :
      ((acknowledged b.exchange s1 (submitted (Start b s).calls)).map Prod.fst).Nodup) :
    (Start b s).err = none ∧
    (Start b s).bot.orders = acknowledged b.exchange s1 (submitted (Start b s).calls) := by
  obtain ⟨herr, -, -, -, -, horders⟩ := Start_price_ok b s s1 p hidle hprice
  rw [submitted_Start b s s1 p hidle hprice] at hdistinct ⊢
  refine ⟨herr, ?_⟩
  rw [horders, hempty, foldl_set_distinct _ [] (by simpa using hdistinct)]
  simp

/-- Witness of C13: the engine of the test against an exchange that rejects the second
and the fourth order; the book holds the first and the third. -/
theorem Start_records_acknowledged_witness :
    (testBot alternatingExchange).running = false ∧
    (testBot alternatingExchange).orders = [] ∧
    (testBot alternatingExchange).exchange.GetSymbolPrice 0
      (testBot alternatingExchange).config.Symbol = (.ok 30000, 0) ∧
    ((acknowledged (testBot alternatingExchange).exchange 0
      (submitted (Start (testBot alternatingExchange) 0).calls)).map Prod.fst).Nodup ∧
    (Start (testBot alternatingExchange) 0).bot.orders.map Prod.fst = ["order_1", "order_3"] ∧
    ((Start (testBot alternatingExchange) 0).err = none ∧
     (Start (testBot alternatingExchange) 0).bot.orders =
       acknowledged (testBot alternatingExchange).exchange 0
         (submitted (Start (testBot alternatingExchange) 0).calls)) :=
  ⟨rfl, rfl, rfl, by decide, by decide,
   Start_records_acknowledged (testBot alternatingExchange) 0 0 30000 rfl rfl rfl
    (by decide)⟩

/-- C14. Calling Start on an engine that is already Running returns the error
"bot is already running", makes no exchange call, and leaves the engine (running flag,
levels, order book) and the exchange exactly as they were. -/
theorem Start_already_running {α σ : Type} [BEq α] [LT α]
    [DecidableRel (fun a b : α => a < b)] [Div α] [IntCast α]
    (b : GridBot α σ) (s : σ) (hrun : b.running = true) :
    (Start b s).err = some "bot is already running" ∧
    (Start b s).calls = [] ∧
    (Start b s).bot.running = b.running ∧
    (Start b s).bot.levels = b.levels ∧
    (Start b s).bot.orders = b.orders ∧
    (Start b s).bot = b ∧
    (Start b s).state = s := by
  have hs : Start b s =
      { err := some "bot is already running", bot := b, state := s, calls := [] } := by
    unfold Start
    simp [hrun]
  rw [hs]
  exact ⟨rfl, rfl, rfl, rfl, rfl, rfl, rfl⟩

/-- Witness of C14: a running engine with three recorded orders. -/
theorem Start_already_running_witness :
    sweepBot.running = true ∧
    ((Start sweepBot ()).err = some "bot is already running" ∧
     (Start sweepBot ()).calls = [] ∧
     (Start sweepBot ()).bot.running = sweepBot.running ∧
     (Start sweepBot ()).bot.levels = sweepBot.levels ∧
     (Start sweepBot ()).bot.orders = sweepBot.orders ∧
     (Start sweepBot ()).bot = sweepBot ∧
     (Start sweepBot ()).state = ()) :=
  ⟨rfl, Start_already_running sweepBot () rfl⟩

/-- C15. Calling Stop on an Idle engine returns the error "bot is not running", makes
no exchange call, and leaves the engine (running flag, order book) and the exchange
exactly as they were. -/
theorem Stop_not_running {α σ : Type} (b : GridBot α σ) (s : σ) (visit : OrderMap α)
    (hidle : b.running = false) :
    (Stop b s visit).err = some "bot is not running" ∧
    (Stop b s visit).calls = [] ∧
    (Stop b s visit).bot.running = b.running ∧
    (Stop b s visit).bot.orders = b.orders ∧
    (Stop b s visit).bot = b ∧
    (Stop b s visit).state = s := by
  have hs : Stop b s visit =
      { err := some "bot is not running", bot := b, state := s, calls := [] } := by
    unfold Stop
    simp [hidle]
  rw [hs]
  exact ⟨rfl, rfl, rfl, rfl, rfl, rfl⟩

/-- Witness of C15: the freshly constructed engine of the test. -/
theorem Stop_not_running_witness :
    NewGridBot maxSliceLen mockExchange.methods testConfig =
      .ret (.ok (testBot mockExchange.methods)) ∧
    (testBot mockExchange.methods).running = false ∧
    ((Stop (testBot mockExchange.methods) mockStart []).err = some "bot is not running" ∧
     (Stop (testBot mockExchange.methods) mockStart []).calls = [] ∧
     (Stop (testBot mockExchange.methods) mockStart []).bot.running =
       (testBot mockExchange.methods).running ∧
     (Stop (testBot mockExchange.methods) mockStart []).bot.orders =
       (testBot mockExchange.methods).orders ∧
     (Stop (testBot mockExchange.methods) mockStart []).bot = testBot mockExchange.methods ∧
     (Stop (testBot mockExchange.methods) mockStart []).state = mockStart) :=
  ⟨NewGridBot_testConfig _, rfl, Stop_not_running (testBot mockExchange.methods) mockStart [] rfl⟩

/-! ## The sweep of Stop and the status -/

/-- The sweep keeps the error of the last cancellation that failed. -/
theorem foldl_cancelEntry_lastError {α σ : Type} (exchange : Exchange α σ)
    (visit : OrderMap α) (st : SweepState α σ) :
    (visit.foldl (cancelEntry exchange) st).lastError =
      (((cancelResults exchange st.state visit).filterMap id).getLast?).or st.lastError := by
  induction visit generalizing st with
  | nil => simp [cancelResults]
  | cons entry rest ih =>
    rw [List.foldl_cons, ih]
    rcases hc : exchange.CancelOrder st.state entry.2.Symbol entry.1 with ⟨r, s1⟩
    cases r with
    | none =>
      simp [cancelEntry, cancelResults, hc]
    | some e =>
      simp only [cancelEntry, cancelResults, hc, List.filterMap_cons, id, List.getLast?_cons]
      cases (List.filterMap id (cancelResults exchange s1 rest)).getLast? <;> simp

/-- Stop on a Running engine, component by component. -/
theorem Stop_running {α σ : Type} (b : GridBot α σ) (s : σ) (visit : OrderMap α)
    (hrun : b.running = true) :
    (Stop b s visit).err =
      ((cancelResults b.exchange s visit).filterMap id).getLast? ∧
    (Stop b s visit).calls = visit.map (fun e => Call.CancelOrder e.2.Symbol e.1) ∧
    (Stop b s visit).bot.running = false := by
  have hs : Stop b s visit =
      { err := (visit.foldl (cancelEntry b.exchange)
          { lastError := none, state := s, calls := [] }).lastError,
        bot := { b with running := false },
        state := (visit.foldl (cancelEntry b.exchange)
          { lastError := none, state := s, calls := [] }).state,
        calls := (visit.foldl (cancelEntry b.exchange)
          { lastError := none, state := s, calls := [] }).calls } := by
    unfold Stop
    simp [hrun]
  rw [hs]
  refine ⟨?_, ?_, rfl⟩
  · show (visit.foldl (cancelEntry b.exchange)
      { lastError := none, state := s, calls := [] }).lastError = _
    rw [foldl_cancelEntry_lastError]
    simp
  · show (visit.foldl (cancelEntry b.exchange)
      { lastError := none, state := s, calls := [] }).calls = _
    rw [foldl_cancelEntry_calls]
    simp

/-- One result is returned for each entry the sweep visits. -/
theorem cancelResults_length {α σ : Type} (exchange : Exchange α σ) (s : σ)
    (visit : OrderMap α) : (cancelResults exchange s visit).length = visit.length := by
  induction visit generalizing s with
  | nil => rfl
  | cons entry rest ih => simp [cancelResults, ih]

/-- C16. For every Running engine, Stop returns no error if and only if every
CancelOrder call of its sweep succeeded; otherwise it returns the error of the last
cancellation that failed, in the order the sweep visited the entries. -/
theorem Stop_returns_last_error {α σ : Type} (b : GridBot α σ) (s : σ)
    (visit : OrderMap α) (hrun : b.running = true) :
    (cancelResults b.exchange s visit).length = visit.length ∧
    ((Stop b s visit).err = none ↔ ∀ r ∈ cancelResults b.exchange s visit, r = none) ∧
    (Stop b s visit).err =
      ((cancelResults b.exchange s visit).filterMap id).getLast? := by
  have herr := (Stop_running b s visit hrun).1
  refine ⟨cancelResults_length _ _ _, ?_, herr⟩
  rw [herr, List.getLast?_eq_none_iff, List.filterMap_eq_nil_iff]
  constructor
  · intro h r hr
    cases r with
    | none => rfl
    | some e => exact absurd (h (some e) hr) (by simp)
  · intro h r hr
    rw [h r hr]
    rfl

/-- Witness of C16: the sweep of `sweepBot` in the order 3, 1, 2, where the
cancellation of order 2 is rejected. -/
theorem Stop_returns_last_error_witness :
    sweepBot.running = true ∧
    cancelResults sweepBot.exchange () (sweepBot.orders.rotate 2) =
      [none, none, some "cancel rejected"] ∧
    (Stop sweepBot () (sweepBot.orders.rotate 2)).err = some "cancel rejected" ∧
    ((cancelResults sweepBot.exchange () (sweepBot.orders.rotate 2)).length =
      (sweepBot.orders.rotate 2).length ∧
     ((Stop sweepBot () (sweepBot.orders.rotate 2)).err = none ↔
       ∀ r ∈ cancelResults sweepBot.exchange () (sweepBot.orders.rotate 2), r = none) ∧
     (Stop sweepBot () (sweepBot.orders.rotate 2)).err =
       ((cancelResults sweepBot.exchange () (sweepBot.orders.rotate 2)).filterMap
         id).getLast?) :=
  ⟨rfl, by decide, by decide, Stop_returns_last_error sweepBot () (sweepBot.orders.rotate 2) rfl⟩

/-- C17. For every Running engine, after Stop the engine is Idle (running = false),
whatever the CancelOrder calls returned, also when Stop returns an error. -/
theorem Stop_leaves_idle {α σ : Type} (b : GridBot α σ) (s : σ) (visit : OrderMap α)
    (hrun : b.running = true) : (Stop b s visit).bot.running = false :=
  (Stop_running b s visit hrun).2.2

/-- Witness of C17: the sweep of `sweepBot` returns an error and leaves it Idle. -/
theorem Stop_leaves_idle_witness :
    sweepBot.running = true ∧
    (Stop sweepBot () sweepBot.orders).err = some "cancel rejected" ∧
    (Stop sweepBot () sweepBot.orders).bot.running = false :=
  ⟨rfl, by decide, Stop_leaves_idle sweepBot () sweepBot.orders rfl⟩

/-- C18. For every engine state, GetStatus returns a snapshot whose running, symbol,
lowerPrice, upperPrice, gridNum and investment entries are the running flag and the
configuration fields of the engine and whose openOrders entry is the number of entries
of the order book; it makes no exchange call and leaves the engine and the exchange
unchanged. -/
theorem GetStatus_snapshot {α σ : Type} (b : GridBot α σ) (s : σ) :
    (GetStatusCall b s).1 = GetStatus b ∧
    (GetStatus b).running = b.running ∧
    (GetStatus b).symbol = b.config.Symbol ∧
    (GetStatus b).lowerPrice = b.config.LowerPrice ∧
    (GetStatus b).upperPrice = b.config.UpperPrice ∧
    (GetStatus b).gridNum = b.config.GridNum ∧
    (GetStatus b).investment = b.config.Investment ∧
    (GetStatus b).openOrders = b.orders.length ∧
    (GetStatusCall b s).2.2.2 = [] ∧
    (GetStatusCall b s).2.1 = b ∧
    (GetStatusCall b s).2.2.1 = s :=
  ⟨rfl, rfl, rfl, rfl, rfl, rfl, rfl, rfl, rfl, rfl, rfl⟩

/-! ## The error ValidateGridParams reports -/

/-- C19 (amended). ValidateGridParams reports the first violated constraint, in this
order: the price error "prices must be positive" whenever lower ≤ 0 or upper ≤ 0;
otherwise the range error "upper price must be greater than lower price" whenever
lower ≥ upper; otherwise the grid-count error "grid number must be at least 2"
whenever gridNum < 2. -/
theorem ValidateGridParams_first_violation {α : Type} [Zero α] [LE α]
    [DecidableRel (fun a b : α => a ≤ b)] (lower upper : α) (gridNum : Int) :
    (lower ≤ 0 ∨ upper ≤ 0 →
      ValidateGridParams lower upper gridNum = some "prices must be positive") ∧
    (¬ (lower ≤ 0 ∨ upper ≤ 0) → lower ≥ upper →
      ValidateGridParams lower upper gridNum =
        some "upper price must be greater than lower price") ∧
    (¬ (lower ≤ 0 ∨ upper ≤ 0) → ¬ lower ≥ upper → gridNum < 2 →
      ValidateGridParams lower upper gridNum = some "grid number must be at least 2") := by
  unfold ValidateGridParams
  refine ⟨fun h1 => ?_, fun h1 h2 => ?_, fun h1 h2 h3 => ?_⟩
  · simp only [h1, if_true]
  · simp only [h1, h2, if_true, if_false]
  · simp only [h1, h2, h3, if_true, if_false]

/-- Witness of C19 (amended): the three rejected inputs of `TestValidateGridParams`. -/
theorem ValidateGridParams_first_violation_witness :
    ((-100 : ℚ) ≤ 0 ∨ (200 : ℚ) ≤ 0) ∧
    ValidateGridParams (-100 : ℚ) 200 5 = some "prices must be positive" ∧
    (¬ ((200 : ℚ) ≤ 0 ∨ (100 : ℚ) ≤ 0) ∧ (200 : ℚ) ≥ 100) ∧
    ValidateGridParams (200 : ℚ) 100 5 =
      some "upper price must be greater than lower price" ∧
    (¬ ((100 : ℚ) ≤ 0 ∨ (200 : ℚ) ≤ 0) ∧ ¬ (100 : ℚ) ≥ 200 ∧ (0 : Int) < 2) ∧
    ValidateGridParams (100 : ℚ) 200 0 = some "grid number must be at least 2" :=
  ⟨by norm_num,
   (ValidateGridParams_first_violation (-100 : ℚ) 200 5).1 (by norm_num),
   by norm_num,
   (ValidateGridParams_first_violation (200 : ℚ) 100 5).2.1 (by norm_num) (by norm_num),
   by norm_num,
   (ValidateGridParams_first_violation (100 : ℚ) 200 0).2.2 (by norm_num) (by norm_num)
     (by norm_num)⟩

/-- C19 fails as stated when two constraints are violated: for (200, 100, 0) gridNum < 2
but the range error is reported, and for (-100, -200, 5) lower ≥ upper but the price
error is reported. -/
theorem ValidateGridParams_reports_one_error :
    ((0 : Int) < 2 ∧
     ValidateGridParams (200 : ℚ) 100 0 =
       some "upper price must be greater than lower price" ∧
     ValidateGridParams (200 : ℚ) 100 0 ≠ some "grid number must be at least 2") ∧
    ((-100 : ℚ) ≥ -200 ∧
     ValidateGridParams (-100 : ℚ) (-200) 5 = some "prices must be positive" ∧
     ValidateGridParams (-100 : ℚ) (-200) 5 ≠
       some "upper price must be greater than lower price") := by
  have h1 : ValidateGridParams (200 : ℚ) 100 0 =
      some "upper price must be greater than lower price" := by
    unfold ValidateGridParams
    norm_num
  have h2 : ValidateGridParams (-100 : ℚ) (-200) 5 = some "prices must be positive" := by
    unfold ValidateGridParams
    norm_num
  refine ⟨⟨by norm_num, h1, ?_⟩, ⟨by norm_num, h2, ?_⟩⟩
  · rw [h1]
    decide
  · rw [h2]
    decide

/-! ## The context -/

/-- C20 (amended). The engine never inspects the context, which only reaches the
exchange calls: whatever those calls return, also when they fail from some call on
because the context was cancelled, Start on an Idle engine whose price fetch succeeded
still submits an order for every level different from the price and returns ok, and
Stop on a Running engine still calls CancelOrder for every entry and returns the error
of the last cancellation that failed. -/
theorem Start_Stop_ignore_context {α σ : Type} [BEq α] [LT α]
    [DecidableRel (fun a b : α => a < b)] [Div α] [IntCast α]
    (b : GridBot α σ) (s s1 : σ) (p : α) (hidle : b.running = false)
    (hprice : b.exchange.GetSymbolPrice s b.config.Symbol = (.ok p, s1))
    (b2 : GridBot α σ) (s2 : σ) (visit : OrderMap α) (hrun : b2.running = true) :
    ((Start b s).err = none ∧
     (submitted (Start b s).calls).map (fun o => o.Price) =
       b.levels.filter (fun level => !(level == p))) ∧
    ((Stop b2 s2 visit).calls = visit.map (fun e => Call.CancelOrder e.2.Symbol e.1) ∧
     (Stop b2 s2 visit).err =
       ((cancelResults b2.exchange s2 visit).filterMap id).getLast?) := by
  refine ⟨⟨(Start_price_ok b s s1 p hidle hprice).1, ?_⟩,
    ⟨(Stop_running b2 s2 visit hrun).2.1, (Stop_running b2 s2 visit hrun).1⟩⟩
  rw [submitted_Start b s s1 p hidle hprice]
  unfold gridOrders
  rw [List.map_map]
  exact List.map_id'' (fun _ => rfl) _

/-- Witness of C20 (amended): the engine of the test and the running engine with three
orders, each on an exchange whose context is cancelled after the first order. -/
theorem Start_Stop_ignore_context_witness :
    (testBot (cancelledContextExchange (30000 : ℚ) 1)).running = false ∧
    (testBot (cancelledContextExchange (30000 : ℚ) 1)).exchange.GetSymbolPrice 0
      (testBot (cancelledContextExchange (30000 : ℚ) 1)).config.Symbol = (.ok 30000, 0) ∧
    contextSweepBot.running = true ∧
    (((Start (testBot (cancelledContextExchange (30000 : ℚ) 1)) 0).err = none ∧
      (submitted (Start (testBot (cancelledContextExchange (30000 : ℚ) 1)) 0).calls).map
        (fun o => o.Price) =
        (testBot (cancelledContextExchange (30000 : ℚ) 1)).levels.filter
          (fun level => !(level == (30000 : ℚ)))) ∧
     ((Stop contextSweepBot 0 contextSweepBot.orders).calls =
        contextSweepBot.orders.map (fun e => Call.CancelOrder e.2.Symbol e.1) ∧
      (Stop contextSweepBot 0 contextSweepBot.orders).err =
        ((cancelResults contextSweepBot.exchange 0 contextSweepBot.orders).filterMap
          id).getLast?)) :=
  ⟨rfl, rfl, rfl,
   Start_Stop_ignore_context (testBot (cancelledContextExchange (30000 : ℚ) 1)) 0 0 30000
    rfl rfl contextSweepBot 0 contextSweepBot.orders rfl⟩

/-- C20 fails on the code: with a context that is cancelled after the first placement,
so that every later PlaceOrder fails with the context error, Start still submits the
three remaining orders and returns ok; with a context cancelled after the first
cancellation, Stop still calls CancelOrder for the two remaining entries. -/
theorem Start_Stop_continue_after_cancellation :
    (∀ (n : Nat) (o : Order ℚ), 1 ≤ n →
      (cancelledContextExchange (30000 : ℚ) 1).PlaceOrder n o =
        (.error "context canceled", n + 1)) ∧
    (Start (testBot (cancelledContextExchange (30000 : ℚ) 1)) 0).bot.orders.map Prod.fst =
      ["order_1"] ∧
    (submitted (Start (testBot (cancelledContextExchange (30000 : ℚ) 1)) 0).calls).map
      (fun o => o.Price) = [25000, 27500, 32500, 35000] ∧
    (Start (testBot (cancelledContextExchange (30000 : ℚ) 1)) 0).err = none ∧
    (∀ (n : Nat) (symbol orderID : String), 1 ≤ n →
      (cancelledContextExchange (30000 : ℚ) 1).CancelOrder n symbol orderID =
        (some "context canceled", n + 1)) ∧
    cancelResults contextSweepBot.exchange 0 contextSweepBot.orders =
      [none, some "context canceled", some "context canceled"] ∧
    (Stop contextSweepBot 0 contextSweepBot.orders).calls =
      [Call.CancelOrder "BTCUSDT" "1", Call.CancelOrder "BTCUSDT" "2",
       Call.CancelOrder "BTCUSDT" "3"] := by
  refine ⟨fun n o hn => ?_, by decide, by decide, by decide, fun n a c hn => ?_, by decide,
    by decide⟩
  · have h : ¬ n < 1 := by omega
    simp [cancelledContextExchange, h]
    omega
  · have h : ¬ n < 1 := by omega
    simp [cancelledContextExchange, h]
    omega

/-! ## Quantities and counts of the orders Start submits -/

/-- An engine constructed over the rationals: what its configuration satisfies and what
its fields are. -/
theorem NewGridBot_rat {σ : Type} (room : Nat) (exchange : Exchange ℚ σ)
    (config : GridBotConfig ℚ) (b : GridBot ℚ σ)
    (h : NewGridBot room exchange config = .ret (.ok b)) :
    0 < config.Investment ∧ 0 < config.LowerPrice ∧ config.LowerPrice < config.UpperPrice ∧
    2 ≤ config.GridNum ∧ b.config = config ∧ b.running = false ∧ b.orders = [] ∧
    b.levels = (List.range config.GridNum.toNat).map (fun (i : Nat) =>
      config.LowerPrice + (i : ℚ) *
        ((config.UpperPrice - config.LowerPrice) / ((config.GridNum : ℚ) - 1))) := by
  obtain ⟨hv, hg, -, rfl⟩ := NewGridBot_inv room exchange config b h
  have hn := (validateConfig_none_iff config).mp hv
  push_neg at hn
  obtain ⟨-, hinv, -⟩ := hn
  obtain ⟨h0, -, h1, h2⟩ := (ValidateGridParams_none_iff _ _ _).mp hg
  refine ⟨hinv, h0, h1, h2, rfl, rfl, rfl, ?_⟩
  show (List.range config.GridNum.toNat).map _ = _
  apply List.map_congr_left
  intro i _
  push_cast
  ring

/-- Over the rationals every level of a valid grid lies between lower and upper. -/
theorem grid_level_bounds (lower upper : ℚ) (gridNum : Int) (h0 : 0 < lower)
    (h1 : lower < upper) (h2 : 2 ≤ gridNum) (level : ℚ)
    (hl : level ∈ (List.range gridNum.toNat).map (fun (i : Nat) =>
      lower + (i : ℚ) * ((upper - lower) / ((gridNum : ℚ) - 1)))) :
    lower ≤ level ∧ level ≤ upper ∧ 0 < level := by
  rw [List.mem_map] at hl
  obtain ⟨i, hi, rfl⟩ := hl
  rw [List.mem_range] at hi
  have hn : (0 : ℚ) < (gridNum : ℚ) - 1 := by
    have : (2 : ℚ) ≤ (gridNum : ℚ) := by exact_mod_cast h2
    linarith
  have hd : 0 < (upper - lower) / ((gridNum : ℚ) - 1) := div_pos (by linarith) hn
  have hi0 : (0 : ℚ) ≤ (i : ℚ) := by exact_mod_cast Nat.zero_le i
  have hi1 : (i : ℚ) ≤ (gridNum : ℚ) - 1 := by
    have : (i : Int) ≤ gridNum - 1 := by omega
    have h3 : ((i : Int) : ℚ) ≤ ((gridNum - 1 : Int) : ℚ) := by exact_mod_cast this
    push_cast at h3
    exact h3
  have hmul0 : 0 ≤ (i : ℚ) * ((upper - lower) / ((gridNum : ℚ) - 1)) :=
    mul_nonneg hi0 hd.le
  have hmul1 : (i : ℚ) * ((upper - lower) / ((gridNum : ℚ) - 1)) ≤ upper - lower := by
    calc (i : ℚ) * ((upper - lower) / ((gridNum : ℚ) - 1))
        ≤ ((gridNum : ℚ) - 1) * ((upper - lower) / ((gridNum : ℚ) - 1)) :=
          mul_le_mul_of_nonneg_right hi1 hd.le
      _ = upper - lower := by field_simp
  refine ⟨by linarith, by linarith, by linarith⟩

/-- Over the rationals the levels of a valid grid are pairwise different. -/
theorem grid_levels_nodup (lower upper : ℚ) (gridNum : Int) (h1 : lower < upper)
    (h2 : 2 ≤ gridNum) :
    ((List.range gridNum.toNat).map (fun (i : Nat) =>
      lower + (i : ℚ) * ((upper - lower) / ((gridNum : ℚ) - 1)))).Nodup := by
  have hn : (0 : ℚ) < (gridNum : ℚ) - 1 := by
    have : (2 : ℚ) ≤ (gridNum : ℚ) := by exact_mod_cast h2
    linarith
  have hd : 0 < (upper - lower) / ((gridNum : ℚ) - 1) := div_pos (by linarith) hn
  apply List.Nodup.map _ (List.nodup_range _)
  intro i j hij
  have h3 : (i : ℚ) * ((upper - lower) / ((gridNum : ℚ) - 1)) =
      (j : ℚ) * ((upper - lower) / ((gridNum : ℚ) - 1)) := by
    have := hij
    simp only at this
    linarith
  have h4 : (i : ℚ) = (j : ℚ) := mul_right_cancel₀ (ne_of_gt hd) h3
  exact_mod_cast h4

/-- The number of orders Start submits and of the levels equal to the price add up to
the number of levels. -/
theorem gridOrders_length {α : Type} [BEq α] [LT α] [DecidableRel (fun a b : α => a < b)]
    [Div α] (symbol : String) (p q : α) (levels : List α) :
    (gridOrders symbol p q levels).length + (levels.filter (fun level => level == p)).length =
      levels.length := by
  unfold gridOrders
  rw [List.length_map]
  induction levels with
  | nil => rfl
  | cons level rest ih =>
    cases h : (level == p) <;> simp [List.filter_cons, h] <;> omega

/-- The exchange acknowledges at most as many orders as were submitted. -/
theorem acknowledged_length_le {α σ : Type} (exchange : Exchange α σ) (s : σ)
    (orders : List (Order α)) : (acknowledged exchange s orders).length ≤ orders.length := by
  induction orders generalizing s with
  | nil => simp [acknowledged]
  | cons o rest ih =>
    rcases hp : exchange.PlaceOrder s o with ⟨r, s1⟩
    cases r with
    | error e =>
      simp only [acknowledged, hp, List.length_cons]
      exact Nat.le_succ_of_le (ih s1)
    | ok orderID =>
      simp only [acknowledged, hp, List.length_cons]
      exact Nat.succ_le_succ (ih s1)

/-- A map assignment adds at most one entry. -/
theorem OrderMap_set_length_le {α : Type} (m : OrderMap α) (k : String) (v : Order α) :
    (OrderMap.set m k v).length ≤ m.length + 1 := by
  unfold OrderMap.set
  split <;> simp

/-- Recording entries adds at most one entry for each. -/
theorem foldl_set_length_le {α : Type} (entries m : OrderMap α) :
    (entries.foldl (fun m e => OrderMap.set m e.1 e.2) m).length ≤
      m.length + entries.length := by
  induction entries generalizing m with
  | nil => simp
  | cons e rest ih =>
    rw [List.foldl_cons]
    have h1 := ih (OrderMap.set m e.1 e.2)
    have h2 := OrderMap_set_length_le m e.1 e.2
    simp only [List.length_cons]
    omega

/-- From an Idle engine whose price fetch succeeds, Start adds at most one entry to the
order book for each order it submits. -/
theorem Start_orders_length_le {α σ : Type} [BEq α] [LT α]
    [DecidableRel (fun a b : α => a < b)] [Div α] [IntCast α]
    (b : GridBot α σ) (s s1 : σ) (p : α) (hidle : b.running = false)
    (hprice : b.exchange.GetSymbolPrice s b.config.Symbol = (.ok p, s1)) :
    (Start b s).bot.orders.length ≤ b.orders.length + (submitted (Start b s).calls).length := by
  rw [submitted_Start b s s1 p hidle hprice, (Start_price_ok b s s1 p hidle hprice).2.2.2.2.2]
  have h1 := foldl_set_length_le (acknowledged b.exchange s1 (gridOrders b.config.Symbol p
    (b.config.Investment / ((b.config.GridNum * 2 : Int) : α)) b.levels)) b.orders
  have h2 := acknowledged_length_le b.exchange s1 (gridOrders b.config.Symbol p
    (b.config.Investment / ((b.config.GridNum * 2 : Int) : α)) b.levels)
  omega

/-- Orders worth `q` each are worth `q` times their number in total. -/
theorem sum_value_const (orders : List (Order ℚ)) (q : ℚ)
    (h : ∀ o ∈ orders, o.Quantity * o.Price = q) :
    (orders.map (fun o => o.Quantity * o.Price)).sum = (orders.length : ℚ) * q := by
  induction orders with
  | nil => simp
  | cons o rest ih =>
    rw [List.map_cons, List.sum_cons, ih (fun x hx => h x (List.mem_cons_of_mem _ hx)),
      h o (List.mem_cons_self _ _), List.length_cons]
    push_cast
    ring

/-- The orders an engine constructed over the rationals submits: each is the order of a
level between lower and upper, and they are at most GridNum. -/
theorem submitted_rat {σ : Type} (room : Nat) (exchange : Exchange ℚ σ)
    (config : GridBotConfig ℚ) (b : GridBot ℚ σ) (s s1 : σ) (p : ℚ)
    (hnew : NewGridBot room exchange config = .ret (.ok b))
    (hprice : b.exchange.GetSymbolPrice s b.config.Symbol = (.ok p, s1)) :
    submitted (Start b s).calls =
      gridOrders config.Symbol p (config.Investment / (2 * (config.GridNum : ℚ))) b.levels ∧
    (b.levels.length : Int) = config.GridNum ∧
    b.levels.Nodup ∧
    ∀ level ∈ b.levels,
      config.LowerPrice ≤ level ∧ level ≤ config.UpperPrice ∧ 0 < level := by
  obtain ⟨-, h0, h1, h2, hcfg, hidle, -, hlev⟩ := NewGridBot_rat room exchange config b hnew
  refine ⟨?_, ?_, ?_, ?_⟩
  · rw [submitted_Start b s s1 p hidle hprice, hcfg]
    congr 2
    push_cast
    ring
  · rw [hlev, List.length_map, List.length_range]
    omega
  · rw [hlev]
    exact grid_levels_nodup _ _ _ h1 h2
  · intro level hl
    rw [hlev] at hl
    exact grid_level_bounds _ _ _ h0 h1 h2 level hl

/-- C21. In exact rational arithmetic, for every successfully constructed engine and
every fetched current price, the total value (sum of quantity * price) of the orders
Start submits is (number of submitted orders) * investment / (2 * gridNum), which
never exceeds investment / 2 and hence never exceeds the investment. -/
theorem Start_total_value {σ : Type} (room : Nat) (exchange : Exchange ℚ σ)
    (config : GridBotConfig ℚ) (b : GridBot ℚ σ) (s s1 : σ) (p : ℚ)
    (hnew : NewGridBot room exchange config = .ret (.ok b))
    (hprice : b.exchange.GetSymbolPrice s b.config.Symbol = (.ok p, s1)) :
    ((submitted (Start b s).calls).map (fun o => o.Quantity * o.Price)).sum =
      ((submitted (Start b s).calls).length : ℚ) * config.Investment /
        (2 * (config.GridNum : ℚ)) ∧
    ((submitted (Start b s).calls).map (fun o => o.Quantity * o.Price)).sum ≤
      config.Investment / 2 ∧
    ((submitted (Start b s).calls).map (fun o => o.Quantity * o.Price)).sum ≤
      config.Investment := by
  obtain ⟨hinv, -, -, h2, -, -, -, -⟩ := NewGridBot_rat room exchange config b hnew
  obtain ⟨hsub, hlen, -, hbounds⟩ := submitted_rat room exchange config b s s1 p hnew hprice
  have hsum : ((submitted (Start b s).calls).map (fun o => o.Quantity * o.Price)).sum =
      ((submitted (Start b s).calls).length : ℚ) *
        (config.Investment / (2 * (config.GridNum : ℚ))) := by
    apply sum_value_const
    intro o ho
    rw [hsub] at ho
    obtain ⟨level, hl, -, rfl⟩ := mem_gridOrders _ _ _ _ o ho
    have hpos := (hbounds level hl).2.2
    show config.Investment / (2 * (config.GridNum : ℚ)) / level * level = _
    exact div_mul_cancel₀ _ (ne_of_gt hpos)
  have hg : (0 : ℚ) < (config.GridNum : ℚ) := by
    have : (2 : ℚ) ≤ (config.GridNum : ℚ) := by exact_mod_cast h2
    linarith
  have hcount : ((submitted (Start b s).calls).length : ℚ) ≤ (config.GridNum : ℚ) := by
    have h3 := gridOrders_length config.Symbol p
      (config.Investment / (2 * (config.GridNum : ℚ))) b.levels
    rw [← hsub] at h3
    have h4 : ((submitted (Start b s).calls).length : Int) ≤ config.GridNum := by omega
    exact_mod_cast h4
  have hq : 0 < config.Investment / (2 * (config.GridNum : ℚ)) :=
    div_pos hinv (by linarith)
  have hhalf : ((submitted (Start b s).calls).map (fun o => o.Quantity * o.Price)).sum ≤
      config.Investment / 2 := by
    rw [hsum]
    calc ((submitted (Start b s).calls).length : ℚ) *
          (config.Investment / (2 * (config.GridNum : ℚ)))
        ≤ (config.GridNum : ℚ) * (config.Investment / (2 * (config.GridNum : ℚ))) :=
          mul_le_mul_of_nonneg_right hcount hq.le
      _ = config.Investment / 2 := by field_simp; ring
  refine ⟨?_, hhalf, by linarith⟩
  rw [hsum]
  ring

set_option maxRecDepth 10000 in
/-- Witness of C21: the engine of the test against the exchange double; its four
orders are worth 400 in total. -/
theorem Start_total_value_witness :
    NewGridBot maxSliceLen mockExchange.methods testConfig =
      .ret (.ok (testBot mockExchange.methods)) ∧
    (testBot mockExchange.methods).exchange.GetSymbolPrice mockStart
      (testBot mockExchange.methods).config.Symbol = (.ok 30000, mockStart) ∧
    (((submitted (Start (testBot mockExchange.methods) mockStart).calls).map
        (fun o => o.Quantity * o.Price)).sum =
      ((submitted (Start (testBot mockExchange.methods) mockStart).calls).length : ℚ) *
        testConfig.Investment / (2 * (testConfig.GridNum : ℚ)) ∧
     ((submitted (Start (testBot mockExchange.methods) mockStart).calls).map
        (fun o => o.Quantity * o.Price)).sum ≤ testConfig.Investment / 2 ∧
     ((submitted (Start (testBot mockExchange.methods) mockStart).calls).map
        (fun o => o.Quantity * o.Price)).sum ≤ testConfig.Investment) ∧
    ((submitted (Start (testBot mockExchange.methods) mockStart).calls).map
        (fun o => o.Quantity * o.Price)).sum = 400 :=
  ⟨NewGridBot_testConfig _, rfl,
   Start_total_value maxSliceLen mockExchange.methods testConfig
    (testBot mockExchange.methods)
    mockStart mockStart 30000 (NewGridBot_testConfig _) rfl, by decide!⟩

/-- An engine NewGridBot returned, in any number type: its fields, the validity of its
grid parameters, the number of its levels and how each was computed. -/
theorem NewGridBot_levels {α σ : Type} [Zero α] [LE α]
    [DecidableRel (fun a b : α => a ≤ b)] [Add α] [Sub α] [Mul α] [Div α] [IntCast α]
    (room : Nat) (exchange : Exchange α σ) (config : GridBotConfig α) (b : GridBot α σ)
    (h : NewGridBot room exchange config = .ret (.ok b)) :
    b.config = config ∧ b.running = false ∧ b.orders = [] ∧
    ValidateGridParams config.LowerPrice config.UpperPrice config.GridNum = none ∧
    (b.levels.length : Int) = config.GridNum ∧
    ∀ level ∈ b.levels, ∃ i : Nat, (i : Int) < 2 ^ 63 ∧
      level = config.LowerPrice + ((i : Int) : α) *
        ((config.UpperPrice - config.LowerPrice) / ((config.GridNum - 1 : Int) : α)) := by
  obtain ⟨-, hg, hfit, rfl⟩ := NewGridBot_inv room exchange config b h
  have h2 := ValidateGridParams_none_gridNum _ _ _ hg
  refine ⟨rfl, rfl, rfl, hg, ?_, ?_⟩
  · show (((List.range config.GridNum.toNat).map _).length : Int) = config.GridNum
    rw [List.length_map, List.length_range]
    omega
  · intro level hl
    obtain ⟨i, hi, hlevel⟩ := levels_list_mem _ _ _ level hl
    exact ⟨i, Int.lt_trans hi (fits_lt room _ hfit), hlevel⟩

/-- C22 (amended). For every valid (lower, upper, gridNum) whose levels make can
allocate: in float64 arithmetic no level returned by CalculateGridLevels is zero, so on
a successfully constructed engine the division quantityPerGrid / level in Start never
divides by zero, and with finite prices every level is at least lower and strictly
positive; in exact rational arithmetic every level lies in the closed interval
[lower, upper] and is strictly positive, the division never divides by zero and every
submitted order has a strictly positive quantity. -/
theorem levels_bounded_quantities_positive (σ : Type) (room : Nat) :
    (∀ (lower upper : F64) (gridNum : Int), ValidateGridParams lower upper gridNum = none →
      gridNum ≤ ((min room maxSliceLen : Nat) : Int) →
      ∃ levels, CalculateGridLevels room lower upper gridNum = .ret (some levels) ∧
        (∀ level ∈ levels, (level == 0) = false) ∧
        (lower.Finite → upper.Finite → ∀ level ∈ levels, lower ≤ level ∧ 0 < level)) ∧
    (∀ (exchange : Exchange F64 σ) (config : GridBotConfig F64) (b : GridBot F64 σ)
      (s s1 : σ) (p : F64), NewGridBot room exchange config = .ret (.ok b) →
      b.exchange.GetSymbolPrice s b.config.Symbol = (.ok p, s1) →
      (∀ level ∈ b.levels, (level == 0) = false) ∧
      ∀ o ∈ submitted (Start b s).calls, (o.Price == 0) = false ∧
        o.Quantity = config.Investment / ((config.GridNum * 2 : Int) : F64) / o.Price) ∧
    (∀ (lower upper : ℚ) (gridNum : Int), ValidateGridParams lower upper gridNum = none →
      gridNum ≤ ((min room maxSliceLen : Nat) : Int) →
      ∃ levels, CalculateGridLevels room lower upper gridNum = .ret (some levels) ∧
        ∀ level ∈ levels, lower ≤ level ∧ level ≤ upper ∧ 0 < level) ∧
    (∀ (exchange : Exchange ℚ σ) (config : GridBotConfig ℚ) (b : GridBot ℚ σ)
      (s s1 : σ) (p : ℚ), NewGridBot room exchange config = .ret (.ok b) →
      b.exchange.GetSymbolPrice s b.config.Symbol = (.ok p, s1) →
      (∀ level ∈ b.levels, level ≠ 0) ∧
      ∀ o ∈ submitted (Start b s).calls,
        o.Price ≠ 0 ∧
        o.Quantity = config.Investment / (2 * (config.GridNum : ℚ)) / o.Price ∧
        0 < o.Quantity) := by
  refine ⟨?_, ?_, ?_, ?_⟩
  · intro lower upper gridNum hvalid hfit
    refine ⟨_, CalculateGridLevels_of_valid room lower upper gridNum hvalid hfit, ?_, ?_⟩
    · intro level hl
      obtain ⟨i, -, rfl⟩ := levels_list_mem _ _ _ level hl
      exact float64_level_ne_zero lower upper gridNum i hvalid
    · intro hlo hup level hl
      obtain ⟨i, hi, rfl⟩ := levels_list_mem _ _ _ level hl
      exact float64_level_ge lower upper gridNum i hlo hup hvalid
        (Int.lt_trans hi (fits_lt room _ hfit))
  · intro exchange config b s s1 p hnew hprice
    obtain ⟨hcfg, hidle, -, hg, -, hlev⟩ := NewGridBot_levels room exchange config b hnew
    have hne : ∀ level ∈ b.levels, (level == 0) = false := by
      intro level hl
      obtain ⟨i, -, rfl⟩ := hlev level hl
      exact float64_level_ne_zero _ _ _ i hg
    refine ⟨hne, ?_⟩
    intro o ho
    rw [submitted_Start b s s1 p hidle hprice, hcfg] at ho
    obtain ⟨level, hl, -, rfl⟩ := mem_gridOrders _ _ _ _ o ho
    exact ⟨hne level hl, rfl⟩
  · intro lower upper gridNum hvalid hfit
    obtain ⟨h0, -, h1, h2⟩ := (ValidateGridParams_none_iff lower upper gridNum).mp hvalid
    refine ⟨_, CalculateGridLevels_of_valid room lower upper gridNum hvalid hfit, ?_⟩
    intro level hl
    apply grid_level_bounds lower upper gridNum h0 h1 h2 level
    rw [List.mem_map] at hl ⊢
    obtain ⟨i, hi, rfl⟩ := hl
    exact ⟨i, hi, by push_cast; ring⟩
  · intro exchange config b s s1 p hnew hprice
    obtain ⟨hinv, -, -, hg2, -, -, -, -⟩ := NewGridBot_rat room exchange config b hnew
    obtain ⟨hsub, -, -, hbounds⟩ := submitted_rat room exchange config b s s1 p hnew hprice
    have hg : (0 : ℚ) < (config.GridNum : ℚ) := by
      have : (2 : ℚ) ≤ (config.GridNum : ℚ) := by exact_mod_cast hg2
      linarith
    have hq : 0 < config.Investment / (2 * (config.GridNum : ℚ)) :=
      div_pos hinv (by linarith)
    refine ⟨?_, ?_⟩
    · intro level hl
      exact ne_of_gt (hbounds level hl).2.2
    · intro o ho
      rw [hsub] at ho
      obtain ⟨level, hl, -, rfl⟩ := mem_gridOrders _ _ _ _ o ho
      have hpos := (hbounds level hl).2.2
      exact ⟨ne_of_gt hpos, rfl, div_pos hq hpos⟩

/-- The engine of the float64 configuration with the smallest investment. -/
theorem NewGridBot_dustConfig {σ : Type} (exchange : Exchange F64 σ) :
    NewGridBot maxSliceLen exchange dustConfig = .ret (.ok (dustBot exchange)) := by
  have hv : validateConfig dustConfig = none := by decide!
  obtain ⟨levels, hl, hb⟩ := NewGridBot_of_valid maxSliceLen exchange dustConfig hv (by decide)
  rw [hb]
  unfold dustBot
  rw [hl]
  rfl

set_option maxRecDepth 10000 in
/-- Witness of C22 (amended): the grid (1, 30, 8) and the engine built for it with the
smallest investment, in float64; the grid (100, 200, 5) and the engine of the test, over
the rationals. -/
theorem levels_bounded_quantities_positive_witness :
    ValidateGridParams (F64.ofInt 1) (F64.ofInt 30) 8 = none ∧
    (8 : Int) ≤ ((min maxSliceLen maxSliceLen : Nat) : Int) ∧
    (F64.ofInt 1).Finite ∧ (F64.ofInt 30).Finite ∧
    (∃ levels, CalculateGridLevels maxSliceLen (F64.ofInt 1) (F64.ofInt 30) 8 =
        .ret (some levels) ∧
      (∀ level ∈ levels, (level == 0) = false) ∧
      ((F64.ofInt 1).Finite → (F64.ofInt 30).Finite →
        ∀ level ∈ levels, F64.ofInt 1 ≤ level ∧ 0 < level)) ∧
    NewGridBot maxSliceLen (acceptingExchange (F64.ofInt 8)) dustConfig =
      .ret (.ok (dustBot (acceptingExchange (F64.ofInt 8)))) ∧
    (dustBot (acceptingExchange (F64.ofInt 8))).exchange.GetSymbolPrice 0
      (dustBot (acceptingExchange (F64.ofInt 8))).config.Symbol = (.ok (F64.ofInt 8), 0) ∧
    ((∀ level ∈ (dustBot (acceptingExchange (F64.ofInt 8))).levels, (level == 0) = false) ∧
     ∀ o ∈ submitted (Start (dustBot (acceptingExchange (F64.ofInt 8))) 0).calls,
       (o.Price == 0) = false ∧
       o.Quantity = dustConfig.Investment / ((dustConfig.GridNum * 2 : Int) : F64) /
         o.Price) ∧
    ValidateGridParams (100 : ℚ) 200 5 = none ∧
    (5 : Int) ≤ ((min maxSliceLen maxSliceLen : Nat) : Int) ∧
    (∃ levels, CalculateGridLevels maxSliceLen (100 : ℚ) 200 5 = .ret (some levels) ∧
      ∀ level ∈ levels, (100 : ℚ) ≤ level ∧ level ≤ 200 ∧ 0 < level) ∧
    NewGridBot maxSliceLen mockExchange.methods testConfig =
      .ret (.ok (testBot mockExchange.methods)) ∧
    (testBot mockExchange.methods).exchange.GetSymbolPrice mockStart
      (testBot mockExchange.methods).config.Symbol = (.ok 30000, mockStart) ∧
    ((∀ level ∈ (testBot mockExchange.methods).levels, level ≠ 0) ∧
     (∀ o ∈ submitted (Start (testBot mockExchange.methods) mockStart).calls,
       o.Price ≠ 0 ∧
       o.Quantity = testConfig.Investment / (2 * (testConfig.GridNum : ℚ)) / o.Price ∧
       0 < o.Quantity)) :=
  ⟨by decide!, by decide, by decide!, by decide!,
   (levels_bounded_quantities_positive Nat maxSliceLen).1 (F64.ofInt 1) (F64.ofInt 30) 8
    (by decide!) (by decide),
   NewGridBot_dustConfig _, rfl,
   (levels_bounded_quantities_positive Nat maxSliceLen).2.1 (acceptingExchange (F64.ofInt 8))
    dustConfig (dustBot (acceptingExchange (F64.ofInt 8))) 0 0 (F64.ofInt 8)
    (NewGridBot_dustConfig _) rfl,
   (ValidateGridParams_none_iff _ _ _).mpr ⟨by norm_num, by norm_num, by norm_num, by norm_num⟩,
   by decide,
   (levels_bounded_quantities_positive mockExchange maxSliceLen).2.2.1 100 200 5
    ((ValidateGridParams_none_iff _ _ _).mpr ⟨by norm_num, by norm_num, by norm_num, by norm_num⟩)
    (by decide),
   NewGridBot_testConfig _, rfl,
   (levels_bounded_quantities_positive mockExchange maxSliceLen).2.2.2 mockExchange.methods testConfig
    (testBot mockExchange.methods) mockStart mockStart 30000 (NewGridBot_testConfig _) rfl⟩

set_option maxRecDepth 10000 in
/-- C22 fails in float64 arithmetic: for the valid input (1, 30, 8) the last level is
30.000000000000004, above upper = 30; on the engine constructed for (1, 30, 8) with the
investment 5e-324, started at the price 8, quantityPerGrid rounds to zero and all eight
submitted orders have the quantity zero; and for the valid input (1, +Inf, 2) the first
level is NaN, neither at least lower nor strictly positive. -/
theorem levels_float64_above_upper_quantity_zero :
    ValidateGridParams (F64.ofInt 1) (F64.ofInt 30) 8 = none ∧
    (∃ levels, CalculateGridLevels maxSliceLen (F64.ofInt 1) (F64.ofInt 30) 8 =
        .ret (some levels) ∧
      levels[7]? = some (F64.ofRatio 30000000000000004 1000000000000000)) ∧
    ¬ (F64.ofRatio 30000000000000004 1000000000000000 ≤ F64.ofInt 30) ∧
    NewGridBot maxSliceLen (acceptingExchange (F64.ofInt 8)) dustConfig =
      .ret (.ok (dustBot (acceptingExchange (F64.ofInt 8)))) ∧
    (0 : F64) < dustConfig.Investment ∧
    (submitted (Start (dustBot (acceptingExchange (F64.ofInt 8))) 0).calls).map
      (fun o => o.Quantity) = List.replicate 8 (0 : F64) ∧
    ¬ ((0 : F64) < (0 : F64)) ∧
    ValidateGridParams (F64.ofInt 1) (F64.inf false) 2 = none ∧
    CalculateGridLevels maxSliceLen (F64.ofInt 1) (F64.inf false) 2 =
      .ret (some [F64.nan, F64.inf false]) ∧
    ¬ (F64.ofInt 1 ≤ F64.nan) ∧ ¬ ((0 : F64) < F64.nan) := by
  refine ⟨by decide!,
    ⟨_, CalculateGridLevels_of_valid _ _ _ _ (by decide!) (by decide), by decide!⟩,
    by decide!, NewGridBot_dustConfig _, by decide!, by decide!, by decide!, by decide!,
    by decide!, by decide!, by decide!⟩

/-- C23 (amended). For every successfully constructed engine whose price fetch
succeeds, in any number type, Start makes gridNum PlaceOrder calls less the number of
levels equal to the current price: at most gridNum calls, and exactly gridNum when no
level equals the price; so, the order book being empty, the number of open orders after
Start is at most gridNum. In exact rational arithmetic at most one level equals the
price, so the calls are either gridNum or gridNum - 1. -/
theorem Start_PlaceOrder_count (α σ : Type) [Zero α] [LE α]
    [DecidableRel (fun a b : α => a ≤ b)] [Add α] [Sub α] [Mul α] [Div α] [IntCast α]
    [BEq α] [LT α] [DecidableRel (fun a b : α => a < b)] (room : Nat) :
    (∀ (exchange : Exchange α σ) (config : GridBotConfig α) (b : GridBot α σ)
      (s s1 : σ) (p : α), NewGridBot room exchange config = .ret (.ok b) →
      b.exchange.GetSymbolPrice s b.config.Symbol = (.ok p, s1) →
      ((submitted (Start b s).calls).length : Int) =
        config.GridNum - ((b.levels.filter (fun level => level == p)).length : Int) ∧
      ((submitted (Start b s).calls).length : Int) ≤ config.GridNum ∧
      ((∀ level ∈ b.levels, (level == p) = false) →
        ((submitted (Start b s).calls).length : Int) = config.GridNum) ∧
      b.orders = [] ∧
      ((Start b s).bot.orders.length : Int) ≤ config.GridNum) ∧
    (∀ (exchange : Exchange ℚ σ) (config : GridBotConfig ℚ) (b : GridBot ℚ σ)
      (s s1 : σ) (p : ℚ), NewGridBot room exchange config = .ret (.ok b) →
      b.exchange.GetSymbolPrice s b.config.Symbol = (.ok p, s1) →
      (b.levels.filter (fun level => level == p)).length ≤ 1 ∧
      ((submitted (Start b s).calls).length : Int) =
        config.GridNum - ((b.levels.filter (fun level => level == p)).length : Int) ∧
      (((submitted (Start b s).calls).length : Int) = config.GridNum ∨
        ((submitted (Start b s).calls).length : Int) = config.GridNum - 1) ∧
      (p ∉ b.levels → ((submitted (Start b s).calls).length : Int) = config.GridNum) ∧
      b.orders = [] ∧
      ((Start b s).bot.orders.length : Int) ≤ config.GridNum) := by
  constructor
  · intro exchange config b s s1 p hnew hprice
    obtain ⟨-, hidle, hempty, -, hlen, -⟩ := NewGridBot_levels room exchange config b hnew
    have hadd := gridOrders_length b.config.Symbol p
      (b.config.Investment / ((b.config.GridNum * 2 : Int) : α)) b.levels
    rw [← submitted_Start b s s1 p hidle hprice] at hadd
    have hord := Start_orders_length_le b s s1 p hidle hprice
    rw [hempty] at hord
    simp only [List.length_nil, Nat.zero_add] at hord
    refine ⟨by omega, by omega, fun hp => ?_, hempty, by omega⟩
    have hnone : b.levels.filter (fun level => level == p) = [] := by
      rw [List.filter_eq_nil_iff]
      intro level hl hlp
      rw [hp level hl] at hlp
      cases hlp
    rw [hnone] at hadd
    simp only [List.length_nil, Nat.add_zero] at hadd
    omega
  · intro exchange config b s s1 p hnew hprice
    obtain ⟨-, -, -, -, -, hidle, hempty, -⟩ := NewGridBot_rat room exchange config b hnew
    obtain ⟨hsub, hlen, hnodup, -⟩ := submitted_rat room exchange config b s s1 p hnew hprice
    have hcount : (b.levels.filter (fun level => level == p)).length ≤ 1 := by
      have h1 := List.nodup_iff_count_le_one.mp hnodup p
      rw [List.count_eq_countP, List.countP_eq_length_filter] at h1
      exact h1
    have hadd := gridOrders_length config.Symbol p
      (config.Investment / (2 * (config.GridNum : ℚ))) b.levels
    rw [← hsub] at hadd
    have hord := Start_orders_length_le b s s1 p hidle hprice
    rw [hempty] at hord
    simp only [List.length_nil, Nat.zero_add] at hord
    refine ⟨hcount, by omega, by omega, fun hp => ?_, hempty, by omega⟩
    have hnone : b.levels.filter (fun level => level == p) = [] := by
      rw [List.filter_eq_nil_iff]
      intro level hl hlp
      have : level = p := by simpa using hlp
      exact hp (this ▸ hl)
    rw [hnone] at hadd
    simp only [List.length_nil, Nat.add_zero] at hadd
    omega

/-- The engine of the float64 configuration with neighbouring prices. -/
theorem NewGridBot_denseConfig {σ : Type} (exchange : Exchange F64 σ) :
    NewGridBot maxSliceLen exchange denseConfig = .ret (.ok (denseBot exchange)) := by
  have hv : validateConfig denseConfig = none := by decide!
  obtain ⟨levels, hl, hb⟩ :=
    NewGridBot_of_valid maxSliceLen exchange denseConfig hv (by decide)
  rw [hb]
  unfold denseBot
  rw [hl]
  rfl

set_option maxRecDepth 10000 in
/-- Witness of C23 (amended): in float64 the engine with the levels
[2^53, 2^53, 2^53 + 2] at the price 2^53, one PlaceOrder call for three levels of which
two equal the price; over the rationals the engine of the test at the price 30000, one of
its five levels, four PlaceOrder calls. -/
theorem Start_PlaceOrder_count_witness :
    NewGridBot maxSliceLen (acceptingExchange (F64.ofInt 9007199254740992)) denseConfig =
      .ret (.ok (denseBot (acceptingExchange (F64.ofInt 9007199254740992)))) ∧
    (denseBot (acceptingExchange (F64.ofInt 9007199254740992))).exchange.GetSymbolPrice 0
      (denseBot (acceptingExchange (F64.ofInt 9007199254740992))).config.Symbol =
        (.ok (F64.ofInt 9007199254740992), 0) ∧
    (submitted (Start (denseBot (acceptingExchange (F64.ofInt 9007199254740992)))
      0).calls).length = 1 ∧
    (((submitted (Start (denseBot (acceptingExchange (F64.ofInt 9007199254740992)))
        0).calls).length : Int) =
      denseConfig.GridNum -
        (((denseBot (acceptingExchange (F64.ofInt 9007199254740992))).levels.filter
          (fun level => level == F64.ofInt 9007199254740992)).length : Int) ∧
     ((submitted (Start (denseBot (acceptingExchange (F64.ofInt 9007199254740992)))
        0).calls).length : Int) ≤ denseConfig.GridNum ∧
     ((∀ level ∈ (denseBot (acceptingExchange (F64.ofInt 9007199254740992))).levels,
        (level == F64.ofInt 9007199254740992) = false) →
      ((submitted (Start (denseBot (acceptingExchange (F64.ofInt 9007199254740992)))
        0).calls).length : Int) = denseConfig.GridNum) ∧
     (denseBot (acceptingExchange (F64.ofInt 9007199254740992))).orders = [] ∧
     ((Start (denseBot (acceptingExchange (F64.ofInt 9007199254740992)))
        0).bot.orders.length : Int) ≤ denseConfig.GridNum) ∧
    NewGridBot maxSliceLen mockExchange.methods testConfig =
      .ret (.ok (testBot mockExchange.methods)) ∧
    (testBot mockExchange.methods).exchange.GetSymbolPrice mockStart
      (testBot mockExchange.methods).config.Symbol = (.ok 30000, mockStart) ∧
    (submitted (Start (testBot mockExchange.methods) mockStart).calls).length = 4 ∧
    (((testBot mockExchange.methods).levels.filter
        (fun level => level == (30000 : ℚ))).length ≤ 1 ∧
     ((submitted (Start (testBot mockExchange.methods) mockStart).calls).length : Int) =
       testConfig.GridNum - (((testBot mockExchange.methods).levels.filter
         (fun level => level == (30000 : ℚ))).length : Int) ∧
     (((submitted (Start (testBot mockExchange.methods) mockStart).calls).length : Int) =
         testConfig.GridNum ∨
       ((submitted (Start (testBot mockExchange.methods) mockStart).calls).length : Int) =
         testConfig.GridNum - 1) ∧
     ((30000 : ℚ) ∉ (testBot mockExchange.methods).levels →
       ((submitted (Start (testBot mockExchange.methods) mockStart).calls).length : Int) =
         testConfig.GridNum) ∧
     (testBot mockExchange.methods).orders = [] ∧
     ((Start (testBot mockExchange.methods) mockStart).bot.orders.length : Int) ≤
       testConfig.GridNum) :=
  ⟨NewGridBot_denseConfig _, rfl, by decide!,
   (Start_PlaceOrder_count F64 Nat maxSliceLen).1 (acceptingExchange (F64.ofInt 9007199254740992))
    denseConfig (denseBot (acceptingExchange (F64.ofInt 9007199254740992))) 0 0
    (F64.ofInt 9007199254740992) (NewGridBot_denseConfig _) rfl,
   NewGridBot_testConfig _, rfl, by decide,
   (Start_PlaceOrder_count ℚ mockExchange maxSliceLen).2 mockExchange.methods testConfig
    (testBot mockExchange.methods) mockStart mockStart 30000 (NewGridBot_testConfig _) rfl⟩

set_option maxRecDepth 10000 in
/-- C23 fails in float64 arithmetic: the engine constructed for lower = 2^53,
upper = 2^53 + 2 and gridNum = 3 has the levels [2^53, 2^53, 2^53 + 2]; at the current
price 2^53 two levels equal the price and Start makes one PlaceOrder call, neither
gridNum = 3 nor gridNum - 1 = 2. -/
theorem Start_float64_two_levels_skipped :
    NewGridBot maxSliceLen (acceptingExchange (F64.ofInt 9007199254740992)) denseConfig =
      .ret (.ok (denseBot (acceptingExchange (F64.ofInt 9007199254740992)))) ∧
    denseConfig.GridNum = 3 ∧
    (denseBot (acceptingExchange (F64.ofInt 9007199254740992))).levels =
      [F64.ofInt 9007199254740992, F64.ofInt 9007199254740992,
       F64.ofInt 9007199254740994] ∧
    (Start (denseBot (acceptingExchange (F64.ofInt 9007199254740992))) 0).err = none ∧
    (submitted (Start (denseBot (acceptingExchange (F64.ofInt 9007199254740992)))
      0).calls).map (fun o => o.Price) = [F64.ofInt 9007199254740994] ∧
    (submitted (Start (denseBot (acceptingExchange (F64.ofInt 9007199254740992)))
      0).calls).length = 1 :=
  ⟨NewGridBot_denseConfig _, rfl, by decide!, by decide!, by decide!, by decide!⟩

end SpotGridBot
